import Mathlib

set_option linter.unusedSectionVars false

/-!
Verification model of the `indexed_set` repository: a single-arena AVL tree
(`indexed::inode`, `indexed::_AvlTree`, `indexed::set` in
`src/indexed_set/core/inode.h` and `src/indexed_set/indexed_set.cpp`,
`indexed::_Growable` for the byte arena).

Modelling conventions:
* The arena is a list of node records indexed by slot number; the node at
  C++ byte offset `o` is the list entry `o / sizeof(inode)`.  All C++ link
  fields (`parent`, `left`, `right`) are signed byte distances that are
  always multiples of `sizeof(inode)`; the model stores them divided by
  `sizeof(inode)`, as `Int`.  `ToSlot` then becomes the identity on node
  offsets, and `set::erase_at(pos)`/`set::at(pos)` address slot `pos`
  directly.
* C++ null pointers are modelled as `Option.none`; `off` values use the
  C++ convention that `0` means "absent".
* Loops (`while`) become fuel recursion; the fuel used by the public
  operations is the arena length plus one, which dominates every walk the
  C++ performs on well-formed trees.  Fuel exhaustion returns a designated
  harmless value and never occurs on the states the theorems speak about.
* `memset`-style wiping writes the `Inhabited` default payload (the value
  whose bytes are all zero for the POD payloads the container supports).
* The byte buffer `_Growable` is modelled separately, byte-exactly, for the
  growth-policy claim; the tree container tracks its byte capacity with the
  same formulas, parameterised by the node size `NSZ`.
-/

namespace IndexedSet

/-- Direction / balance tag of a tree node (C++ `indexed::Dir`).
`Dir::Left = 1`, `Dir::None = 2`, `Dir::Right = 3`; the extra `zero`
constructor is the all-zero byte state that `memset` leaves in the `tilt`
field of a decommissioned node (no C++ enumerator has value 0). -/
inductive Dir : Type where
  | zero : Dir
  | left : Dir
  | none : Dir
  | right : Dir
deriving DecidableEq, Repr, Inhabited

/-- C++ `operator~(Dir)`: `d == Left ? Right : Left`. -/
def Dir.flip (d : Dir) : Dir := if d = Dir.left then Dir.right else Dir.left

/-- C++ `operator!(Dir)`: true exactly when the direction is `None`. -/
def Dir.isNone (d : Dir) : Bool := d = Dir.none

/-! ## The byte arena `indexed::_Growable<1024, 16>`

The buffer contents are a list of bytes whose length is the current
capacity (`_GrowBy` zero-fills everything past `len_` in a fresh buffer,
so the contents are fully determined).  `ptr_ == nullptr` corresponds to
`data = []` together with `len_ = 0`. -/

/-- Byte buffer state of `_Growable<MIN_GROW_BY = 1024, Ta = 16>`:
`data` is the allocated buffer (length = `capacity_`), `len_` the used
prefix length. -/
structure _Growable where
  data : List Nat
  len_ : Nat
deriving Repr, DecidableEq

/-- `_Growable::capacity_` (the model keeps it as the buffer length). -/
def _Growable.capacity_ (g : _Growable) : Nat := g.data.length

/-- `_Growable::Aligned(n)`: `(n + (Ta-1)) & ~(Ta-1)` with `Ta = 16`.
`~(Ta-1)` is a 32-bit mask, so the `uint64` sum is truncated to 32 bits
before the low 4 bits are cleared. -/
def _Growable.Aligned (n : Nat) : Nat := ((n + 15) % 4294967296) / 16 * 16

/-- The fresh capacity chosen by `_Growable::_GrowBy` when it must grow:
`Aligned(max{bytesToAdd - (capacity_ - len_), MIN_GROW_BY, capacity_ / 2} + capacity_)`. -/
def _Growable.newCap (g : _Growable) (bytesToAdd : Nat) : Nat :=
  _Growable.Aligned
    (max (bytesToAdd - (g.capacity_ - g.len_)) (max 1024 (g.capacity_ / 2)) + g.capacity_)

/-- `_Growable::_GrowBy(bytesToAdd)`: if the free space does not cover
`bytesToAdd`, allocate `newCap` bytes, copy the `len_` live bytes and
zero-fill the rest; otherwise leave the buffer alone.  The returned `Nat`
is the append position `len_` (the C++ returns `ptr_ + len_`). -/
def _Growable._GrowBy (g : _Growable) (bytesToAdd : Nat) : _Growable × Nat :=
  if g.capacity_ - g.len_ < bytesToAdd then
    let _NewCap := g.newCap bytesToAdd
    let _Moved := g.data.take g.len_ ++ List.replicate (_NewCap - g.len_) 0
    (⟨_Moved, g.len_⟩, g.len_)
  else
    (g, g.len_)

/-- `_Growable::_PtrAppendZeroBytes(cnt)`: grow, then advance `len_`. -/
def _Growable._PtrAppendZeroBytes (g : _Growable) (cnt : Nat) : _Growable × Nat :=
  let p := g._GrowBy cnt
  (⟨p.1.data, p.1.len_ + cnt⟩, p.2)

/-- `_Growable::_Reserve(totalBytes)`: grow by `totalBytes - len_` when
`totalBytes > capacity_`. -/
def _Growable._Reserve (g : _Growable) (totalBytes : Nat) : _Growable :=
  if totalBytes > g.capacity_ then (g._GrowBy (totalBytes - g.len_)).1 else g

/-- `_Growable::_Reset()`: release the buffer; length and capacity zero. -/
def _Growable._Reset (_g : _Growable) : _Growable := ⟨[], 0⟩

/-! ## The node record `indexed::inode<Tu, Tc>`

Link fields are signed distances in units of `sizeof(inode)` (the C++
stores the same distances in bytes).  The padding fields `tag8`/`tag16`
are unused by the algorithms and are omitted. -/

/-- One arena node (`indexed::inode`).  The all-zero record (payload with
all-zero bytes, links `0`, `tilt = Dir.zero`) is what `memset(n, 0, ...)`
produces; it is the `Inhabited` default. -/
structure INode (α : Type) where
  payload : α
  parent : Int
  left : Int
  right : Int
  tilt : Dir
deriving Repr, DecidableEq

instance {α : Type} [Inhabited α] : Inhabited (INode α) :=
  ⟨{ payload := default, parent := 0, left := 0, right := 0, tilt := Dir.zero }⟩

/-- Container state of `indexed::_AvlTree` (= `indexed::set`): the arena
(one record per slot, slot 0 is the sentinel once the arena is non-empty),
the scalar fields `_Cnt` and `_Root` (root offset in node units, 0 when
empty), and the byte capacity of the underlying `_Growable`. -/
structure AvlState (α : Type) where
  arena : List (INode α)
  _Cnt : Nat
  _Root : Int
  capacity_ : Nat
deriving Repr, DecidableEq

namespace AvlState

variable {α : Type} [Inhabited α]

/-- The empty container (`_AvlTree()`): no buffer, no root, no elements. -/
def empty : AvlState α := ⟨[], 0, 0, 0⟩

/-- Read the node at slot `i` (C++ pointer dereference).  Out-of-arena
reads never happen on the states the theorems speak about; they return the
all-zero record. -/
def getN (st : AvlState α) (i : Int) : INode α := st.arena.getD i.toNat default

/-- Overwrite the node at slot `i`. -/
def setN (st : AvlState α) (i : Int) (n : INode α) : AvlState α :=
  { st with arena := st.arena.set i.toNat n }

/-- Update the node at slot `i` with `f`. -/
def updN (st : AvlState α) (i : Int) (f : INode α → INode α) : AvlState α :=
  st.setN i (f (st.getN i))

/-- `inode::IsEmpty()`: zero `tilt` marks a non-initialized or deleted node. -/
def IsEmpty (st : AvlState α) (i : Int) : Bool := (st.getN i).tilt = Dir.zero

/-- `inode::_Ptr(o)`: the node `o` away from `this`. -/
def _Ptr (i o : Int) : Int := i + o

/-- `inode::Nleft()`. -/
def Nleft (st : AvlState α) (i : Int) : Int := _Ptr i (st.getN i).left

/-- `inode::Nright()`. -/
def Nright (st : AvlState α) (i : Int) : Int := _Ptr i (st.getN i).right

/-- `inode::Nparent()`. -/
def Nparent (st : AvlState α) (i : Int) : Int := _Ptr i (st.getN i).parent

/-- `inode::NSafeParent()`: `parent ? _Ptr(parent) : nullptr`. -/
def NSafeParent (st : AvlState α) (i : Int) : Option Int :=
  if (st.getN i).parent ≠ 0 then some (_Ptr i (st.getN i).parent) else Option.none

/-- `inode::NSafeLeft()`. -/
def NSafeLeft (st : AvlState α) (i : Int) : Option Int :=
  if (st.getN i).left ≠ 0 then some (_Ptr i (st.getN i).left) else Option.none

/-- `inode::NSafeRight()`. -/
def NSafeRight (st : AvlState α) (i : Int) : Option Int :=
  if (st.getN i).right ≠ 0 then some (_Ptr i (st.getN i).right) else Option.none

/-- `inode::Branch()`: which side of its parent this node hangs on
(`None` for a parentless node). -/
def Branch (st : AvlState α) (i : Int) : Dir :=
  if (st.getN i).parent ≠ 0 then
    (if (st.getN (i + (st.getN i).parent)).left = -(st.getN i).parent
     then Dir.left else Dir.right)
  else Dir.none

/-- `inode::Nheavy()`: the child on the `tilt` side
(`tilt == Left ? _Ptr(left) : _Ptr(right)`). -/
def Nheavy (st : AvlState α) (i : Int) : Int :=
  if (st.getN i).tilt = Dir.left then _Ptr i (st.getN i).left else _Ptr i (st.getN i).right

/-- `inode::Root()`: walk `parent` links to the tree root (fuel-bounded). -/
def RootOf (st : AvlState α) (fuel : Nat) (i : Int) : Int :=
  match fuel with
  | 0 => i
  | fuel + 1 =>
    if (st.getN i).parent ≠ 0 then st.RootOf fuel (_Ptr i (st.getN i).parent) else i

/-- `inode::LeftmostOf(n)`: descend `left` links while they exist. -/
def LeftmostOf (st : AvlState α) (fuel : Nat) (i : Int) : Int :=
  match fuel with
  | 0 => i
  | fuel + 1 =>
    if (st.getN i).left ≠ 0 then st.LeftmostOf fuel (_Ptr i (st.getN i).left) else i

/-- Upward phase of `inode::InorderNextOf`: climb through parents until the
climb arrives from a left branch. -/
def inorderUp (st : AvlState α) (fuel : Nat) (i : Int) (b : Dir) : Option Int :=
  match fuel with
  | 0 => Option.none
  | fuel + 1 =>
    match st.NSafeParent i with
    | Option.none => Option.none
    | some p => if b = Dir.left then some p else st.inorderUp fuel p (st.Branch p)

/-- `inode::InorderNextOf(n)`: next node in order, or null. -/
def InorderNextOf (st : AvlState α) (fuel : Nat) (n : Option Int) : Option Int :=
  match n with
  | Option.none => Option.none
  | some i =>
    if (st.getN i).right ≠ 0 then some (st.LeftmostOf fuel (_Ptr i (st.getN i).right))
    else st.inorderUp fuel i (st.Branch i)

/-- `inode::Inorder` (the recursion behind `_AvlTree::Foreach`): in-order
payload list of the subtree at `i`. -/
def inorderList (st : AvlState α) (fuel : Nat) (i : Int) : List α :=
  match fuel with
  | 0 => []
  | fuel + 1 =>
    (if (st.getN i).left ≠ 0 then st.inorderList fuel (_Ptr i (st.getN i).left) else [])
      ++ [(st.getN i).payload]
      ++ (if (st.getN i).right ≠ 0 then st.inorderList fuel (_Ptr i (st.getN i).right) else [])

/-- Assign the `parent` field of the node at slot `i`. -/
def setP (st : AvlState α) (i : Int) (v : Int) : AvlState α :=
  st.updN i (fun n => { n with parent := v })

/-- Assign the `left` field of the node at slot `i`. -/
def setL (st : AvlState α) (i : Int) (v : Int) : AvlState α :=
  st.updN i (fun n => { n with left := v })

/-- Assign the `right` field of the node at slot `i`. -/
def setR (st : AvlState α) (i : Int) (v : Int) : AvlState α :=
  st.updN i (fun n => { n with right := v })

/-- Assign the `tilt` field of the node at slot `i`. -/
def setT (st : AvlState α) (i : Int) (v : Dir) : AvlState α :=
  st.updN i (fun n => { n with tilt := v })

/-- `inode::_Rotate_LL(Z, Y, X)` (the `X` argument is unused by the C++
body as well); statements transcribed in source order, each reading the
current state. -/
def _Rotate_LL (st : AvlState α) (Z Y _X : Int) : AvlState α :=
  let st :=
    match st.NSafeParent Z with
    | some P =>
      let st := st.setP Y ((st.getN Y).parent + (st.getN Z).parent)
      if (st.getN P).left = -(st.getN Z).parent then
        st.setL P ((st.getN P).left + (st.getN Z).left)
      else
        st.setR P ((st.getN P).right + (st.getN Z).left)
    | Option.none => st.setP Y 0
  let st := st.setP Z (st.getN Z).left
  let st :=
    if (st.getN Y).right ≠ 0 then
      let st := st.setL Z ((st.getN Z).left + (st.getN Y).right)
      st.setP (st.Nleft Z) (-(st.getN Z).left)
    else st.setL Z 0
  st.setR Y (-(st.getN Z).parent)

/-- `inode::_Rotate_RR(Z, Y, X)`. -/
def _Rotate_RR (st : AvlState α) (Z Y _X : Int) : AvlState α :=
  let st :=
    match st.NSafeParent Z with
    | some P =>
      let st := st.setP Y ((st.getN Y).parent + (st.getN Z).parent)
      if (st.getN P).left = -(st.getN Z).parent then
        st.setL P ((st.getN P).left + (st.getN Z).right)
      else
        st.setR P ((st.getN P).right + (st.getN Z).right)
    | Option.none => st.setP Y 0
  let st := st.setP Z (st.getN Z).right
  let st :=
    if (st.getN Y).left ≠ 0 then
      let st := st.setR Z ((st.getN Z).right + (st.getN Y).left)
      st.setP (st.Nright Z) (-(st.getN Z).right)
    else st.setR Z 0
  st.setL Y (-(st.getN Z).parent)

/-- `inode::_Rotate_LR(Z, Y, X)`: the double rotation, `X` ends up in
`Z`'s place. -/
def _Rotate_LR (st : AvlState α) (Z Y X : Int) : AvlState α :=
  let st :=
    match st.NSafeParent Z with
    | some P =>
      let st :=
        if (st.getN P).left = -(st.getN Z).parent then
          st.setL P (X - P)
        else
          st.setR P (X - P)
      st.setP X (P - X)
    | Option.none => st.setP X 0
  let st := st.setP Z (X - Z)
  let st :=
    if (st.getN X).right ≠ 0 then
      let st := st.setL Z ((st.getN Z).parent + (st.getN X).right)
      st.setP (st.Nleft Z) (-(st.getN Z).left)
    else st.setL Z 0
  let st : AvlState α := st.setP Y (st.getN Y).right
  let st :=
    if (st.getN X).left ≠ 0 then
      let st := st.setR Y ((st.getN Y).right + (st.getN X).left)
      st.setP (st.Nright Y) (-(st.getN Y).right)
    else st.setR Y 0
  let st := st.setR X (Z - X)
  st.setL X (Y - X)

/-- `inode::_Rotate_RL(Z, Y, X)`. -/
def _Rotate_RL (st : AvlState α) (Z Y X : Int) : AvlState α :=
  let st :=
    match st.NSafeParent Z with
    | some P =>
      let st :=
        if (st.getN P).left = -(st.getN Z).parent then
          st.setL P (X - P)
        else
          st.setR P (X - P)
      st.setP X (P - X)
    | Option.none => st.setP X 0
  let st := st.setP Z (X - Z)
  let st :=
    if (st.getN X).left ≠ 0 then
      let st := st.setR Z ((st.getN Z).parent + (st.getN X).left)
      st.setP (st.Nright Z) (-(st.getN Z).right)
    else st.setR Z 0
  let st : AvlState α := st.setP Y (st.getN Y).left
  let st :=
    if (st.getN X).right ≠ 0 then
      let st := st.setL Y ((st.getN Y).left + (st.getN X).right)
      st.setP (st.Nleft Y) (-(st.getN Y).left)
    else st.setL Y 0
  let st := st.setR X (Y - X)
  st.setL X (Z - X)

/-- `inode::_Rotate_Insert(Z)`: pick `Y = Z->Nheavy()`, `X = Y->Nheavy()`,
rotate according to `Z->tilt | Y->tilt` and fix the three tilts. -/
def _Rotate_Insert (st : AvlState α) (Z : Int) : AvlState α :=
  let Y := st.Nheavy Z
  let X := st.Nheavy Y
  match (st.getN Z).tilt, (st.getN Y).tilt with
  | Dir.left, Dir.left =>
    let st := st._Rotate_LL Z Y X
    let st := st.setT Y Dir.none
    st.setT Z Dir.none
  | Dir.right, Dir.right =>
    let st := st._Rotate_RR Z Y X
    let st := st.setT Y Dir.none
    st.setT Z Dir.none
  | Dir.left, Dir.right =>
    let st := st._Rotate_LR Z Y X
    let st := st.setT Y (if (st.getN X).tilt = Dir.right then Dir.left else Dir.none)
    let st := st.setT Z (if (st.getN X).tilt = Dir.left then Dir.right else Dir.none)
    st.setT X Dir.none
  | Dir.right, Dir.left =>
    let st := st._Rotate_RL Z Y X
    let st := st.setT Y (if (st.getN X).tilt = Dir.left then Dir.right else Dir.none)
    let st := st.setT Z (if (st.getN X).tilt = Dir.right then Dir.left else Dir.none)
    st.setT X Dir.none
  | _, _ => st

/-- `inode::Retrace_Insert(n, added)`: climb from `n`, absorbing the height
increase of the `added` branch, rotating at most once. -/
def Retrace_Insert (st : AvlState α) (fuel : Nat) (n : Option Int) (added : Dir) :
    AvlState α :=
  match fuel, n with
  | 0, _ => st
  | _, Option.none => st
  | fuel + 1, some i =>
    if (st.getN i).tilt = Dir.none then
      let st := st.setT i added
      let added := st.Branch i
      st.Retrace_Insert fuel (st.NSafeParent i) added
    else if (st.getN i).tilt ≠ added then
      st.setT i Dir.none
    else
      st._Rotate_Insert i

/-- `inode::AddChild(child, where)` called on the node at `p`: wire the
links and retrace upward. -/
def AddChild (st : AvlState α) (fuel : Nat) (p child : Int) (wh : Dir) : AvlState α :=
  let st := if wh = Dir.left then st.setL p (child - p) else st.setR p (child - p)
  let st := st.setP child (p - child)
  st.Retrace_Insert fuel (some p) wh

/-- `inode::_Rotate_Erase(Z)`: the erase-side rotation; returns the new
state and the node from which the retrace continues (`nullptr` = stop).
A balanced `Y` is deliberately treated as the straight LL/RR case.  The
C++ writes the RR-shaped rotation out inline in the `RightRight` branch;
the transcription keeps that inline copy.  A null `X` would be
dereferenced by `X->Branch()` in the C++ (impossible on well-formed
trees); the model returns "stop" there. -/
def _Rotate_Erase (st : AvlState α) (Z : Int) : AvlState α × Option Int :=
  let Y := st.Nheavy Z
  let Xo : Option Int :=
    if (st.getN Y).tilt = Dir.none then
      (if (st.getN Z).tilt = Dir.left then st.NSafeLeft Y else st.NSafeRight Y)
    else some (st.Nheavy Y)
  match Xo with
  | Option.none => (st, Option.none)
  | some X =>
    match (st.getN Z).tilt, st.Branch X with
    | Dir.left, Dir.left =>
      let st := st._Rotate_LL Z Y X
      if (st.getN Y).tilt = Dir.none then
        (st.setT Y Dir.right, Option.none)
      else
        let st := st.setT Z Dir.none
        (st.setT Y Dir.none, some Y)
    | Dir.right, Dir.right =>
      let st :=
        match st.NSafeParent Z with
        | some P =>
          let st := st.setP Y ((st.getN Y).parent + (st.getN Z).parent)
          if (st.getN P).left = -(st.getN Z).parent then
            st.setL P ((st.getN P).left + (st.getN Z).right)
          else
            st.setR P ((st.getN P).right + (st.getN Z).right)
        | Option.none => st.setP Y 0
      let st : AvlState α := st.setP Z (st.getN Z).right
      let st : AvlState α :=
        if (st.getN Y).left ≠ 0 then
          let st := st.setR Z ((st.getN Z).right + (st.getN Y).left)
          st.setP (st.Nright Z) (-(st.getN Z).right)
        else st.setR Z 0
      let st := st.setL Y (-(st.getN Z).parent)
      if (st.getN Y).tilt = Dir.none then
        (st.setT Y Dir.left, Option.none)
      else
        let st := st.setT Z Dir.none
        (st.setT Y Dir.none, some Y)
    | Dir.left, Dir.right =>
      let st := st._Rotate_LR Z Y X
      let st := st.setT Y (if (st.getN X).tilt = Dir.right then Dir.left else Dir.none)
      let st := st.setT Z (if (st.getN X).tilt = Dir.left then Dir.right else Dir.none)
      (st.setT X Dir.none, some X)
    | Dir.right, Dir.left =>
      let st := st._Rotate_RL Z Y X
      let st := st.setT Y (if (st.getN X).tilt = Dir.left then Dir.right else Dir.none)
      let st := st.setT Z (if (st.getN X).tilt = Dir.right then Dir.left else Dir.none)
      (st.setT X Dir.none, some X)
    | _, _ => (st, Option.none)

/-- `inode::Retrace_Erase(n, del)`: climb from `n`, absorbing the height
decrease of the `del` branch. -/
def Retrace_Erase (st : AvlState α) (fuel : Nat) (n : Option Int) (del : Dir) :
    AvlState α :=
  match fuel, n with
  | 0, _ => st
  | _, Option.none => st
  | fuel + 1, some i =>
    if (st.getN i).tilt = Dir.none then
      st.setT i del.flip
    else if (st.getN i).tilt = del then
      let st := st.setT i Dir.none
      let del := st.Branch i
      st.Retrace_Erase fuel (st.NSafeParent i) del
    else
      match st._Rotate_Erase i with
      | (st, Option.none) => st
      | (st, some j) =>
        let del := st.Branch j
        st.Retrace_Erase fuel (st.NSafeParent j) del

/-- The mirror of `LeftmostOf`: descend `right` links while they exist
(the loop `while (swap->right) swap = swap->Nright();` inside
`inode::_EraseNode`). -/
def RightmostOf (st : AvlState α) (fuel : Nat) (i : Int) : Int :=
  match fuel with
  | 0 => i
  | fuel + 1 =>
    if (st.getN i).right ≠ 0 then st.RightmostOf fuel (_Ptr i (st.getN i).right) else i

/-- `inode::_SwapWith(o)` called on the node at `a`: exchange the tree
positions of `a` (a node with two children) and `o` (a deeper node with at
most one child), rewiring all participating links and finally swapping the
two `tilt` values.  The three C++ cases (`o == AL`, `o == AR`, unrelated)
are transcribed in statement order. -/
def _SwapWith (st : AvlState α) (a o : Int) : AvlState α :=
  let PB := st.Nparent o
  let AL := st.Nleft a
  let AR := st.Nright a
  let st : AvlState α :=
    if o = AL then
      let st : AvlState α :=
        if (st.getN a).parent ≠ 0 then
          let PA := st.Nparent a
          let st :=
            if (st.getN PA).left = -(st.getN a).parent then st.setL PA (o - PA)
            else st.setR PA (o - PA)
          st.setP o (PA - o)
        else st.setP o 0
      let st : AvlState α := st.setP a (st.getN a).left
      let st : AvlState α :=
        if (st.getN o).left ≠ 0 then
          let st := st.setP (st.Nleft o) (a - st.Nleft o)
          st.setL a (st.Nleft o - a)
        else st.setL a 0
      let st := st.setP AR (o - AR)
      let st := st.setL o (a - o)
      let st := st.setR o (AR - o)
      st.setR a 0
    else if o = AR then
      let st : AvlState α :=
        if (st.getN a).parent ≠ 0 then
          let PA := st.Nparent a
          let st :=
            if (st.getN PA).left = -(st.getN a).parent then st.setL PA (o - PA)
            else st.setR PA (o - PA)
          st.setP o (PA - o)
        else st.setP o 0
      let st : AvlState α := st.setP a (st.getN a).right
      let st : AvlState α :=
        if (st.getN o).right ≠ 0 then
          let st := st.setP (st.Nright o) (a - st.Nright o)
          st.setR a (st.Nright o - a)
        else st.setR a 0
      let st := st.setP AL (o - AL)
      let st := st.setR o (a - o)
      let st := st.setL o (AL - o)
      st.setL a 0
    else
      let st : AvlState α :=
        if (st.getN PB).left = -(st.getN o).parent then st.setL PB (a - PB)
        else st.setR PB (a - PB)
      let st : AvlState α :=
        if (st.getN a).parent ≠ 0 then
          let PA := st.Nparent a
          let st :=
            if (st.getN PA).left = -(st.getN a).parent then st.setL PA (o - PA)
            else st.setR PA (o - PA)
          st.setP o (PA - o)
        else st.setP o 0
      let st : AvlState α := st.setP a (PB - a)
      let st : AvlState α := st.setP AL (o - AL)
      let st : AvlState α :=
        if (st.getN o).left ≠ 0 then
          let BL := st.Nleft o
          let st := st.setP BL (a - BL)
          st.setL a (BL - a)
        else st.setL a 0
      let st : AvlState α := st.setL o (AL - o)
      let st : AvlState α := st.setP AR (o - AR)
      let st : AvlState α :=
        if (st.getN o).right ≠ 0 then
          let BR := st.Nright o
          let st := st.setP BR (a - BR)
          st.setR a (BR - a)
        else st.setR a 0
      st.setR o (AR - o)
  let ta := (st.getN a).tilt
  let st := st.setT a (st.getN o).tilt
  st.setT o ta

/-- The partner-selection block at the top of `inode::_EraseNode`: for a
node with two children, walk to the leftmost node of the right subtree
when `tilt == Dir::Right`, otherwise (Left *or* Balanced) to the rightmost
node of the left subtree. -/
def swapSel (st : AvlState α) (fuel : Nat) (n : Int) : Int :=
  if (st.getN n).tilt = Dir.right then st.LeftmostOf fuel (st.Nright n)
  else st.RightmostOf fuel (st.Nleft n)

/-- `inode::_EraseNode(outRoot, n)`: returns the new state, the value left
in `outRoot` (the in/out root pointer), and the C++ return flag.  The
two-child case first swaps `n` with the partner chosen by `swapSel`, then
splices `n` out and retraces.  The `ASSERT_THROW(false, ...)` branches are
release-build no-ops. -/
def _EraseNode (st : AvlState α) (fuel : Nat) (rootIn : Option Int) (nOpt : Option Int) :
    AvlState α × Option Int × Bool :=
  match nOpt with
  | Option.none => (st, rootIn, false)
  | some n =>
    if st.IsEmpty n then (st, rootIn, false)
    else
      let st : AvlState α :=
        if (st.getN n).left ≠ 0 ∧ (st.getN n).right ≠ 0 then
          st._SwapWith n (st.swapSel fuel n)
        else st
      let pr : AvlState α × Option Int :=
        if (st.getN n).parent ≠ 0 then
          let p := st.Nparent n
          let st : AvlState α :=
            if (st.getN n).left ≠ 0 ∧ (st.getN n).right ≠ 0 then st
            else if (st.getN n).left ≠ 0 then
              let t1 := st.Nleft n
              let st := st.setP t1 (p - t1)
              if (st.getN p).left = -(st.getN n).parent then
                let st := st.setL p (t1 - p)
                st.Retrace_Erase fuel (some p) Dir.left
              else
                let st := st.setR p (t1 - p)
                st.Retrace_Erase fuel (some p) Dir.right
            else if (st.getN n).right ≠ 0 then
              let t2 := st.Nright n
              let st := st.setP t2 (p - t2)
              if (st.getN p).left = -(st.getN n).parent then
                let st := st.setL p (t2 - p)
                st.Retrace_Erase fuel (some p) Dir.left
              else
                let st := st.setR p (t2 - p)
                st.Retrace_Erase fuel (some p) Dir.right
            else
              if (st.getN p).left = -(st.getN n).parent then
                let st := st.setL p 0
                st.Retrace_Erase fuel (some p) Dir.left
              else
                let st := st.setR p 0
                st.Retrace_Erase fuel (some p) Dir.right
          (st, some (st.RootOf fuel p))
        else
          if (st.getN n).left ≠ 0 ∧ (st.getN n).right ≠ 0 then (st, rootIn)
          else if (st.getN n).left ≠ 0 then (st.setP (st.Nleft n) 0, some (st.Nleft n))
          else if (st.getN n).right ≠ 0 then (st.setP (st.Nright n) 0, some (st.Nright n))
          else (st, Option.none)
      let st := pr.1
      let st := st.setP n 0
      let st := st.setL n 0
      let st := st.setR n 0
      (st, pr.2, true)

/-- `inode::_DecommissionNode(n, Del)`: wipe the node (`memset` to zero)
and hook it at the head of the deleted chain that hangs on `Del->right`. -/
def _DecommissionNode (st : AvlState α) (n Del : Int) : AvlState α :=
  let st := st.setN n default
  let st : AvlState α :=
    if (st.getN Del).right ≠ 0 then st.setR n ((Del - n) + (st.getN Del).right)
    else st
  st.setR Del (n - Del)

/-- `inode::_InsertionPointFor<Tc>(v)`: walk down from `i` comparing with
the caller-supplied order; `(n, Dir.none)` means an equivalent payload was
found at `n`, otherwise the returned direction is the empty side of the
returned node where `v` belongs.  Fuel exhaustion (impossible on
well-formed trees) is marked with `Dir.zero`. -/
def _InsertionPointFor (less : α → α → Bool) (st : AvlState α) (fuel : Nat)
    (i : Int) (v : α) : Int × Dir :=
  match fuel with
  | 0 => (i, Dir.zero)
  | fuel + 1 =>
    if less (st.getN i).payload v then
      if (st.getN i).right ≠ 0 then _InsertionPointFor less st fuel (st.Nright i) v
      else (i, Dir.right)
    else if less v (st.getN i).payload then
      if (st.getN i).left ≠ 0 then _InsertionPointFor less st fuel (st.Nleft i) v
      else (i, Dir.left)
    else (i, Dir.none)

end AvlState

/-! ## The container `indexed::_AvlTree<Tu, Tc>` and `indexed::set<Tu, Tc>`

The comparator `Tc` is the function argument `less`; `NSZ` is
`sizeof(inode<Tu, Tc>)` in bytes, used only for the byte-capacity
bookkeeping (`_Growable` growth) because link fields and slots are kept in
node units.  Public operations pick their fuel as the arena length plus
two, which dominates every node walk on well-formed trees. -/

namespace AvlState

variable {α : Type} [Inhabited α]

/-- Capacity after `_Growable::_GrowBy(need)` on a buffer with capacity
`cap` and length `lenB` (bytes): unchanged if the free space suffices,
otherwise the freshly aligned allocation size. -/
def _GrowCap (cap lenB need : Nat) : Nat :=
  if cap - lenB < need then
    _Growable.Aligned (max (need - (cap - lenB)) (max 1024 (cap / 2)) + cap)
  else cap

/-- `_Growable::_PtrAppendZeroBytes(Nsize())` at container level: one more
zeroed node record, byte capacity updated by the growth policy. -/
def appendNode (NSZ : Nat) (st : AvlState α) : AvlState α :=
  { st with arena := st.arena ++ [default],
            capacity_ := _GrowCap st.capacity_ (st.arena.length * NSZ) NSZ }

/-- `_AvlTree::_CreateNode(v)`: reuse the head of the deleted chain hanging
off the sentinel's `right`, or append a fresh zeroed node; mark it live
(`tilt = None`) and construct the payload in place. -/
def _CreateNode (NSZ : Nat) (st : AvlState α) (v : α) : AvlState α × Int :=
  if (st.getN 0).right ≠ 0 then
    let n := _Ptr 0 (st.getN 0).right
    let st := st.setR 0
      (if (st.getN n).right ≠ 0 then (st.getN 0).right + (st.getN n).right else 0)
    let st := st.setR n 0
    let st := st.setT n Dir.none
    let st := st.updN n (fun nd => { nd with payload := v })
    (st, n)
  else
    let n : Int := (st.arena.length : Int)
    let st := appendNode NSZ st
    let st := st.setT n Dir.none
    let st := st.updN n (fun nd => { nd with payload := v })
    (st, n)

/-- `_AvlTree::Insert(v)`: create the sentinel on first use, walk to the
insertion point, attach a node (or report the existing one), retrace, and
track a root displaced by a rotation.  Returns the node offset (= slot)
and the `added` flag. -/
def Insert (less : α → α → Bool) (NSZ : Nat) (st : AvlState α) (v : α) :
    AvlState α × Int × Bool :=
  let st := if st.arena.length = 0 then st.appendNode NSZ else st
  if st._Root ≠ 0 then
    let pd := _InsertionPointFor less st (st.arena.length + 2) st._Root v
    if pd.2 = Dir.none then (st, pd.1, false)
    else
      let parent := pd.1
      let cn := st._CreateNode NSZ v
      let st := cn.1
      let st := st.AddChild (st.arena.length + 2) parent cn.2 pd.2
      let st := { st with _Root := st._Root + (st.getN st._Root).parent }
      ({ st with _Cnt := st._Cnt + 1 }, cn.2, true)
  else
    let cn := st._CreateNode NSZ v
    let st := cn.1
    ({ st with _Root := cn.2, _Cnt := st._Cnt + 1 }, cn.2, true)

/-- `_AvlTree::Erase(v)`: find an equivalent payload, splice it out,
update `_Cnt` and `_Root`, decommission the freed node. -/
def Erase (less : α → α → Bool) (st : AvlState α) (v : α) : AvlState α :=
  if st._Root ≠ 0 then
    let pd := _InsertionPointFor less st (st.arena.length + 2) st._Root v
    if pd.2 = Dir.none then
      let r := st._EraseNode (st.arena.length + 2) (some st._Root) (some pd.1)
      if r.2.2 then
        let st := r.1
        let st := { st with _Cnt := st._Cnt - 1 }
        let st := { st with _Root := match r.2.1 with | some x => x | Option.none => 0 }
        st._DecommissionNode pd.1 0
      else r.1
    else st
  else st

/-- `_AvlTree::EraseAtOffset(o)`: like `Erase` but addressed by offset;
`o == 0` is a null pointer and a no-op. -/
def EraseAtOffset (st : AvlState α) (o : Int) : AvlState α :=
  if st._Root ≠ 0 then
    if o ≠ 0 then
      let r := st._EraseNode (st.arena.length + 2) (some st._Root) (some o)
      if r.2.2 then
        let st := r.1
        let st := { st with _Cnt := st._Cnt - 1 }
        let st := { st with _Root := match r.2.1 with | some x => x | Option.none => 0 }
        st._DecommissionNode o 0
      else r.1
    else st
  else st

/-- `_AvlTree::Clear()`: zero the scalars when a root exists (payload
destructors run recursively but leave the model bytes alone), then release
the whole buffer (`_Growable::_Reset`). -/
def Clear (st : AvlState α) : AvlState α :=
  let st := if st._Root ≠ 0 then { st with _Root := 0, _Cnt := 0 } else st
  { st with arena := [], capacity_ := 0 }

/-- `_AvlTree::Reserve(ElementCount)` (= `set::reserve`):
`_Reserve((ElementCount + 1) * Nsize())`; only the byte capacity can
change. -/
def Reserve (NSZ : Nat) (st : AvlState α) (ElementCount : Nat) : AvlState α :=
  let totalBytes := (ElementCount + 1) * NSZ
  if totalBytes > st.capacity_ then
    { st with capacity_ :=
        _GrowCap st.capacity_ (st.arena.length * NSZ) (totalBytes - st.arena.length * NSZ) }
  else st

/-- `_AvlTree::FindNode(v)`: the comparison walk of insert; `some n` iff
an equivalent payload sits at `n` (the C++ returns an iterator whose node
is `Found`, null for "not found"). -/
def FindNode (less : α → α → Bool) (st : AvlState α) (v : α) : Option Int :=
  if st._Root ≠ 0 then
    let pd := _InsertionPointFor less st (st.arena.length + 2) st._Root v
    if pd.2 = Dir.none then some pd.1 else Option.none
  else Option.none

/-- `_AvlTree::Size()`. -/
def Size (st : AvlState α) : Nat := st._Cnt

/-- `_AvlTree::Begin()`: an iterator at `LeftmostOf(root)`, null when the
container is empty.  `End()` is the null iterator (`Option.none`). -/
def Begin (st : AvlState α) : Option Int :=
  if st._Root ≠ 0 then some (st.LeftmostOf (st.arena.length + 2) st._Root)
  else Option.none

/-- The payload sequence produced by iterating from `Begin()` to `End()`
with `operator++` (`InorderNextOf`). -/
def iterListFrom (st : AvlState α) (fuel : Nat) (it : Option Int) : List α :=
  match fuel with
  | 0 => []
  | fuel + 1 =>
    match it with
    | Option.none => []
    | some i =>
      (st.getN i).payload ::
        st.iterListFrom fuel (st.InorderNextOf (st.arena.length + 2) (some i))

/-- Full begin-to-end iteration sequence of the container. -/
def iterList (st : AvlState α) : List α :=
  st.iterListFrom (st.arena.length + 2) st.Begin

end AvlState

/-! ## The `indexed::set` surface

`ToSlot(o) = o / Nsize` is the identity on node-unit offsets; slot values
are therefore the same integers as node offsets.  `set::erase_at(pos)`
calls `EraseAtOffset(pos * Nsize)` = slot `pos`; `set::at(pos)` reads the
payload at slot `pos`. -/

namespace ISet

variable {α : Type} [Inhabited α]

/-- `set::insert(v)`: slot of the (new or existing) payload plus the
`inserted` flag. -/
def insert (less : α → α → Bool) (NSZ : Nat) (st : AvlState α) (v : α) :
    AvlState α × Int × Bool :=
  AvlState.Insert less NSZ st v

/-- `set::erase(v)`. -/
def erase (less : α → α → Bool) (st : AvlState α) (v : α) : AvlState α :=
  AvlState.Erase less st v

/-- `set::erase_at(pos)`. -/
def erase_at (st : AvlState α) (pos : Int) : AvlState α :=
  AvlState.EraseAtOffset st pos

/-- `set::at(pos)`: the payload stored in slot `pos` (no validation). -/
def at_ (st : AvlState α) (pos : Int) : α := (st.getN pos).payload

/-- `set::size()`. -/
def size (st : AvlState α) : Nat := AvlState.Size st

/-- `set::find_slot(v)`: slot of an equivalent payload, `0` if absent. -/
def find_slot (less : α → α → Bool) (st : AvlState α) (v : α) : Int :=
  match AvlState.FindNode less st v with
  | some n => n
  | Option.none => 0

/-- `set::clear()`. -/
def clear (st : AvlState α) : AvlState α := AvlState.Clear st

/-- `set::reserve(count)`. -/
def reserve (NSZ : Nat) (st : AvlState α) (count : Nat) : AvlState α :=
  AvlState.Reserve NSZ st count

/-- The copy constructor `set(const set&)` (= `_AvlTree` and `_Growable`
copy construction): duplicate the arena bytes and the scalar fields. -/
def copy (st : AvlState α) : AvlState α :=
  { arena := st.arena, _Cnt := st._Cnt, _Root := st._Root, capacity_ := st.capacity_ }

end ISet

/-! ## Basic lemmas about the state accessors -/

namespace AvlState

variable {α : Type} [Inhabited α]

theorem getN_congr (st : AvlState α) {i j : Int} (h : i.toNat = j.toNat) :
    st.getN i = st.getN j := by
  simp [getN, h]

theorem getN_setN (st : AvlState α) (i j : Int) (nd : INode α) :
    (st.setN i nd).getN j =
      if j.toNat = i.toNat ∧ i.toNat < st.arena.length then nd else st.getN j := by
  simp only [getN, setN, List.getD_eq_getElem?_getD, List.getElem?_set]
  by_cases hji : i.toNat = j.toNat
  · rw [← hji]
    by_cases hl : i.toNat < st.arena.length
    · simp [hl]
    · simp [hl, List.getElem?_eq_none (by omega : st.arena.length ≤ i.toNat)]
  · have hx : ¬(j.toNat = i.toNat ∧ i.toNat < st.arena.length) := by
      intro h
      exact hji h.1.symm
    simp [hji, hx]

@[simp] theorem arena_setN (st : AvlState α) (i : Int) (nd : INode α) :
    (st.setN i nd).arena.length = st.arena.length := by
  simp [setN]

@[simp] theorem root_setN (st : AvlState α) (i : Int) (nd : INode α) :
    (st.setN i nd)._Root = st._Root := rfl

@[simp] theorem cnt_setN (st : AvlState α) (i : Int) (nd : INode α) :
    (st.setN i nd)._Cnt = st._Cnt := rfl

@[simp] theorem cap_setN (st : AvlState α) (i : Int) (nd : INode α) :
    (st.setN i nd).capacity_ = st.capacity_ := rfl

theorem getN_setP_tilt (st : AvlState α) (i j v) :
    ((st.setP i v).getN j).tilt = (st.getN j).tilt := by
  simp only [setP, updN, getN_setN]
  split
  · next h => rw [st.getN_congr h.1]
  · rfl

theorem getN_setL_tilt (st : AvlState α) (i j v) :
    ((st.setL i v).getN j).tilt = (st.getN j).tilt := by
  simp only [setL, updN, getN_setN]
  split
  · next h => rw [st.getN_congr h.1]
  · rfl

theorem getN_setR_tilt (st : AvlState α) (i j v) :
    ((st.setR i v).getN j).tilt = (st.getN j).tilt := by
  simp only [setR, updN, getN_setN]
  split
  · next h => rw [st.getN_congr h.1]
  · rfl

theorem getN_setP (st : AvlState α) (i j v) :
    (st.setP i v).getN j =
      if j.toNat = i.toNat ∧ i.toNat < st.arena.length then { st.getN j with parent := v }
      else st.getN j := by
  simp only [setP, updN, getN_setN]
  split
  · next h => rw [st.getN_congr h.1]
  · rfl

theorem getN_setL (st : AvlState α) (i j v) :
    (st.setL i v).getN j =
      if j.toNat = i.toNat ∧ i.toNat < st.arena.length then { st.getN j with left := v }
      else st.getN j := by
  simp only [setL, updN, getN_setN]
  split
  · next h => rw [st.getN_congr h.1]
  · rfl

theorem getN_setR (st : AvlState α) (i j v) :
    (st.setR i v).getN j =
      if j.toNat = i.toNat ∧ i.toNat < st.arena.length then { st.getN j with right := v }
      else st.getN j := by
  simp only [setR, updN, getN_setN]
  split
  · next h => rw [st.getN_congr h.1]
  · rfl

theorem getN_setT (st : AvlState α) (i j v) :
    (st.setT i v).getN j =
      if j.toNat = i.toNat ∧ i.toNat < st.arena.length then { st.getN j with tilt := v }
      else st.getN j := by
  simp only [setT, updN, getN_setN]
  split
  · next h => rw [st.getN_congr h.1]
  · rfl

@[simp] theorem arena_setP (st : AvlState α) (i v) :
    (st.setP i v).arena.length = st.arena.length := by
  simp [setP, updN]

@[simp] theorem arena_setL (st : AvlState α) (i v) :
    (st.setL i v).arena.length = st.arena.length := by
  simp [setL, updN]

@[simp] theorem arena_setR (st : AvlState α) (i v) :
    (st.setR i v).arena.length = st.arena.length := by
  simp [setR, updN]

@[simp] theorem arena_setT (st : AvlState α) (i v) :
    (st.setT i v).arena.length = st.arena.length := by
  simp [setT, updN]

@[simp] theorem root_setP (st : AvlState α) (i v) : (st.setP i v)._Root = st._Root := rfl

@[simp] theorem root_setL (st : AvlState α) (i v) : (st.setL i v)._Root = st._Root := rfl

@[simp] theorem root_setR (st : AvlState α) (i v) : (st.setR i v)._Root = st._Root := rfl

@[simp] theorem root_setT (st : AvlState α) (i v) : (st.setT i v)._Root = st._Root := rfl

@[simp] theorem cnt_setP (st : AvlState α) (i v) : (st.setP i v)._Cnt = st._Cnt := rfl

@[simp] theorem cnt_setL (st : AvlState α) (i v) : (st.setL i v)._Cnt = st._Cnt := rfl

@[simp] theorem cnt_setR (st : AvlState α) (i v) : (st.setR i v)._Cnt = st._Cnt := rfl

@[simp] theorem cnt_setT (st : AvlState α) (i v) : (st.setT i v)._Cnt = st._Cnt := rfl

@[simp] theorem cap_setP (st : AvlState α) (i v) : (st.setP i v).capacity_ = st.capacity_ := rfl

@[simp] theorem cap_setL (st : AvlState α) (i v) : (st.setL i v).capacity_ = st.capacity_ := rfl

@[simp] theorem cap_setR (st : AvlState α) (i v) : (st.setR i v).capacity_ = st.capacity_ := rfl

@[simp] theorem cap_setT (st : AvlState α) (i v) : (st.setT i v).capacity_ = st.capacity_ := rfl

@[simp] theorem prod_fst_ite {β γ : Type} (c : Prop) [Decidable c] (a b : β × γ) :
    (if c then a else b).1 = if c then a.1 else b.1 :=
  apply_ite (fun p : β × γ => p.1) c a b

@[simp] theorem prod_snd_ite {β γ : Type} (c : Prop) [Decidable c] (a b : β × γ) :
    (if c then a else b).2 = if c then a.2 else b.2 :=
  apply_ite (fun p : β × γ => p.2) c a b

@[simp] theorem arena_ite (c : Prop) [Decidable c] (a b : AvlState α) :
    (if c then a else b).arena.length = if c then a.arena.length else b.arena.length :=
  apply_ite (fun s : AvlState α => s.arena.length) c a b

@[simp] theorem root_ite (c : Prop) [Decidable c] (a b : AvlState α) :
    (if c then a else b)._Root = if c then a._Root else b._Root :=
  apply_ite (fun s : AvlState α => s._Root) c a b

@[simp] theorem cnt_ite (c : Prop) [Decidable c] (a b : AvlState α) :
    (if c then a else b)._Cnt = if c then a._Cnt else b._Cnt :=
  apply_ite (fun s : AvlState α => s._Cnt) c a b

theorem len_Rotate_LL (st : AvlState α) (Z Y X : Int) :
    (st._Rotate_LL Z Y X).arena.length = st.arena.length := by
  unfold _Rotate_LL
  cases h : st.NSafeParent Z <;> simp

theorem len_Rotate_RR (st : AvlState α) (Z Y X : Int) :
    (st._Rotate_RR Z Y X).arena.length = st.arena.length := by
  unfold _Rotate_RR
  cases h : st.NSafeParent Z <;> simp

theorem len_Rotate_LR (st : AvlState α) (Z Y X : Int) :
    (st._Rotate_LR Z Y X).arena.length = st.arena.length := by
  unfold _Rotate_LR
  cases h : st.NSafeParent Z <;> simp

theorem len_Rotate_RL (st : AvlState α) (Z Y X : Int) :
    (st._Rotate_RL Z Y X).arena.length = st.arena.length := by
  unfold _Rotate_RL
  cases h : st.NSafeParent Z <;> simp

theorem len_Rotate_Insert (st : AvlState α) (Z : Int) :
    (st._Rotate_Insert Z).arena.length = st.arena.length := by
  simp only [_Rotate_Insert]
  split <;>
    simp [len_Rotate_LL, len_Rotate_RR, len_Rotate_LR, len_Rotate_RL]

theorem len_Retrace_Insert (fuel : Nat) :
    ∀ (st : AvlState α) (n : Option Int) (added : Dir),
      (st.Retrace_Insert fuel n added).arena.length = st.arena.length := by
  induction fuel with
  | zero =>
    intro st n added
    cases n <;> rfl
  | succ f ih =>
    intro st n added
    cases n with
    | none => rfl
    | some i =>
      simp only [Retrace_Insert]
      split_ifs <;> simp [ih, len_Rotate_Insert]

theorem len_Rotate_Erase (st : AvlState α) (Z : Int) :
    (st._Rotate_Erase Z).1.arena.length = st.arena.length := by
  simp only [_Rotate_Erase]
  repeat' split
  all_goals simp [len_Rotate_LL, len_Rotate_RR, len_Rotate_LR, len_Rotate_RL]

theorem len_Retrace_Erase (fuel : Nat) :
    ∀ (st : AvlState α) (n : Option Int) (del : Dir),
      (st.Retrace_Erase fuel n del).arena.length = st.arena.length := by
  induction fuel with
  | zero =>
    intro st n del
    cases n <;> rfl
  | succ f ih =>
    intro st n del
    cases n with
    | none => rfl
    | some i =>
      simp only [Retrace_Erase]
      split_ifs
      · simp
      · simp [ih]
      · have hlen := st.len_Rotate_Erase i
        rcases hre : st._Rotate_Erase i with ⟨st2, o2⟩
        rw [hre] at hlen
        cases o2 <;> simp [ih, hlen]

theorem len_SwapWith (st : AvlState α) (a o : Int) :
    (st._SwapWith a o).arena.length = st.arena.length := by
  unfold _SwapWith
  repeat' first
    | split
    | intro _
  all_goals simp

theorem len_EraseNode (st : AvlState α) (fuel : Nat) (rootIn nOpt : Option Int) :
    (st._EraseNode fuel rootIn nOpt).1.arena.length = st.arena.length := by
  unfold _EraseNode
  repeat' first
    | split
    | intro _
  all_goals simp [len_SwapWith, len_Retrace_Erase]

theorem len_DecommissionNode (st : AvlState α) (n Del : Int) :
    (st._DecommissionNode n Del).arena.length = st.arena.length := by
  unfold _DecommissionNode
  repeat' split
  all_goals simp

theorem len_Erase (less : α → α → Bool) (st : AvlState α) (v : α) :
    (AvlState.Erase less st v).arena.length = st.arena.length := by
  unfold Erase
  repeat' split
  all_goals simp [len_DecommissionNode, len_EraseNode]

end AvlState

end IndexedSet

namespace IndexedSet

open AvlState

/-- C9: copy-constructing the container duplicates the arena bytes and the
scalar fields, and the copy is functionally identical to the original:
same iteration sequence and the same payload at every slot. -/
theorem claim_C9 {α : Type} [Inhabited α] (st : AvlState α) :
    ISet.copy st = st ∧
    (ISet.copy st).iterList = st.iterList ∧
    ∀ s : Int, ISet.at_ (ISet.copy st) s = ISet.at_ st s := by
  have h : ISet.copy st = st := by cases st; rfl
  exact ⟨h, by rw [h], fun s => by rw [h]⟩

/-- C10: `clear()` releases the arena storage entirely: afterwards the
element count is zero, `begin() == end()`, the arena length and byte
capacity are both zero (so the free-list and any reserved capacity are
gone; `_Growable::_Reset` zeroes length and capacity), and the next
`insert` recreates the sentinel at slot 0 and a fresh node at slot 1 in a
brand-new arena.  The hypothesis `st._Root = 0 → st._Cnt = 0` holds in
every state reachable from the empty container. -/
theorem claim_C10 {α : Type} [Inhabited α] (less : α → α → Bool) (NSZ : Nat)
    (st : AvlState α) (g : _Growable) (v : α)
    (hrc : st._Root = 0 → st._Cnt = 0) :
    (ISet.clear st).arena = [] ∧ (ISet.clear st).capacity_ = 0 ∧
    ISet.size (ISet.clear st) = 0 ∧ (ISet.clear st).Begin = Option.none ∧
    g._Reset.len_ = 0 ∧ g._Reset.capacity_ = 0 ∧
    (AvlState.Insert less NSZ (ISet.clear st) v).2 = ((1 : Int), true) ∧
    (AvlState.Insert less NSZ (ISet.clear st) v).1.arena =
      [default, { payload := v, parent := 0, left := 0, right := 0, tilt := Dir.none }] ∧
    (AvlState.Insert less NSZ (ISet.clear st) v).1._Root = 1 ∧
    (AvlState.Insert less NSZ (ISet.clear st) v).1._Cnt = 1 := by
  have hC : ISet.clear st = (⟨[], 0, 0, 0⟩ : AvlState α) := by
    unfold ISet.clear AvlState.Clear
    by_cases hr : st._Root ≠ 0
    · simp [hr]
    · push_neg at hr
      simp [hr, hrc hr]
  rw [hC]
  refine ⟨rfl, rfl, rfl, rfl, rfl, rfl, rfl, rfl, rfl, rfl⟩

/-- C7: erase of an absent value, `erase_at` of slot 0, and `erase_at` of a
decommissioned slot are silent no-ops: the whole container state (arena,
links, tilts, free-list, root, count) is returned unchanged. -/
theorem claim_C7 {α : Type} [Inhabited α] (less : α → α → Bool)
    (st : AvlState α) (v : α) (o : Int) :
    (AvlState.FindNode less st v = Option.none → AvlState.Erase less st v = st) ∧
    AvlState.EraseAtOffset st 0 = st ∧
    (st.IsEmpty o = true → AvlState.EraseAtOffset st o = st) := by
  refine ⟨?_, ?_, ?_⟩
  · intro hfind
    unfold AvlState.FindNode at hfind
    by_cases h1 : st._Root ≠ 0
    · rw [if_pos h1] at hfind
      simp only [] at hfind
      split_ifs at hfind with h2
      simp [AvlState.Erase, h1, h2]
    · simp [AvlState.Erase, h1]
  · unfold AvlState.EraseAtOffset
    simp
  · intro he
    unfold AvlState.EraseAtOffset
    unfold AvlState._EraseNode
    simp [he]

/-- C6: if the search walk finds a payload equivalent to `v` at node `n`
(`find` succeeds), then `insert(v)` returns the existing node's slot with
`inserted = false` and leaves the container, in particular `size()`,
unchanged. -/
theorem claim_C6 {α : Type} [Inhabited α] (less : α → α → Bool) (NSZ : Nat)
    (st : AvlState α) (v : α) (n : Int)
    (hlen : st.arena.length ≠ 0)
    (hfind : AvlState.FindNode less st v = some n) :
    AvlState.Insert less NSZ st v = (st, n, false) ∧
    AvlState.Size (AvlState.Insert less NSZ st v).1 = AvlState.Size st := by
  unfold AvlState.FindNode at hfind
  by_cases h1 : st._Root ≠ 0
  · rw [if_pos h1] at hfind
    simp only [] at hfind
    split_ifs at hfind with h2
    have hpd : (AvlState._InsertionPointFor less st (st.arena.length + 2) st._Root v).1 = n :=
      Option.some.inj hfind
    have hmain : AvlState.Insert less NSZ st v = (st, n, false) := by
      simp [AvlState.Insert, hlen, h1, h2, hpd]
    exact ⟨hmain, by rw [hmain]⟩
  · rw [if_neg h1] at hfind
    simp at hfind



/-- Comparator used by the concrete witness states: strict `<` on `Nat`. -/
def natLess : Nat → Nat → Bool := fun a b => decide (a < b)

/-- Concrete container holding the single value 42 (slot 1). -/
def st6 : AvlState Nat := (AvlState.Insert natLess 24 AvlState.empty 42).1

/-- Witness for C6: inserting 42 twice returns the same slot 1, with
`inserted = false` on the second call, and `size() == 1`. -/
theorem claim_C6_witness :
    AvlState.Insert natLess 24 st6 42 = (st6, 1, false) ∧
    ISet.size (AvlState.Insert natLess 24 st6 42).1 = 1 := by
  have h := claim_C6 natLess 24 st6 42 1 (by decide) (by decide)
  exact ⟨h.1, by rw [h.1]; rfl⟩

/-- Concrete container: 5 and 3 inserted, then 3 erased (slot 2 is
decommissioned and heads the free-list). -/
def st7 : AvlState Nat :=
  AvlState.Erase natLess (AvlState.Insert natLess 24 (AvlState.Insert natLess 24 AvlState.empty 5).1 3).1 3

/-- Witness for C7: on a concrete container, erasing the absent value 99,
erasing slot 0, and erasing the decommissioned slot 2 all leave the state
untouched. -/
theorem claim_C7_witness :
    AvlState.FindNode natLess st7 99 = Option.none ∧
    AvlState.Erase natLess st7 99 = st7 ∧
    AvlState.EraseAtOffset st7 0 = st7 ∧
    st7.IsEmpty 2 = true ∧
    AvlState.EraseAtOffset st7 2 = st7 := by
  have h := claim_C7 natLess st7 99 2
  exact ⟨by decide, h.1 (by decide), h.2.1, by decide, h.2.2 (by decide)⟩

/-- Witness for C10 at a concrete non-empty container. -/
theorem claim_C10_witness :
    (ISet.clear st6).arena = ([] : List (INode Nat)) ∧ (ISet.clear st6).capacity_ = 0 ∧
    ISet.size (ISet.clear st6) = 0 ∧ (ISet.clear st6).Begin = Option.none ∧
    (_Growable._Reset ⟨[1, 2, 3, 4], 3⟩).len_ = 0 ∧
    (_Growable._Reset ⟨[1, 2, 3, 4], 3⟩).capacity_ = 0 ∧
    (AvlState.Insert natLess 24 (ISet.clear st6) 9).2 = ((1 : Int), true) ∧
    (AvlState.Insert natLess 24 (ISet.clear st6) 9).1.arena =
      [default, { payload := 9, parent := 0, left := 0, right := 0, tilt := Dir.none }] ∧
    (AvlState.Insert natLess 24 (ISet.clear st6) 9).1._Root = 1 ∧
    (AvlState.Insert natLess 24 (ISet.clear st6) 9).1._Cnt = 1 :=
  claim_C10 natLess 24 st6 ⟨[1, 2, 3, 4], 3⟩ 9 (fun h => absurd h (by decide))

/-- C8: whenever an append needs more bytes than the free capacity
(`len + need > cap`), the fresh capacity is
`align(cap + max(need - free, 1024, cap / 2), 16)` (the smallest multiple
of 16 from that sum up), the live bytes are copied and the trailing region
beyond the previous length is zero-filled; when the free capacity
suffices, the buffer (hence the capacity) is unchanged.  The overflow
bound keeps the 32-bit truncation in `Aligned` out of play, as in any
realistic run. -/
theorem claim_C8 (g : _Growable) (need : Nat)
    (hl : g.len_ ≤ g.capacity_)
    (hov : g.capacity_ + max (need - (g.capacity_ - g.len_)) (max 1024 (g.capacity_ / 2)) + 15
            < 4294967296) :
    (g.len_ + need > g.capacity_ →
      (g._GrowBy need).1.capacity_ =
        (g.capacity_ + max (need - (g.capacity_ - g.len_)) (max 1024 (g.capacity_ / 2)) + 15)
          / 16 * 16 ∧
      (g._GrowBy need).1.data.take g.len_ = g.data.take g.len_ ∧
      (g._GrowBy need).1.data.drop g.len_ =
        List.replicate ((g._GrowBy need).1.capacity_ - g.len_) 0) ∧
    (g.len_ + need ≤ g.capacity_ → (g._GrowBy need).1 = g) := by
  constructor
  · intro hgrow
    have hc : g.capacity_ - g.len_ < need := by omega
    have hlen : (g.data.take g.len_).length = g.len_ := by
      rw [List.length_take]
      exact Nat.min_eq_left (by exact hl)
    have hA : g.newCap need =
        (g.capacity_ + max (need - (g.capacity_ - g.len_)) (max 1024 (g.capacity_ / 2)) + 15)
          / 16 * 16 := by
      unfold _Growable.newCap _Growable.Aligned
      congr 1
      omega
    have hge : g.len_ ≤ g.newCap need := by
      rw [hA]
      omega
    have ht : (g.data.take g.len_ ++ List.replicate (g.newCap need - g.len_) 0).take g.len_ =
        g.data.take g.len_ := by
      have h0 := List.take_left (g.data.take g.len_) (List.replicate (g.newCap need - g.len_) 0)
      rw [hlen] at h0
      exact h0
    have hd : (g.data.take g.len_ ++ List.replicate (g.newCap need - g.len_) 0).drop g.len_ =
        List.replicate (g.newCap need - g.len_) 0 := by
      have h0 := List.drop_left (g.data.take g.len_) (List.replicate (g.newCap need - g.len_) 0)
      rw [hlen] at h0
      exact h0
    have hcapeq : ((g._GrowBy need).1).capacity_ = g.newCap need := by
      unfold _Growable._GrowBy
      rw [if_pos hc]
      simp only [_Growable.capacity_, List.length_append, List.length_replicate, hlen]
      omega
    have hdata : ((g._GrowBy need).1).data =
        g.data.take g.len_ ++ List.replicate (g.newCap need - g.len_) 0 := by
      unfold _Growable._GrowBy
      rw [if_pos hc]
    refine ⟨?_, ?_, ?_⟩
    · rw [hcapeq, hA]
    · rw [hdata]
      exact ht
    · rw [hdata, hd, hcapeq]
  · intro hle
    unfold _Growable._GrowBy
    rw [if_neg (by omega)]

set_option maxRecDepth 40000 in
/-- Witness for C8: a buffer of capacity 8 and length 6; appending 20
bytes grows it to `align(8 + max(18, 1024, 4), 16) = 1040`, preserving the
6 live bytes and zero-filling the rest. -/
theorem claim_C8_witness :
    (6 + 20 > 8) ∧
    ((_Growable._GrowBy ⟨List.replicate 8 5, 6⟩ 20).1.capacity_ =
        (8 + max (20 - (8 - 6)) (max 1024 (8 / 2)) + 15) / 16 * 16 ∧
      (_Growable._GrowBy ⟨List.replicate 8 5, 6⟩ 20).1.data.take 6 =
        (List.replicate 8 5).take 6 ∧
      (_Growable._GrowBy ⟨List.replicate 8 5, 6⟩ 20).1.data.drop 6 =
        List.replicate ((_Growable._GrowBy ⟨List.replicate 8 5, 6⟩ 20).1.capacity_ - 6) 0) :=
  ⟨by decide, (claim_C8 ⟨List.replicate 8 5, 6⟩ 20 (by decide) (by decide)).1 (by decide)⟩

end IndexedSet
namespace IndexedSet

open AvlState

/-- Helper: after `_DecommissionNode(n, N0)` the sentinel's `right` heads
the free-list at `n` (LIFO push). -/
theorem DecommissionNode_head {α : Type} [Inhabited α] (st : AvlState α) (n : Int)
    (hlen : 0 < st.arena.length) :
    ((st._DecommissionNode n 0).getN 0).right = n := by
  unfold AvlState._DecommissionNode
  simp only []
  have h2 :
      ∀ st2 : AvlState α, st2.arena.length = st.arena.length →
        ((st2.setR 0 (n - 0)).getN 0).right = n := by
    intro st2 hlen2
    rw [AvlState.getN_setR]
    simp [hlen2, hlen]
  split_ifs <;> exact h2 _ (by simp)

/-- Helper: the flag `_EraseNode` returns is the negated `IsEmpty` check. -/
theorem EraseNode_flag {α : Type} [Inhabited α] (st : AvlState α) (f : Nat)
    (ro : Option Int) (n : Int) :
    (st._EraseNode f ro (some n)).2.2 = !(st.IsEmpty n) := by
  unfold AvlState._EraseNode
  by_cases h : st.IsEmpty n = true <;> simp [h]

/-- Helper: when the free-list is non-empty, `_CreateNode` pops and
returns its head slot. -/
theorem CreateNode_pop {α : Type} [Inhabited α] (st : AvlState α) (NSZ : Nat) (v : α)
    (h : (st.getN 0).right ≠ 0) :
    (st._CreateNode NSZ v).2 = (st.getN 0).right := by
  unfold AvlState._CreateNode
  rw [if_pos h]
  simp [AvlState._Ptr]

/-- Helper: when the search walk misses `w`, `insert(w)` hands out the
slot chosen by `_CreateNode` with the `added` flag set. -/
theorem Insert_snd_notfound {α : Type} [Inhabited α] (less : α → α → Bool) (NSZ : Nat)
    (st : AvlState α) (w : α)
    (hlen : st.arena.length ≠ 0)
    (hnf : AvlState.FindNode less st w = Option.none) :
    (AvlState.Insert less NSZ st w).2 = ((st._CreateNode NSZ w).2, true) := by
  unfold AvlState.FindNode at hnf
  by_cases hr : st._Root ≠ 0
  · rw [if_pos hr] at hnf
    simp only [] at hnf
    split_ifs at hnf with h2
    simp [AvlState.Insert, hlen, hr, h2]
  · simp [AvlState.Insert, hlen, hr]

/-- C4 (amended): if the search finds `v` at live slot `s`, then erasing
`v` and immediately inserting any value `w` the container does not hold
after the erase returns exactly slot `s` again (LIFO reuse of the slot
just freed), with `inserted = true`. -/
theorem claim_C4 {α : Type} [Inhabited α] (less : α → α → Bool) (NSZ : Nat)
    (st : AvlState α) (v w : α) (s : Int)
    (hlen : st.arena.length ≠ 0)
    (hfind : AvlState.FindNode less st v = some s)
    (hs0 : s ≠ 0)
    (hlive : st.IsEmpty s = false)
    (hafter : AvlState.FindNode less (AvlState.Erase less st v) w = Option.none) :
    (AvlState.Insert less NSZ (AvlState.Erase less st v) w).2.1 = s ∧
    (AvlState.Insert less NSZ (AvlState.Erase less st v) w).2.2 = true := by
  unfold AvlState.FindNode at hfind
  by_cases hr : st._Root ≠ 0
  · rw [if_pos hr] at hfind
    simp only [] at hfind
    split_ifs at hfind with h2
    · have hpd1 : (AvlState._InsertionPointFor less st (st.arena.length + 2) st._Root v).1 = s :=
        Option.some.inj hfind
      have hflag :
          (st._EraseNode (st.arena.length + 2) (some st._Root) (some s)).2.2 = true := by
        rw [EraseNode_flag, hlive]
        rfl
      have h0right : ((AvlState.Erase less st v).getN 0).right = s := by
        unfold AvlState.Erase
        rw [if_pos hr]
        simp only [hpd1, h2, hflag, if_true, if_pos]
        exact DecommissionNode_head _ s
          (by simp only [AvlState.len_EraseNode]; omega)
      have hlenE : (AvlState.Erase less st v).arena.length ≠ 0 := by
        rw [AvlState.len_Erase]
        exact hlen
      have hsnd := Insert_snd_notfound less NSZ (AvlState.Erase less st v) w hlenE hafter
      have hpop := CreateNode_pop (AvlState.Erase less st v) NSZ w (by rw [h0right]; exact hs0)
      constructor
      · rw [show (AvlState.Insert less NSZ (AvlState.Erase less st v) w).2.1 =
              ((AvlState.Insert less NSZ (AvlState.Erase less st v) w).2).1 from rfl,
            hsnd]
        rw [hpop, h0right]
      · rw [show (AvlState.Insert less NSZ (AvlState.Erase less st v) w).2.2 =
              ((AvlState.Insert less NSZ (AvlState.Erase less st v) w).2).2 from rfl,
            hsnd]
  · rw [if_neg hr] at hfind
    simp at hfind

/-- Intermediate states of the C4 counterexample run: 10 at slot 1, 20 at
slot 2, then both erased (free-list now [2, 1]), then 10 re-inserted. -/
def c4run : AvlState Nat × Int × Bool :=
  AvlState.Insert natLess 24
    (AvlState.Erase natLess
      (AvlState.Erase natLess (AvlState.Insert natLess 24
        (AvlState.Insert natLess 24 AvlState.empty 10).1 20).1 10) 20) 10

/-- Counterexample to C4 as stated: insert(10) returns slot 1; after
erase(10), erase(20) and re-insert(10) — with no insert in between — the
returned slot is 2, not 1, because the intervening erase(20) pushed slot 2
on top of the LIFO free-list.  The "only if" direction fails too (a
duplicate insert in between pops nothing), so the equivalence cannot be
rescued by weakening one side. -/
theorem claim_C4_counterexample :
    (AvlState.Insert natLess 24 AvlState.empty 10).2.1 = 1 ∧
    c4run.2.1 = 2 ∧ ¬(c4run.2.1 = (AvlState.Insert natLess 24 AvlState.empty 10).2.1) := by
  decide

/-- Concrete container with 10, 20, 30 at slots 1, 2, 3. -/
def st4 : AvlState Nat :=
  (AvlState.Insert natLess 24 (AvlState.Insert natLess 24
    (AvlState.Insert natLess 24 AvlState.empty 10).1 20).1 30).1

/-- Witness for C4 (amended), which is also the claim's slot-stability
scenario: insert 10, 20, 30 at slots 1, 2, 3; erase 20; insert 25; the
new value lands in slot 2 and `at(1) = 10`, `at(3) = 30`. -/
theorem claim_C4_witness :
    (AvlState.Insert natLess 24
        (AvlState.Erase natLess st4 20) 25).2.1 = 2 ∧
    (AvlState.Insert natLess 24
        (AvlState.Erase natLess st4 20) 25).2.2 = true ∧
    ISet.at_ (AvlState.Insert natLess 24 (AvlState.Erase natLess st4 20) 25).1 1 = 10 ∧
    ISet.at_ (AvlState.Insert natLess 24 (AvlState.Erase natLess st4 20) 25).1 3 = 30 := by
  have h := claim_C4 natLess 24 st4 20 25 2 (by decide) (by decide) (by decide)
    (by decide) (by decide)
  exact ⟨h.1, h.2, by decide, by decide⟩

end IndexedSet
namespace IndexedSet

namespace AvlState

variable {α : Type} [Inhabited α]

/-- The LL rotation rewires links only; every `tilt` is untouched. -/
theorem tilt_Rotate_LL (st : AvlState α) (Z Y X j : Int) :
    ((st._Rotate_LL Z Y X).getN j).tilt = (st.getN j).tilt := by
  unfold _Rotate_LL
  cases h : st.NSafeParent Z <;>
    simp only [h] <;>
    split_ifs <;>
    simp [getN_setP_tilt, getN_setL_tilt, getN_setR_tilt]

/-- The RR rotation rewires links only; every `tilt` is untouched. -/
theorem tilt_Rotate_RR (st : AvlState α) (Z Y X j : Int) :
    ((st._Rotate_RR Z Y X).getN j).tilt = (st.getN j).tilt := by
  unfold _Rotate_RR
  cases h : st.NSafeParent Z <;>
    simp only [h] <;>
    split_ifs <;>
    simp [getN_setP_tilt, getN_setL_tilt, getN_setR_tilt]

end AvlState

open AvlState

/-- C5: during retrace-on-erase at an imbalanced node `Z` whose heavy
child `Y` is Balanced, `X` is picked on the side equal to `Z.tilt`, so a
single LL (resp. RR) rotation runs — never LR/RL — after which `Y.tilt`
is set to the direction opposite `Z`'s former tilt (`Right` for the LL
case, `Left` for the RR case), `Z` and `X` keep their tilts, and the
erase retrace stops immediately (`_Rotate_Erase` returns null, so
`Retrace_Erase` ends with this rotation).  The two implication groups are
the left-heavy (LL) and right-heavy (RR) configurations. -/
theorem claim_C5 {α : Type} [Inhabited α] (st : AvlState α) (Z Y X : Int) (f : Nat) :
    (Y = st.Nleft Z → X = st.Nleft Y →
     (st.getN Z).tilt = Dir.left → (st.getN Z).left ≠ 0 →
     (st.getN Y).tilt = Dir.none → (st.getN Y).left ≠ 0 →
     (st.getN X).parent = -(st.getN Y).left →
     Y.toNat < st.arena.length → Z.toNat ≠ Y.toNat → X.toNat ≠ Y.toNat →
       st.NSafeLeft Y = some X ∧
       st._Rotate_Erase Z = ((st._Rotate_LL Z Y X).setT Y Dir.right, Option.none) ∧
       (((st._Rotate_LL Z Y X).setT Y Dir.right).getN Y).tilt = Dir.right ∧
       (((st._Rotate_LL Z Y X).setT Y Dir.right).getN Z).tilt = (st.getN Z).tilt ∧
       (((st._Rotate_LL Z Y X).setT Y Dir.right).getN X).tilt = (st.getN X).tilt ∧
       st.Retrace_Erase (f + 1) (some Z) Dir.right = (st._Rotate_LL Z Y X).setT Y Dir.right) ∧
    (Y = st.Nright Z → X = st.Nright Y →
     (st.getN Z).tilt = Dir.right → (st.getN Z).right ≠ 0 →
     (st.getN Y).tilt = Dir.none → (st.getN Y).right ≠ 0 →
     (st.getN X).parent = -(st.getN Y).right →
     (st.getN Y).left ≠ (st.getN Y).right →
     Y.toNat < st.arena.length → Z.toNat ≠ Y.toNat → X.toNat ≠ Y.toNat →
       st.NSafeRight Y = some X ∧
       st._Rotate_Erase Z = ((st._Rotate_RR Z Y X).setT Y Dir.left, Option.none) ∧
       (((st._Rotate_RR Z Y X).setT Y Dir.left).getN Y).tilt = Dir.left ∧
       (((st._Rotate_RR Z Y X).setT Y Dir.left).getN Z).tilt = (st.getN Z).tilt ∧
       (((st._Rotate_RR Z Y X).setT Y Dir.left).getN X).tilt = (st.getN X).tilt ∧
       st.Retrace_Erase (f + 1) (some Z) Dir.left = (st._Rotate_RR Z Y X).setT Y Dir.left) := by
  constructor
  · intro hY hX htz hzl hty hyl hpx hYb hzy hxy
    have hYheavy : st.Nheavy Z = Y := by
      rw [hY]
      simp [AvlState.Nheavy, AvlState.Nleft, htz]
    have hXo : st.NSafeLeft Y = some X := by
      unfold AvlState.NSafeLeft
      rw [if_pos hyl, hX]
      rfl
    have hBr : st.Branch X = Dir.left := by
      unfold AvlState.Branch
      rw [hpx]
      have hne : -(st.getN Y).left ≠ 0 := by simpa using hyl
      rw [if_pos hne]
      have hXY : X + -(st.getN Y).left = Y := by
        rw [hX]
        unfold AvlState.Nleft AvlState._Ptr
        ring
      rw [hXY]
      simp
    have hmain : st._Rotate_Erase Z =
        ((st._Rotate_LL Z Y X).setT Y Dir.right, Option.none) := by
      unfold AvlState._Rotate_Erase
      simp only [hYheavy]
      rw [if_pos hty, htz]
      simp only [reduceIte]
      rw [hXo]
      simp only [hBr]
      rw [tilt_Rotate_LL, if_pos hty]
    have htiltY : (((st._Rotate_LL Z Y X).setT Y Dir.right).getN Y).tilt = Dir.right := by
      rw [AvlState.getN_setT]
      rw [if_pos ⟨rfl, by rw [AvlState.len_Rotate_LL]; exact hYb⟩]
    have htiltZ : (((st._Rotate_LL Z Y X).setT Y Dir.right).getN Z).tilt =
        (st.getN Z).tilt := by
      rw [AvlState.getN_setT, if_neg (by intro h; exact hzy h.1), tilt_Rotate_LL]
    have htiltX : (((st._Rotate_LL Z Y X).setT Y Dir.right).getN X).tilt =
        (st.getN X).tilt := by
      rw [AvlState.getN_setT, if_neg (by intro h; exact hxy h.1), tilt_Rotate_LL]
    have hretr : st.Retrace_Erase (f + 1) (some Z) Dir.right =
        (st._Rotate_LL Z Y X).setT Y Dir.right := by
      simp only [AvlState.Retrace_Erase]
      rw [htz]
      rw [if_neg (by decide : ¬(Dir.left = Dir.none)),
        if_neg (by decide : ¬(Dir.left = Dir.right))]
      rw [hmain]
    exact ⟨hXo, hmain, htiltY, htiltZ, htiltX, hretr⟩
  · intro hY hX htz hzr hty hyr hpx hlr hYb hzy hxy
    have hYheavy : st.Nheavy Z = Y := by
      rw [hY]
      simp [AvlState.Nheavy, AvlState.Nright, htz]
    have hXo : st.NSafeRight Y = some X := by
      unfold AvlState.NSafeRight
      rw [if_pos hyr, hX]
      rfl
    have hBr : st.Branch X = Dir.right := by
      unfold AvlState.Branch
      rw [hpx]
      have hne : -(st.getN Y).right ≠ 0 := by simpa using hyr
      rw [if_pos hne]
      have hXY : X + -(st.getN Y).right = Y := by
        rw [hX]
        unfold AvlState.Nright AvlState._Ptr
        ring
      rw [hXY]
      simp only [neg_neg]
      rw [if_neg hlr]
    have hmain : st._Rotate_Erase Z =
        ((st._Rotate_RR Z Y X).setT Y Dir.left, Option.none) := by
      unfold AvlState._Rotate_Erase
      simp only [hYheavy]
      rw [if_pos hty, htz]
      rw [if_neg (by decide : ¬(Dir.right = Dir.left))]
      rw [hXo]
      simp only [hBr]
      show (if ((st._Rotate_RR Z Y X).getN Y).tilt = Dir.none then
          ((st._Rotate_RR Z Y X).setT Y Dir.left, Option.none)
        else (((st._Rotate_RR Z Y X).setT Z Dir.none).setT Y Dir.none, some Y)) =
          ((st._Rotate_RR Z Y X).setT Y Dir.left, Option.none)
      rw [tilt_Rotate_RR, if_pos hty]
    have htiltY : (((st._Rotate_RR Z Y X).setT Y Dir.left).getN Y).tilt = Dir.left := by
      rw [AvlState.getN_setT]
      rw [if_pos ⟨rfl, by rw [AvlState.len_Rotate_RR]; exact hYb⟩]
    have htiltZ : (((st._Rotate_RR Z Y X).setT Y Dir.left).getN Z).tilt =
        (st.getN Z).tilt := by
      rw [AvlState.getN_setT, if_neg (by intro h; exact hzy h.1), tilt_Rotate_RR]
    have htiltX : (((st._Rotate_RR Z Y X).setT Y Dir.left).getN X).tilt =
        (st.getN X).tilt := by
      rw [AvlState.getN_setT, if_neg (by intro h; exact hxy h.1), tilt_Rotate_RR]
    have hretr : st.Retrace_Erase (f + 1) (some Z) Dir.left =
        (st._Rotate_RR Z Y X).setT Y Dir.left := by
      simp only [AvlState.Retrace_Erase]
      rw [htz]
      rw [if_neg (by decide : ¬(Dir.right = Dir.none)),
        if_neg (by decide : ¬(Dir.right = Dir.left))]
      rw [hmain]
    exact ⟨hXo, hmain, htiltY, htiltZ, htiltX, hretr⟩

end IndexedSet

namespace IndexedSet

/-- Hand-built arena for the LL erase-rotation case: Z at slot 1 is
left-heavy, its left child Y at slot 2 is balanced with two children
(X at slot 3, and slot 5), slot 4 hangs right of Z. -/
def st5L : AvlState Nat :=
  ⟨[default,
    ⟨4, 0, 1, 3, Dir.left⟩,
    ⟨2, -1, 1, 3, Dir.none⟩,
    ⟨1, -1, 0, 0, Dir.none⟩,
    ⟨5, -3, 0, 0, Dir.none⟩,
    ⟨3, -3, 0, 0, Dir.none⟩], 5, 1, 0⟩

/-- Mirror arena for the RR erase-rotation case. -/
def st5R : AvlState Nat :=
  ⟨[default,
    ⟨2, 0, 3, 1, Dir.right⟩,
    ⟨4, -1, 3, 1, Dir.none⟩,
    ⟨5, -1, 0, 0, Dir.none⟩,
    ⟨1, -3, 0, 0, Dir.none⟩,
    ⟨3, -3, 0, 0, Dir.none⟩], 5, 1, 0⟩

/-- Witness for C5: both configurations instantiated on concrete arenas;
the erase rotation performs the straight LL (resp. RR) rotation, retags
`Y`, and stops. -/
theorem claim_C5_witness :
    (st5L._Rotate_Erase 1 = ((st5L._Rotate_LL 1 2 3).setT 2 Dir.right, Option.none) ∧
     (((st5L._Rotate_LL 1 2 3).setT 2 Dir.right).getN 2).tilt = Dir.right ∧
     st5L.Retrace_Erase 1 (some 1) Dir.right = (st5L._Rotate_LL 1 2 3).setT 2 Dir.right) ∧
    (st5R._Rotate_Erase 1 = ((st5R._Rotate_RR 1 2 3).setT 2 Dir.left, Option.none) ∧
     (((st5R._Rotate_RR 1 2 3).setT 2 Dir.left).getN 2).tilt = Dir.left ∧
     st5R.Retrace_Erase 1 (some 1) Dir.left = (st5R._Rotate_RR 1 2 3).setT 2 Dir.left) := by
  have hL := (claim_C5 st5L 1 2 3 0).1 (by decide) (by decide) (by decide) (by decide)
    (by decide) (by decide) (by decide) (by decide) (by decide) (by decide)
  have hR := (claim_C5 st5R 1 2 3 0).2 (by decide) (by decide) (by decide) (by decide)
    (by decide) (by decide) (by decide) (by decide) (by decide) (by decide) (by decide)
  exact ⟨⟨hL.2.1, hL.2.2.1, hL.2.2.2.2.2⟩, ⟨hR.2.1, hR.2.2.1, hR.2.2.2.2.2⟩⟩

end IndexedSet

namespace IndexedSet

namespace AvlState

variable {α : Type} [Inhabited α]

@[simp] theorem getN_ite (c : Prop) [Decidable c] (a b : AvlState α) (j : Int) :
    (if c then a else b).getN j = if c then a.getN j else b.getN j :=
  apply_ite (fun s : AvlState α => s.getN j) c a b

@[simp] theorem inode_parent_ite (c : Prop) [Decidable c] (a b : INode α) :
    (if c then a else b).parent = if c then a.parent else b.parent :=
  apply_ite (fun nd : INode α => nd.parent) c a b

@[simp] theorem inode_left_ite (c : Prop) [Decidable c] (a b : INode α) :
    (if c then a else b).left = if c then a.left else b.left :=
  apply_ite (fun nd : INode α => nd.left) c a b

@[simp] theorem inode_right_ite (c : Prop) [Decidable c] (a b : INode α) :
    (if c then a else b).right = if c then a.right else b.right :=
  apply_ite (fun nd : INode α => nd.right) c a b

@[simp] theorem inode_tilt_ite (c : Prop) [Decidable c] (a b : INode α) :
    (if c then a else b).tilt = if c then a.tilt else b.tilt :=
  apply_ite (fun nd : INode α => nd.tilt) c a b

@[simp] theorem getN_setP_left2 (st : AvlState α) (i j v) :
    ((st.setP i v).getN j).left = (st.getN j).left := by
  rw [getN_setP]
  split <;> rfl

@[simp] theorem getN_setP_right2 (st : AvlState α) (i j v) :
    ((st.setP i v).getN j).right = (st.getN j).right := by
  rw [getN_setP]
  split <;> rfl

@[simp] theorem getN_setP_tilt2 (st : AvlState α) (i j v) :
    ((st.setP i v).getN j).tilt = (st.getN j).tilt := getN_setP_tilt st i j v

@[simp] theorem getN_setL_parent2 (st : AvlState α) (i j v) :
    ((st.setL i v).getN j).parent = (st.getN j).parent := by
  rw [getN_setL]
  split <;> rfl

@[simp] theorem getN_setL_right2 (st : AvlState α) (i j v) :
    ((st.setL i v).getN j).right = (st.getN j).right := by
  rw [getN_setL]
  split <;> rfl

@[simp] theorem getN_setL_tilt2 (st : AvlState α) (i j v) :
    ((st.setL i v).getN j).tilt = (st.getN j).tilt := getN_setL_tilt st i j v

@[simp] theorem getN_setR_parent2 (st : AvlState α) (i j v) :
    ((st.setR i v).getN j).parent = (st.getN j).parent := by
  rw [getN_setR]
  split <;> rfl

@[simp] theorem getN_setR_left2 (st : AvlState α) (i j v) :
    ((st.setR i v).getN j).left = (st.getN j).left := by
  rw [getN_setR]
  split <;> rfl

@[simp] theorem getN_setR_tilt2 (st : AvlState α) (i j v) :
    ((st.setR i v).getN j).tilt = (st.getN j).tilt := getN_setR_tilt st i j v

@[simp] theorem getN_setT_parent2 (st : AvlState α) (i j v) :
    ((st.setT i v).getN j).parent = (st.getN j).parent := by
  rw [getN_setT]
  split <;> rfl

@[simp] theorem getN_setT_left2 (st : AvlState α) (i j v) :
    ((st.setT i v).getN j).left = (st.getN j).left := by
  rw [getN_setT]
  split <;> rfl

@[simp] theorem getN_setT_right2 (st : AvlState α) (i j v) :
    ((st.setT i v).getN j).right = (st.getN j).right := by
  rw [getN_setT]
  split <;> rfl

end AvlState

end IndexedSet
namespace IndexedSet

namespace AvlState

variable {α : Type} [Inhabited α]

@[simp] theorem Nparent_setL (st : AvlState α) (i v j) :
    (st.setL i v).Nparent j = st.Nparent j := by
  simp [Nparent, _Ptr]

@[simp] theorem Nparent_setR (st : AvlState α) (i v j) :
    (st.setR i v).Nparent j = st.Nparent j := by
  simp [Nparent, _Ptr]

@[simp] theorem Nparent_setT (st : AvlState α) (i v j) :
    (st.setT i v).Nparent j = st.Nparent j := by
  simp [Nparent, _Ptr]

@[simp] theorem Nparent_ite (c : Prop) [Decidable c] (a b : AvlState α) (j : Int) :
    (if c then a else b).Nparent j = if c then a.Nparent j else b.Nparent j :=
  apply_ite (fun s : AvlState α => s.Nparent j) c a b

/-- Modelled from the spec: upward half of the in-order-predecessor walk,
the mirror of `inorderUp` (climb through parents until the climb arrives
from a right branch).  The source has no `InorderPrevOf`; the spec's
erase step speaks of the target's "in-order predecessor", so the mirror
of `InorderNextOf` serves as the reference definition. -/
def inorderUpMirror (st : AvlState α) (fuel : Nat) (i : Int) (b : Dir) : Option Int :=
  match fuel with
  | 0 => Option.none
  | fuel + 1 =>
    match st.NSafeParent i with
    | Option.none => Option.none
    | some p => if b = Dir.right then some p else st.inorderUpMirror fuel p (st.Branch p)

/-- Modelled from the spec: the in-order predecessor of a node, the exact
mirror of the source's `InorderNextOf` (rightmost node of the left
subtree when a left child exists, otherwise the first ancestor reached
from a right branch). -/
def specInorderPrevOf (st : AvlState α) (fuel : Nat) (n : Option Int) : Option Int :=
  match n with
  | Option.none => Option.none
  | some i =>
    if (st.getN i).left ≠ 0 then some (st.RightmostOf fuel (_Ptr i (st.getN i).left))
    else st.inorderUpMirror fuel i (st.Branch i)

end AvlState

open AvlState

/-- C3 (amended): when erase targets a node `n` with two children, the
swap partner chosen by `_EraseNode` is the in-order successor exactly
when `n.tilt == Right`, and the in-order predecessor when `n.tilt` is
Left *or* Balanced; `_SwapWith` exchanges the two nodes' tilt values,
leaves the target with at most one child (its right link cleared after a
predecessor swap, its left link cleared after a successor swap, and in
the general case the side on which the partner had no child is cleared),
and in the immediate-child special cases the target is rewired as the
partner's direct child on that side.  The `toNat` side conditions say
that the participating slots (target, partner, the two parents) are
distinct live arena slots, which holds for every well-formed tree. -/
theorem claim_C3 {α : Type} [Inhabited α] (st : AvlState α) (n sw : Int) (fuel : Nat)
    (hl : (st.getN n).left ≠ 0)
    (hr : (st.getN n).right ≠ 0)
    (hsw : sw = st.swapSel fuel n)
    (hnb : n.toNat < st.arena.length)
    (hsb : sw.toNat < st.arena.length)
    (hns : ¬(n.toNat = sw.toNat)) :
    ((st.getN n).tilt = Dir.right → some sw = st.InorderNextOf fuel (some n)) ∧
    ((st.getN n).tilt ≠ Dir.right → some sw = st.specInorderPrevOf fuel (some n)) ∧
    ((st._SwapWith n sw).getN n).tilt = (st.getN sw).tilt ∧
    ((st._SwapWith n sw).getN sw).tilt = (st.getN n).tilt ∧
    (sw = st.Nleft n → ((st._SwapWith n sw).getN n).right = 0) ∧
    (sw ≠ st.Nleft n → sw = st.Nright n → ((st._SwapWith n sw).getN n).left = 0) ∧
    (sw ≠ st.Nleft n → sw ≠ st.Nright n →
     ¬((st.Nparent sw).toNat = sw.toNat) → ¬(sw.toNat = (st.Nparent sw).toNat) →
     ¬((st.Nparent n).toNat = (st.Nparent sw).toNat) →
     ¬((st.Nparent sw).toNat = (st.Nparent n).toNat) →
     ¬((st.Nparent sw).toNat = n.toNat) → ¬(n.toNat = (st.Nparent sw).toNat) →
     ¬(sw.toNat = (st.Nparent n).toNat) → ¬((st.Nparent n).toNat = sw.toNat) →
     ¬(n.toNat = (st.Nparent n).toNat) → ¬((st.Nparent n).toNat = n.toNat) →
     ((st.getN sw).left = 0 ∨ (st.getN sw).right = 0) →
     (((st._SwapWith n sw).getN n).left = 0 ∨ ((st._SwapWith n sw).getN n).right = 0)) ∧
    (sw = st.Nleft n → ((st._SwapWith n sw).getN sw).left = n - sw) ∧
    (sw ≠ st.Nleft n → sw = st.Nright n → ((st._SwapWith n sw).getN sw).right = n - sw) := by
  have hsn : ¬(sw.toNat = n.toNat) := fun h => hns h.symm
  refine ⟨?_, ?_, ?_, ?_, ?_, ?_, ?_, ?_, ?_⟩
  · intro ht
    rw [hsw]
    unfold AvlState.swapSel AvlState.InorderNextOf
    simp only []
    rw [if_pos ht, if_pos hr]
    rfl
  · intro ht
    rw [hsw]
    unfold AvlState.swapSel AvlState.specInorderPrevOf
    simp only []
    rw [if_neg ht, if_pos hl]
    rfl
  · simp [_SwapWith, getN_setT, hnb, hsb, hns, hsn]
  · simp [_SwapWith, getN_setT, hnb, hsb, hns, hsn]
  · intro hAL
    subst hAL
    simp [_SwapWith, getN_setR, hnb, hsb, hns, hsn]
  · intro hAL hAR
    have hlr : ¬(st.Nleft n = st.Nright n) := by
      intro h
      exact hAL (h ▸ hAR)
    have hrl : ¬(st.Nright n = st.Nleft n) := fun h => hlr h.symm
    subst hAR
    simp [_SwapWith, getN_setL, hAL, hnb, hsb, hns, hsn, hlr, hrl]
  · intro hAL hAR hPB hPB2 hPAPB hPBPA hPBn hnPB hswPA hPAsw hnPA hPAn hone
    rcases hone with h1 | h1
    · left
      simp [_SwapWith, getN_setL, hAL, hAR, hnb, hsb, hns, hsn, hPB, hPB2, hPAPB, hPBPA,
        hPBn, hnPB, hswPA, hPAsw, hnPA, hPAn, h1]
    · right
      simp [_SwapWith, getN_setR, hAL, hAR, hnb, hsb, hns, hsn, hPB, hPB2, hPAPB, hPBPA,
        hPBn, hnPB, hswPA, hPAsw, hnPA, hPAn, h1]
  · intro hAL
    subst hAL
    simp [_SwapWith, getN_setL, hnb, hsb, hns, hsn]
  · intro hAL hAR
    subst hAR
    simp [_SwapWith, getN_setR, hAL, hnb, hsb, hns, hsn]




/-- Concrete container built by inserting 2, 1, 3: the root (slot 1,
payload 2) is Balanced and has two children (slot 2 = 1, slot 3 = 3). -/
def st3 : AvlState Nat :=
  (AvlState.Insert natLess 24 (AvlState.Insert natLess 24
    (AvlState.Insert natLess 24 AvlState.empty 2).1 1).1 3).1

/-- `st3` plus 4: the root (slot 1, payload 2) is now Right-heavy. -/
def st3b : AvlState Nat := (AvlState.Insert natLess 24 st3 4).1

/-- Hand-built arena for the general (non-child) swap case: the target at
slot 1 is left-heavy under the root at slot 6; its in-order predecessor
is slot 5, deep in the left subtree. -/
def st3g : AvlState Nat :=
  ⟨[default,
    ⟨50, 5, 1, 2, Dir.left⟩,
    ⟨30, -1, 2, 3, Dir.none⟩,
    ⟨60, -2, 0, 0, Dir.none⟩,
    ⟨20, -2, 0, 0, Dir.none⟩,
    ⟨40, -3, 0, 0, Dir.none⟩,
    ⟨100, 0, -5, 1, Dir.left⟩,
    ⟨200, -1, 0, 0, Dir.none⟩], 7, 6, 0⟩

/-- Counterexample to C3 as stated: in `st3` the erase target (slot 1,
payload 2) is Balanced with two children; the claim says the swap partner
is then the in-order successor (slot 3, payload 3), but the code picks
the in-order predecessor (slot 2, payload 1) — `swapSel` lands in the
`else` branch for `tilt == Balanced`.  Observably, after `erase(2)` the
root is slot 2. -/
theorem claim_C3_counterexample :
    (st3.getN 1).tilt = Dir.none ∧ (st3.getN 1).left ≠ 0 ∧ (st3.getN 1).right ≠ 0 ∧
    st3.InorderNextOf 8 (some 1) = some 3 ∧
    st3.specInorderPrevOf 8 (some 1) = some 2 ∧
    st3.swapSel 8 1 = 2 ∧
    ¬(st3.swapSel 8 1 = 3) ∧
    (AvlState.Erase natLess st3 2)._Root = 2 := by
  decide

/-- Witness for C3 (amended), on three concrete configurations: the
Balanced target of `st3` swaps with its predecessor (the immediate left
child — the special case), the Right-heavy target of `st3b` swaps with
its successor (the immediate right child), and the left-heavy target of
`st3g` swaps with a predecessor deep in its left subtree (the general
case); tilts are exchanged and the target keeps at most one child. -/
theorem claim_C3_witness :
    ((some 2 : Option Int) = st3.specInorderPrevOf 8 (some 1) ∧
     ((st3._SwapWith 1 2).getN 1).tilt = (st3.getN 2).tilt ∧
     ((st3._SwapWith 1 2).getN 2).tilt = (st3.getN 1).tilt ∧
     ((st3._SwapWith 1 2).getN 1).right = 0 ∧
     ((st3._SwapWith 1 2).getN 2).left = 1 - 2) ∧
    ((some 3 : Option Int) = st3b.InorderNextOf 8 (some 1) ∧
     ((st3b._SwapWith 1 3).getN 1).left = 0 ∧
     ((st3b._SwapWith 1 3).getN 3).right = 1 - 3) ∧
    (((st3g._SwapWith 1 5).getN 1).left = 0 ∨ ((st3g._SwapWith 1 5).getN 1).right = 0) := by
  have h3 := claim_C3 st3 1 2 8 (by decide) (by decide) (by decide) (by decide)
    (by decide) (by decide)
  have h3b := claim_C3 st3b 1 3 8 (by decide) (by decide) (by decide) (by decide)
    (by decide) (by decide)
  have h3g := claim_C3 st3g 1 5 8 (by decide) (by decide) (by decide) (by decide)
    (by decide) (by decide)
  refine ⟨⟨h3.2.1 (by decide), h3.2.2.1, h3.2.2.2.1, h3.2.2.2.2.1 (by decide),
    h3.2.2.2.2.2.2.2.1 (by decide)⟩,
    ⟨h3b.1 (by decide), h3b.2.2.2.2.2.1 (by decide) (by decide),
      h3b.2.2.2.2.2.2.2.2 (by decide) (by decide)⟩, ?_⟩
  exact h3g.2.2.2.2.2.2.1 (by decide) (by decide) (by decide) (by decide) (by decide)
    (by decide) (by decide) (by decide) (by decide) (by decide) (by decide) (by decide)
    (by decide)

end IndexedSet
namespace IndexedSet

namespace AvlVerif

open AvlState

variable {α : Type} [Inhabited α]

/-- Abstract binary tree annotated with the arena slot, payload and tilt
tag of every node: the shape the arena links spell out. -/
inductive ST (α : Type) : Type where
  | leaf : ST α
  | node (l : ST α) (slot : Int) (v : α) (tl : Dir) (r : ST α) : ST α

/-- Slot list of a tree, in symmetric order. -/
def ST.slots : ST α → List Int
  | ST.leaf => []
  | ST.node l i _ _ r => l.slots ++ i :: r.slots

/-- Payload list of a tree, in symmetric order. -/
def ST.inorder : ST α → List α
  | ST.leaf => []
  | ST.node l _ v _ r => l.inorder ++ v :: r.inorder

/-- Height (leaf = 0). -/
def ST.height : ST α → Nat
  | ST.leaf => 0
  | ST.node l _ _ _ r => 1 + max l.height r.height

/-- The tilt tag an AVL node with subtree heights `hl`, `hr` must carry. -/
def tiltFor (hl hr : Nat) : Dir :=
  if hr < hl then Dir.left else if hl < hr then Dir.right else Dir.none

/-- The AVL shape invariant: every node is balanced within one and its
stored tilt equals the comparison of its subtree heights. -/
def ST.avl : ST α → Prop
  | ST.leaf => True
  | ST.node l _ _ tl r =>
    l.avl ∧ r.avl ∧ l.height ≤ r.height + 1 ∧ r.height ≤ l.height + 1 ∧
      tl = tiltFor l.height r.height

/-- Root slot of a tree, 0 for the empty tree (the C++ null root). -/
def ST.rootSlot : ST α → Int
  | ST.leaf => 0
  | ST.node _ i _ _ _ => i

/-- The representation relation: the arena nodes spell out exactly this
tree.  A node's clause pins its payload, tilt and child links, and each
child's back link; the root's own `parent` field is constrained by the
enclosing node (or, at the top, by the container root invariant). -/
def Repr (st : AvlState α) : ST α → Prop
  | ST.leaf => True
  | ST.node l i v tl r =>
    0 < i ∧ i.toNat < st.arena.length ∧
    (st.getN i).payload = v ∧ (st.getN i).tilt = tl ∧
    (match l with
     | ST.leaf => (st.getN i).left = 0
     | ST.node _ li _ _ _ => (st.getN i).left = li - i ∧ (st.getN li).parent = i - li) ∧
    (match r with
     | ST.leaf => (st.getN i).right = 0
     | ST.node _ ri _ _ _ => (st.getN i).right = ri - i ∧ (st.getN ri).parent = i - ri) ∧
    Repr st l ∧ Repr st r

theorem Repr.leaf_iff (st : AvlState α) : Repr st ST.leaf ↔ True := Iff.rfl

theorem slots_pos (st : AvlState α) {t : ST α} (h : Repr st t) :
    ∀ j ∈ t.slots, 0 < j ∧ j.toNat < st.arena.length := by
  induction t with
  | leaf => intro j hj; cases hj
  | node l i v tl r ihl ihr =>
    intro j hj
    obtain ⟨hpos, hlen, _, _, _, _, hl, hr⟩ := h
    simp only [ST.slots, List.mem_append, List.mem_cons] at hj
    rcases hj with hj | hj | hj
    · exact ihl hl j hj
    · exact hj ▸ ⟨hpos, hlen⟩
    · exact ihr hr j hj

/-- Framing: a tree representation survives any state change that leaves
the tree's slots untouched and does not shrink the arena. -/
theorem Repr_mono {st st' : AvlState α} {t : ST α}
    (hlen : st.arena.length ≤ st'.arena.length)
    (hagree : ∀ j ∈ t.slots, st'.getN j = st.getN j)
    (h : Repr st t) : Repr st' t := by
  induction t with
  | leaf => trivial
  | node l i v tl r ihl ihr =>
    obtain ⟨hpos, hilen, hpay, htl, hlc, hrc, hl, hr⟩ := h
    have hisel : st'.getN i = st.getN i := by
      apply hagree
      simp [ST.slots]
    have hlsub : ∀ j ∈ l.slots, st'.getN j = st.getN j := by
      intro j hj
      apply hagree
      simp [ST.slots, hj]
    have hrsub : ∀ j ∈ r.slots, st'.getN j = st.getN j := by
      intro j hj
      apply hagree
      simp [ST.slots, hj]
    refine ⟨hpos, lt_of_lt_of_le hilen hlen, ?_, ?_, ?_, ?_, ihl hlsub hl, ihr hrsub hr⟩
    · rw [hisel]; exact hpay
    · rw [hisel]; exact htl
    · cases l with
      | leaf => rw [hisel]; exact hlc
      | node _ li _ _ _ =>
        refine ⟨by rw [hisel]; exact hlc.1, ?_⟩
        have : st'.getN li = st.getN li := by
          apply hagree
          simp [ST.slots]
        rw [this]; exact hlc.2
    · cases r with
      | leaf => rw [hisel]; exact hrc
      | node _ ri _ _ _ =>
        refine ⟨by rw [hisel]; exact hrc.1, ?_⟩
        have : st'.getN ri = st.getN ri := by
          apply hagree
          simp [ST.slots]
        rw [this]; exact hrc.2

end AvlVerif

end IndexedSet
namespace IndexedSet

namespace AvlVerif

open AvlState

variable {α : Type} [Inhabited α]

/-- One step of a root-to-node path: the hole is the left (`L`) or right
(`R`) child of the node at slot `i`, whose other subtree is `sib`. -/
inductive Frame (α : Type) : Type where
  | L (i : Int) (v : α) (tl : Dir) (sib : ST α) : Frame α
  | R (i : Int) (v : α) (tl : Dir) (sib : ST α) : Frame α

/-- Rebuild the whole tree from a subtree and its path (innermost frame
first). -/
def plug : ST α → List (Frame α) → ST α
  | t, [] => t
  | t, Frame.L i v tl sib :: ps => plug (ST.node t i v tl sib) ps
  | t, Frame.R i v tl sib :: ps => plug (ST.node sib i v tl t) ps

/-- Slots owned by the path itself. -/
def ctxSlots : List (Frame α) → List Int
  | [] => []
  | Frame.L i _ _ sib :: ps => i :: sib.slots ++ ctxSlots ps
  | Frame.R i _ _ sib :: ps => i :: sib.slots ++ ctxSlots ps

theorem plug_slots_perm (t : ST α) (ps : List (Frame α)) :
    ((plug t ps).slots).Perm (t.slots ++ ctxSlots ps) := by
  induction ps generalizing t with
  | nil => simp [plug, ctxSlots]
  | cons f ps ih =>
    cases f with
    | L i v tl sib =>
      refine ((ih (ST.node t i v tl sib)).trans ?_)
      simp only [ST.slots, ctxSlots]
      rw [List.append_assoc]
    | R i v tl sib =>
      refine ((ih (ST.node sib i v tl t)).trans ?_)
      simp only [ST.slots, ctxSlots]
      have h1 : ((ST.slots sib ++ i :: ST.slots t) ++ ctxSlots ps).Perm
          (i :: (ST.slots sib ++ (ST.slots t ++ ctxSlots ps))) := by
        rw [List.append_assoc]
        exact List.perm_middle
      refine h1.trans ?_
      refine List.Perm.trans ?_ List.perm_middle.symm
      refine List.Perm.cons i ?_
      have h2 : (ST.slots sib ++ (ST.slots t ++ ctxSlots ps)).Perm
          ((ST.slots t ++ ST.slots sib) ++ ctxSlots ps) := by
        rw [← List.append_assoc]
        exact List.Perm.append_right _ List.perm_append_comm
      refine h2.trans ?_
      rw [List.append_assoc]
      exact List.Perm.refl _

theorem plug_inorder_congr {t1 t2 : ST α} (h : t1.inorder = t2.inorder) :
    ∀ ps : List (Frame α), (plug t1 ps).inorder = (plug t2 ps).inorder := by
  intro ps
  induction ps generalizing t1 t2 with
  | nil => exact h
  | cons f ps ih =>
    cases f with
    | L i v tl sib => exact ih (by simp [ST.inorder, h])
    | R i v tl sib => exact ih (by simp [ST.inorder, h])

/-- Validity of a path for a hole of height `H`: every frame is balanced
and correctly tagged assuming its hole subtree has height `H`. -/
def CtxAvl : List (Frame α) → Nat → Prop
  | [], _ => True
  | Frame.L _ _ tl sib :: ps, H =>
    sib.avl ∧ H ≤ sib.height + 1 ∧ sib.height ≤ H + 1 ∧ tl = tiltFor H sib.height ∧
      CtxAvl ps (1 + max H sib.height)
  | Frame.R _ _ tl sib :: ps, H =>
    sib.avl ∧ sib.height ≤ H + 1 ∧ H ≤ sib.height + 1 ∧ tl = tiltFor sib.height H ∧
      CtxAvl ps (1 + max sib.height H)

/-- Plugging an AVL subtree of the expected height into a valid path
yields an AVL tree. -/
theorem plug_avl {t : ST α} {ps : List (Frame α)} {H : Nat}
    (hc : CtxAvl ps H) (ht : t.avl) (hh : t.height = H) : (plug t ps).avl := by
  induction ps generalizing t H with
  | nil => exact ht
  | cons f ps ih =>
    cases f with
    | L i v tl sib =>
      obtain ⟨hs, h1, h2, h3, hrest⟩ := hc
      refine ih hrest ⟨ht, hs, ?_, ?_, ?_⟩ (by simp [ST.height, hh])
      · omega
      · omega
      · rw [hh]; exact h3
    | R i v tl sib =>
      obtain ⟨hs, h1, h2, h3, hrest⟩ := hc
      refine ih hrest ⟨hs, ht, ?_, ?_, ?_⟩ (by simp [ST.height, hh])
      · omega
      · omega
      · rw [hh]; exact h3

theorem Repr_plug_extract {st : AvlState α} {t : ST α} {ps : List (Frame α)}
    (h : Repr st (plug t ps)) : Repr st t := by
  induction ps generalizing t with
  | nil => exact h
  | cons f ps ih =>
    cases f with
    | L i v tl sib => exact (ih (t := ST.node t i v tl sib) h).2.2.2.2.2.2.1
    | R i v tl sib => exact (ih (t := ST.node sib i v tl t) h).2.2.2.2.2.2.2

/-- Replace the subtree in the hole by another one with the same root
slot: the path clauses survive if the path's slots are untouched and the
hole root's `parent` field is unchanged. -/
theorem Repr_plug_replace {st st' : AvlState α} {ps : List (Frame α)}
    {s s' : ST α} {rs : Int}
    (hlen : st.arena.length ≤ st'.arena.length)
    (hroot : s.rootSlot = rs) (hroot' : s'.rootSlot = rs)
    (hleaf : s = ST.leaf ↔ s' = ST.leaf)
    (hctx : ∀ j ∈ ctxSlots ps, st'.getN j = st.getN j)
    (hpar : (st'.getN rs).parent = (st.getN rs).parent)
    (hrep : Repr st (plug s ps)) (hs' : Repr st' s') :
    Repr st' (plug s' ps) := by
  induction ps generalizing s s' rs with
  | nil => exact hs'
  | cons f ps ih =>
    cases f with
    | L i v tl sib =>
      have hctx' : ∀ j ∈ ctxSlots ps, st'.getN j = st.getN j := by
        intro j hj
        exact hctx j (by simp [ctxSlots, hj])
      have hi : st'.getN i = st.getN i := hctx i (by simp [ctxSlots])
      have hrepn : Repr st (ST.node s i v tl sib) := Repr_plug_extract hrep
      obtain ⟨hpos, hilen, hpay, htl, hlc, hrc, hl, hr⟩ := hrepn
      refine ih (show (ST.node s i v tl sib).rootSlot = i from rfl)
        (show (ST.node s' i v tl sib).rootSlot = i from rfl)
        (by constructor <;> intro h <;> cases h) hctx' (by rw [hi]) hrep ?_
      refine ⟨hpos, lt_of_lt_of_le hilen hlen, by rw [hi]; exact hpay,
        by rw [hi]; exact htl, ?_, ?_, hs', ?_⟩
      · cases hs : s with
        | leaf =>
          have : s' = ST.leaf := hleaf.1 hs
          rw [this]
          rw [hi]
          rw [hs] at hlc
          exact hlc
        | node a b c d e =>
          have hs'ne : s' ≠ ST.leaf := fun h => by
            rw [hleaf.2 h] at hs
            cases hs
          cases hs' : s' with
          | leaf => exact absurd hs' hs'ne
          | node a' b' c' d' e' =>
            have hb : b = rs := by rw [hs] at hroot; exact hroot
            have hb' : b' = rs := by rw [hs'] at hroot'; exact hroot'
            rw [hs] at hlc
            refine ⟨by rw [hi, hb', ← hb]; exact hlc.1, ?_⟩
            rw [hb', hpar, ← hb]
            exact hlc.2
      · cases sib with
        | leaf => rw [hi]; exact hrc
        | node a b c d e =>
          have hbmem : b ∈ ctxSlots (Frame.L i v tl (ST.node a b c d e) :: ps) := by
            simp [ctxSlots, ST.slots]
          refine ⟨by rw [hi]; exact hrc.1, by rw [hctx b hbmem]; exact hrc.2⟩
      · exact Repr_mono hlen (fun j hj => hctx j (by simp [ctxSlots, hj])) hr
    | R i v tl sib =>
      have hctx' : ∀ j ∈ ctxSlots ps, st'.getN j = st.getN j := by
        intro j hj
        exact hctx j (by simp [ctxSlots, hj])
      have hi : st'.getN i = st.getN i := hctx i (by simp [ctxSlots])
      have hrepn : Repr st (ST.node sib i v tl s) := Repr_plug_extract hrep
      obtain ⟨hpos, hilen, hpay, htl, hlc, hrc, hl, hr⟩ := hrepn
      refine ih (show (ST.node sib i v tl s).rootSlot = i from rfl)
        (show (ST.node sib i v tl s').rootSlot = i from rfl)
        (by constructor <;> intro h <;> cases h) hctx' (by rw [hi]) hrep ?_
      refine ⟨hpos, lt_of_lt_of_le hilen hlen, by rw [hi]; exact hpay,
        by rw [hi]; exact htl, ?_, ?_, ?_, hs'⟩
      · cases sib with
        | leaf => rw [hi]; exact hlc
        | node a b c d e =>
          have hbmem : b ∈ ctxSlots (Frame.R i v tl (ST.node a b c d e) :: ps) := by
            simp [ctxSlots, ST.slots]
          refine ⟨by rw [hi]; exact hlc.1, by rw [hctx b hbmem]; exact hlc.2⟩
      · cases hs : s with
        | leaf =>
          have : s' = ST.leaf := hleaf.1 hs
          rw [this]
          rw [hi]
          rw [hs] at hrc
          exact hrc
        | node a b c d e =>
          have hs'ne : s' ≠ ST.leaf := fun h => by
            rw [hleaf.2 h] at hs
            cases hs
          cases hs' : s' with
          | leaf => exact absurd hs' hs'ne
          | node a' b' c' d' e' =>
            have hb : b = rs := by rw [hs] at hroot; exact hroot
            have hb' : b' = rs := by rw [hs'] at hroot'; exact hroot'
            rw [hs] at hrc
            refine ⟨by rw [hi, hb', ← hb]; exact hrc.1, ?_⟩
            rw [hb', hpar, ← hb]
            exact hrc.2
      · exact Repr_mono hlen (fun j hj => hctx j (by simp [ctxSlots, hj])) hl

end AvlVerif

end IndexedSet
namespace IndexedSet

namespace AvlVerif

open AvlState

variable {α : Type} [Inhabited α]

/-- Node record equality up to the `parent` field. -/
def eqExceptParent (n1 n2 : INode α) : Prop :=
  n1.payload = n2.payload ∧ n1.left = n2.left ∧ n1.right = n2.right ∧ n1.tilt = n2.tilt

theorem eqExceptParent_refl (n : INode α) : eqExceptParent n n := ⟨rfl, rfl, rfl, rfl⟩

/-- Framing, refined: a subtree representation also survives a change of
its root's `parent` field (which `Repr` does not constrain). -/
theorem Repr_mono' {st st' : AvlState α} {t : ST α}
    (hlen : st.arena.length ≤ st'.arena.length)
    (hnd : t.slots.Nodup)
    (hagree : ∀ j ∈ t.slots, j ≠ t.rootSlot → st'.getN j = st.getN j)
    (hroot : t ≠ ST.leaf → eqExceptParent (st'.getN t.rootSlot) (st.getN t.rootSlot))
    (h : Repr st t) : Repr st' t := by
  induction t with
  | leaf => trivial
  | node l i v tl r ihl ihr =>
    obtain ⟨hpos, hilen, hpay, htl, hlc, hrc, hl, hr⟩ := h
    have hndl : l.slots.Nodup := by
      simp only [ST.slots, List.nodup_append, List.nodup_cons] at hnd
      exact hnd.1
    have hndr : r.slots.Nodup := by
      simp only [ST.slots, List.nodup_append, List.nodup_cons] at hnd
      exact hnd.2.1.2
    have hidisj : ∀ j, j ∈ l.slots ∨ j ∈ r.slots → j ≠ i := by
      intro j hj
      simp only [ST.slots, List.nodup_append, List.nodup_cons] at hnd
      rcases hj with hj | hj
      · intro he
        exact (hnd.2.2 (he ▸ hj)) (List.mem_cons_self i _)
      · intro he
        exact hnd.2.1.1 (he ▸ hj)
    have hmem : ∀ j, j ∈ l.slots ∨ j ∈ r.slots → j ∈ (ST.node l i v tl r).slots := by
      intro j hj
      simp only [ST.slots, List.mem_append, List.mem_cons]
      tauto
    have hfull : ∀ j, j ∈ l.slots ∨ j ∈ r.slots → st'.getN j = st.getN j := by
      intro j hj
      exact hagree j (hmem j hj) (hidisj j hj)
    obtain ⟨hep, hel, her, het⟩ :
        eqExceptParent (st'.getN i) (st.getN i) :=
      hroot (by intro h; cases h)
    refine ⟨hpos, lt_of_lt_of_le hilen hlen, hep ▸ hpay, het ▸ htl, ?_, ?_, ?_, ?_⟩
    · cases hls : l with
      | leaf => rw [hel]; rw [hls] at hlc; exact hlc
      | node a li b c d =>
        rw [hls] at hlc
        have hli : li ∈ l.slots := by rw [hls]; simp [ST.slots]
        exact ⟨by rw [hel]; exact hlc.1, by rw [hfull li (Or.inl hli)]; exact hlc.2⟩
    · cases hrs : r with
      | leaf => rw [her]; rw [hrs] at hrc; exact hrc
      | node a ri b c d =>
        rw [hrs] at hrc
        have hri : ri ∈ r.slots := by rw [hrs]; simp [ST.slots]
        exact ⟨by rw [her]; exact hrc.1, by rw [hfull ri (Or.inr hri)]; exact hrc.2⟩
    · refine ihl hndl (fun j hj _ => hfull j (Or.inl hj)) ?_ hl
      intro hne
      cases l with
      | leaf => exact absurd rfl hne
      | node a li b c d =>
        have hli : li ∈ (ST.node a li b c d).slots := by simp [ST.slots]
        show eqExceptParent (st'.getN li) (st.getN li)
        rw [hfull li (Or.inl hli)]
        exact eqExceptParent_refl _
    · refine ihr hndr (fun j hj _ => hfull j (Or.inr hj)) ?_ hr
      intro hne
      cases r with
      | leaf => exact absurd rfl hne
      | node a ri b c d =>
        have hri : ri ∈ (ST.node a ri b c d).slots := by simp [ST.slots]
        show eqExceptParent (st'.getN ri) (st.getN ri)
        rw [hfull ri (Or.inr hri)]
        exact eqExceptParent_refl _

end AvlVerif

end IndexedSet
namespace IndexedSet

namespace AvlVerif

open AvlState

variable {α : Type} [Inhabited α]

/-- What the rotation needs to know about the parent of the subtree being
rotated: either the subtree hangs at the container root (`none`), or it is
the left (`some (P, true)`) or right (`some (P, false)`) child of a node
`P` outside the subtree. -/
def PSpec (st : AvlState α) (Z : Int) : Option (Int × Bool) → Prop
  | Option.none => (st.getN Z).parent = 0
  | some (P, true) =>
    (st.getN Z).parent = P - Z ∧ 0 < P ∧ P.toNat < st.arena.length ∧
      (st.getN P).left = Z - P
  | some (P, false) =>
    (st.getN Z).parent = P - Z ∧ 0 < P ∧ P.toNat < st.arena.length ∧
      (st.getN P).right = Z - P ∧ (st.getN P).left ≠ Z - P

/-- Slot of the parent description (0 when at the root). -/
def pslot : Option (Int × Bool) → Int
  | Option.none => 0
  | some (P, _) => P

end AvlVerif

end IndexedSet
namespace IndexedSet

open AvlState

namespace AvlVerif

variable {α : Type} [Inhabited α]

/-- Grafting through a left frame: the hole was the left child of `P`;
the new subtree `s'` may have a different root slot, provided `P`'s left
link now points at it and its root points back at `P`, while every other
path slot is untouched. -/
theorem Repr_plug_graft_L {st st' : AvlState α} {rest : List (Frame α)}
    {s s' : ST α} {P : Int} {v : α} {tl : Dir}
    {sib : ST α}
    (hlen : st.arena.length ≤ st'.arena.length)
    (hleaf : s' ≠ ST.leaf)
    (hPp : (st'.getN P).parent = (st.getN P).parent)
    (hPr : (st'.getN P).right = (st.getN P).right)
    (hPt : (st'.getN P).tilt = (st.getN P).tilt)
    (hPv : (st'.getN P).payload = (st.getN P).payload)
    (hPl : (st'.getN P).left = s'.rootSlot - P)
    (hback : (st'.getN s'.rootSlot).parent = P - s'.rootSlot)
    (hctx : ∀ j ∈ sib.slots ++ ctxSlots rest, st'.getN j = st.getN j)
    (hrep : Repr st (plug s (Frame.L P v tl sib :: rest)))
    (hs' : Repr st' s') :
    Repr st' (plug s' (Frame.L P v tl sib :: rest)) := by
  have hnode : Repr st (ST.node s P v tl sib) := Repr_plug_extract hrep
  obtain ⟨hPpos, hPlen, hPpay, hPtl, _hsl, hsr, _hss, hsib⟩ := hnode
  have hs'node : Repr st' (ST.node s' P v tl sib) := by
    refine ⟨hPpos, lt_of_lt_of_le hPlen hlen, hPv.trans hPpay, hPt.trans hPtl, ?_, ?_, hs', ?_⟩
    · cases s' with
      | leaf => exact absurd rfl hleaf
      | node l' rs' v' tl' r' => exact ⟨hPl, hback⟩
    · cases sib with
      | leaf => exact hPr.trans hsr
      | node ls is vs tls rs =>
        refine ⟨hPr.trans hsr.1, ?_⟩
        rw [hctx is (by simp [ST.slots])]
        exact hsr.2
    · refine Repr_mono hlen ?_ hsib
      intro j hj
      exact hctx j (by simp [hj])
  show Repr st' (plug (ST.node s' P v tl sib) rest)
  refine Repr_plug_replace hlen (show (ST.node s P v tl sib).rootSlot = P from rfl)
    (show (ST.node s' P v tl sib).rootSlot = P from rfl) ?_ ?_ hPp hrep hs'node
  · constructor <;> intro h <;> cases h
  · intro j hj
    exact hctx j (by simp [hj])

/-- Grafting through a right frame: mirror of the left case. -/
theorem Repr_plug_graft_R {st st' : AvlState α} {rest : List (Frame α)}
    {s s' : ST α} {P : Int} {v : α} {tl : Dir}
    {sib : ST α}
    (hlen : st.arena.length ≤ st'.arena.length)
    (hleaf : s' ≠ ST.leaf)
    (hPp : (st'.getN P).parent = (st.getN P).parent)
    (hPl2 : (st'.getN P).left = (st.getN P).left)
    (hPt : (st'.getN P).tilt = (st.getN P).tilt)
    (hPv : (st'.getN P).payload = (st.getN P).payload)
    (hPr : (st'.getN P).right = s'.rootSlot - P)
    (hback : (st'.getN s'.rootSlot).parent = P - s'.rootSlot)
    (hctx : ∀ j ∈ sib.slots ++ ctxSlots rest, st'.getN j = st.getN j)
    (hrep : Repr st (plug s (Frame.R P v tl sib :: rest)))
    (hs' : Repr st' s') :
    Repr st' (plug s' (Frame.R P v tl sib :: rest)) := by
  have hnode : Repr st (ST.node sib P v tl s) := Repr_plug_extract hrep
  obtain ⟨hPpos, hPlen, hPpay, hPtl, hsl, _hsr, hsib, _hss⟩ := hnode
  have hs'node : Repr st' (ST.node sib P v tl s') := by
    refine ⟨hPpos, lt_of_lt_of_le hPlen hlen, hPv.trans hPpay, hPt.trans hPtl, ?_, ?_, ?_, hs'⟩
    · cases sib with
      | leaf => exact hPl2.trans hsl
      | node ls is vs tls rs =>
        refine ⟨hPl2.trans hsl.1, ?_⟩
        rw [hctx is (by simp [ST.slots])]
        exact hsl.2
    · cases s' with
      | leaf => exact absurd rfl hleaf
      | node l' rs' v' tl' r' => exact ⟨hPr, hback⟩
    · refine Repr_mono hlen ?_ hsib
      intro j hj
      exact hctx j (by simp [hj])
  show Repr st' (plug (ST.node sib P v tl s') rest)
  refine Repr_plug_replace hlen (show (ST.node sib P v tl s).rootSlot = P from rfl)
    (show (ST.node sib P v tl s').rootSlot = P from rfl) ?_ ?_ hPp hrep hs'node
  · constructor <;> intro h <;> cases h
  · intro j hj
    exact hctx j (by simp [hj])

end AvlVerif

end IndexedSet
namespace IndexedSet

open AvlState

namespace AvlVerif

variable {α : Type} [Inhabited α]

/-- Exact node contents after `_Rotate_LL` when `Z` is the left child of
`P` and `Y` has a right subtree rooted at `r2`. -/
theorem rotLL_P_left_node (st : AvlState α) (Z Y X P r2 : Int)
    (hZlen : Z.toNat < st.arena.length) (hYlen : Y.toNat < st.arena.length)
    (hPlen : P.toNat < st.arena.length) (hr2len : r2.toNat < st.arena.length)
    (hYZ : Y.toNat ≠ Z.toNat) (hPY : P.toNat ≠ Y.toNat) (hPZ : P.toNat ≠ Z.toNat)
    (hPr2 : P.toNat ≠ r2.toNat) (hYr2 : Y.toNat ≠ r2.toNat) (hZr2 : Z.toNat ≠ r2.toNat)
    (hPZi : P ≠ Z) (hr2Yi : r2 ≠ Y)
    (hZp : (st.getN Z).parent = P - Z)
    (hPl : (st.getN P).left = Z - P)
    (hZl : (st.getN Z).left = Y - Z)
    (hYp : (st.getN Y).parent = Z - Y)
    (hYr : (st.getN Y).right = r2 - Y) :
    (st._Rotate_LL Z Y X).getN Y = { st.getN Y with parent := P - Y, right := Z - Y } ∧
    (st._Rotate_LL Z Y X).getN Z = { st.getN Z with parent := Y - Z, left := r2 - Z } ∧
    (st._Rotate_LL Z Y X).getN r2 = { st.getN r2 with parent := Z - r2 } ∧
    (st._Rotate_LL Z Y X).getN P = { st.getN P with left := Y - P } ∧
    (∀ j : Int, j.toNat ≠ Y.toNat → j.toNat ≠ Z.toNat → j.toNat ≠ r2.toNat →
      j.toNat ≠ P.toNat → (st._Rotate_LL Z Y X).getN j = st.getN j) := by
  have hNSP : st.NSafeParent Z = some P := by
    have h1 : P - Z ≠ 0 := sub_ne_zero_of_ne hPZi
    have h2 : Z + (P - Z) = P := by ring
    simp [NSafeParent, hZp, h1, _Ptr, h2]
  have hsub : r2 - Y ≠ 0 := sub_ne_zero_of_ne hr2Yi
  have hslot : Z + ((Y - Z) + (r2 - Y)) = r2 := by ring
  refine ⟨?_, ?_, ?_, ?_, ?_⟩ <;>
    [skip; skip; skip; skip; intro j hjY hjZ hjr2 hjP] <;>
  · simp only [_Rotate_LL, hNSP, Nleft, _Ptr, getN_setP, getN_setL, getN_setR,
      arena_setP, arena_setL, arena_setR, arena_ite, hZp, hPl, hZl, hYp, hYr, neg_sub,
      hsub, hslot,
      hZlen, hYlen, hPlen, hr2len, hYZ, hPY, hPZ, hPr2, hYr2, hZr2,
      Ne.symm hYZ, Ne.symm hPY, Ne.symm hPZ, Ne.symm hPr2, Ne.symm hYr2, Ne.symm hZr2,
      if_true, if_false, and_true, true_and, and_false, false_and, ite_true, ite_false,
      not_false_iff, ne_eq, not_true, INode.mk.injEq]
    try simp only [hjY, hjZ, hjr2, hjP, if_false, and_false, false_and, ite_false]
    try first
    | rfl
    | omega
    | (constructor <;> first | rfl | omega)

/-- Exact node contents after `_Rotate_LL` when `Z` is the left child of
`P` and `Y` has no right subtree. -/
theorem rotLL_P_left_leaf (st : AvlState α) (Z Y X P : Int)
    (hZlen : Z.toNat < st.arena.length) (hYlen : Y.toNat < st.arena.length)
    (hPlen : P.toNat < st.arena.length)
    (hYZ : Y.toNat ≠ Z.toNat) (hPY : P.toNat ≠ Y.toNat) (hPZ : P.toNat ≠ Z.toNat)
    (hPZi : P ≠ Z)
    (hZp : (st.getN Z).parent = P - Z)
    (hPl : (st.getN P).left = Z - P)
    (hZl : (st.getN Z).left = Y - Z)
    (hYp : (st.getN Y).parent = Z - Y)
    (hYr : (st.getN Y).right = 0) :
    (st._Rotate_LL Z Y X).getN Y = { st.getN Y with parent := P - Y, right := Z - Y } ∧
    (st._Rotate_LL Z Y X).getN Z = { st.getN Z with parent := Y - Z, left := 0 } ∧
    (st._Rotate_LL Z Y X).getN P = { st.getN P with left := Y - P } ∧
    (∀ j : Int, j.toNat ≠ Y.toNat → j.toNat ≠ Z.toNat →
      j.toNat ≠ P.toNat → (st._Rotate_LL Z Y X).getN j = st.getN j) := by
  have hNSP : st.NSafeParent Z = some P := by
    have h1 : P - Z ≠ 0 := sub_ne_zero_of_ne hPZi
    have h2 : Z + (P - Z) = P := by ring
    simp [NSafeParent, hZp, h1, _Ptr, h2]
  refine ⟨?_, ?_, ?_, ?_⟩ <;>
    [skip; skip; skip; intro j hjY hjZ hjP] <;>
  · simp only [_Rotate_LL, hNSP, Nleft, _Ptr, getN_setP, getN_setL, getN_setR,
      arena_setP, arena_setL, arena_setR, arena_ite, hZp, hPl, hZl, hYp, hYr, neg_sub,
      hZlen, hYlen, hPlen, hYZ, hPY, hPZ,
      Ne.symm hYZ, Ne.symm hPY, Ne.symm hPZ,
      if_true, if_false, and_true, true_and, and_false, false_and, ite_true, ite_false,
      not_false_iff, ne_eq, not_true, INode.mk.injEq]
    try simp only [hjY, hjZ, hjP, if_false, and_false, false_and, ite_false]
    try first
    | rfl
    | omega
    | (constructor <;> first | rfl | omega)

/-- Exact node contents after `_Rotate_LL` when `Z` is the right child of
`P` and `Y` has a right subtree rooted at `r2`. -/
theorem rotLL_P_right_node (st : AvlState α) (Z Y X P r2 : Int)
    (hZlen : Z.toNat < st.arena.length) (hYlen : Y.toNat < st.arena.length)
    (hPlen : P.toNat < st.arena.length) (hr2len : r2.toNat < st.arena.length)
    (hYZ : Y.toNat ≠ Z.toNat) (hPY : P.toNat ≠ Y.toNat) (hPZ : P.toNat ≠ Z.toNat)
    (hPr2 : P.toNat ≠ r2.toNat) (hYr2 : Y.toNat ≠ r2.toNat) (hZr2 : Z.toNat ≠ r2.toNat)
    (hPZi : P ≠ Z) (hr2Yi : r2 ≠ Y)
    (hZp : (st.getN Z).parent = P - Z)
    (hPr : (st.getN P).right = Z - P)
    (hPlne : (st.getN P).left ≠ Z - P)
    (hZl : (st.getN Z).left = Y - Z)
    (hYp : (st.getN Y).parent = Z - Y)
    (hYr : (st.getN Y).right = r2 - Y) :
    (st._Rotate_LL Z Y X).getN Y = { st.getN Y with parent := P - Y, right := Z - Y } ∧
    (st._Rotate_LL Z Y X).getN Z = { st.getN Z with parent := Y - Z, left := r2 - Z } ∧
    (st._Rotate_LL Z Y X).getN r2 = { st.getN r2 with parent := Z - r2 } ∧
    (st._Rotate_LL Z Y X).getN P = { st.getN P with right := Y - P } ∧
    (∀ j : Int, j.toNat ≠ Y.toNat → j.toNat ≠ Z.toNat → j.toNat ≠ r2.toNat →
      j.toNat ≠ P.toNat → (st._Rotate_LL Z Y X).getN j = st.getN j) := by
  have hNSP : st.NSafeParent Z = some P := by
    have h1 : P - Z ≠ 0 := sub_ne_zero_of_ne hPZi
    have h2 : Z + (P - Z) = P := by ring
    simp [NSafeParent, hZp, h1, _Ptr, h2]
  have hsub : r2 - Y ≠ 0 := sub_ne_zero_of_ne hr2Yi
  have hslot : Z + ((Y - Z) + (r2 - Y)) = r2 := by ring
  refine ⟨?_, ?_, ?_, ?_, ?_⟩ <;>
    [skip; skip; skip; skip; intro j hjY hjZ hjr2 hjP] <;>
  · simp only [_Rotate_LL, hNSP, Nleft, _Ptr, getN_setP, getN_setL, getN_setR,
      arena_setP, arena_setL, arena_setR, arena_ite, hZp, hPr, hPlne, hZl, hYp, hYr,
      neg_sub, hsub, hslot,
      hZlen, hYlen, hPlen, hr2len, hYZ, hPY, hPZ, hPr2, hYr2, hZr2,
      Ne.symm hYZ, Ne.symm hPY, Ne.symm hPZ, Ne.symm hPr2, Ne.symm hYr2, Ne.symm hZr2,
      if_true, if_false, and_true, true_and, and_false, false_and, ite_true, ite_false,
      not_false_iff, ne_eq, not_true, INode.mk.injEq]
    try simp only [hjY, hjZ, hjr2, hjP, if_false, and_false, false_and, ite_false]
    try first
    | rfl
    | omega
    | (constructor <;> first | rfl | omega)

/-- Exact node contents after `_Rotate_LL` when `Z` is the right child of
`P` and `Y` has no right subtree. -/
theorem rotLL_P_right_leaf (st : AvlState α) (Z Y X P : Int)
    (hZlen : Z.toNat < st.arena.length) (hYlen : Y.toNat < st.arena.length)
    (hPlen : P.toNat < st.arena.length)
    (hYZ : Y.toNat ≠ Z.toNat) (hPY : P.toNat ≠ Y.toNat) (hPZ : P.toNat ≠ Z.toNat)
    (hPZi : P ≠ Z)
    (hZp : (st.getN Z).parent = P - Z)
    (hPr : (st.getN P).right = Z - P)
    (hPlne : (st.getN P).left ≠ Z - P)
    (hZl : (st.getN Z).left = Y - Z)
    (hYp : (st.getN Y).parent = Z - Y)
    (hYr : (st.getN Y).right = 0) :
    (st._Rotate_LL Z Y X).getN Y = { st.getN Y with parent := P - Y, right := Z - Y } ∧
    (st._Rotate_LL Z Y X).getN Z = { st.getN Z with parent := Y - Z, left := 0 } ∧
    (st._Rotate_LL Z Y X).getN P = { st.getN P with right := Y - P } ∧
    (∀ j : Int, j.toNat ≠ Y.toNat → j.toNat ≠ Z.toNat →
      j.toNat ≠ P.toNat → (st._Rotate_LL Z Y X).getN j = st.getN j) := by
  have hNSP : st.NSafeParent Z = some P := by
    have h1 : P - Z ≠ 0 := sub_ne_zero_of_ne hPZi
    have h2 : Z + (P - Z) = P := by ring
    simp [NSafeParent, hZp, h1, _Ptr, h2]
  refine ⟨?_, ?_, ?_, ?_⟩ <;>
    [skip; skip; skip; intro j hjY hjZ hjP] <;>
  · simp only [_Rotate_LL, hNSP, Nleft, _Ptr, getN_setP, getN_setL, getN_setR,
      arena_setP, arena_setL, arena_setR, arena_ite, hZp, hPr, hPlne, hZl, hYp, hYr,
      neg_sub,
      hZlen, hYlen, hPlen, hYZ, hPY, hPZ,
      Ne.symm hYZ, Ne.symm hPY, Ne.symm hPZ,
      if_true, if_false, and_true, true_and, and_false, false_and, ite_true, ite_false,
      not_false_iff, ne_eq, not_true, INode.mk.injEq]
    try simp only [hjY, hjZ, hjP, if_false, and_false, false_and, ite_false]
    try first
    | rfl
    | omega
    | (constructor <;> first | rfl | omega)

/-- Exact node contents after `_Rotate_LL` when `Z` is the tree root and
`Y` has a right subtree rooted at `r2`. -/
theorem rotLL_root_node (st : AvlState α) (Z Y X r2 : Int)
    (hZlen : Z.toNat < st.arena.length) (hYlen : Y.toNat < st.arena.length)
    (hr2len : r2.toNat < st.arena.length)
    (hYZ : Y.toNat ≠ Z.toNat)
    (hYr2 : Y.toNat ≠ r2.toNat) (hZr2 : Z.toNat ≠ r2.toNat)
    (hr2Yi : r2 ≠ Y)
    (hZp : (st.getN Z).parent = 0)
    (hZl : (st.getN Z).left = Y - Z)
    (hYp : (st.getN Y).parent = Z - Y)
    (hYr : (st.getN Y).right = r2 - Y) :
    (st._Rotate_LL Z Y X).getN Y = { st.getN Y with parent := 0, right := Z - Y } ∧
    (st._Rotate_LL Z Y X).getN Z = { st.getN Z with parent := Y - Z, left := r2 - Z } ∧
    (st._Rotate_LL Z Y X).getN r2 = { st.getN r2 with parent := Z - r2 } ∧
    (∀ j : Int, j.toNat ≠ Y.toNat → j.toNat ≠ Z.toNat → j.toNat ≠ r2.toNat →
      (st._Rotate_LL Z Y X).getN j = st.getN j) := by
  have hNSP : st.NSafeParent Z = Option.none := by
    simp [NSafeParent, hZp]
  have hsub : r2 - Y ≠ 0 := sub_ne_zero_of_ne hr2Yi
  have hslot : Z + ((Y - Z) + (r2 - Y)) = r2 := by ring
  refine ⟨?_, ?_, ?_, ?_⟩ <;>
    [skip; skip; skip; intro j hjY hjZ hjr2] <;>
  · simp only [_Rotate_LL, hNSP, Nleft, _Ptr, getN_setP, getN_setL, getN_setR,
      arena_setP, arena_setL, arena_setR, arena_ite, hZp, hZl, hYp, hYr, neg_sub,
      hsub, hslot,
      hZlen, hYlen, hr2len, hYZ, hYr2, hZr2,
      Ne.symm hYZ, Ne.symm hYr2, Ne.symm hZr2,
      if_true, if_false, and_true, true_and, and_false, false_and, ite_true, ite_false,
      not_false_iff, ne_eq, not_true, INode.mk.injEq]
    try simp only [hjY, hjZ, hjr2, if_false, and_false, false_and, ite_false]
    try first
    | rfl
    | omega
    | (constructor <;> first | rfl | omega)

/-- Exact node contents after `_Rotate_LL` when `Z` is the tree root and
`Y` has no right subtree. -/
theorem rotLL_root_leaf (st : AvlState α) (Z Y X : Int)
    (hZlen : Z.toNat < st.arena.length) (hYlen : Y.toNat < st.arena.length)
    (hYZ : Y.toNat ≠ Z.toNat)
    (hZp : (st.getN Z).parent = 0)
    (hZl : (st.getN Z).left = Y - Z)
    (hYp : (st.getN Y).parent = Z - Y)
    (hYr : (st.getN Y).right = 0) :
    (st._Rotate_LL Z Y X).getN Y = { st.getN Y with parent := 0, right := Z - Y } ∧
    (st._Rotate_LL Z Y X).getN Z = { st.getN Z with parent := Y - Z, left := 0 } ∧
    (∀ j : Int, j.toNat ≠ Y.toNat → j.toNat ≠ Z.toNat →
      (st._Rotate_LL Z Y X).getN j = st.getN j) := by
  have hNSP : st.NSafeParent Z = Option.none := by
    simp [NSafeParent, hZp]
  refine ⟨?_, ?_, ?_⟩ <;>
    [skip; skip; intro j hjY hjZ] <;>
  · simp only [_Rotate_LL, hNSP, Nleft, _Ptr, getN_setP, getN_setL, getN_setR,
      arena_setP, arena_setL, arena_setR, arena_ite, hZp, hZl, hYp, hYr, neg_sub,
      hZlen, hYlen, hYZ,
      Ne.symm hYZ,
      if_true, if_false, and_true, true_and, and_false, false_and, ite_true, ite_false,
      not_false_iff, ne_eq, not_true, INode.mk.injEq]
    try simp only [hjY, hjZ, if_false, and_false, false_and, ite_false]
    try first
    | rfl
    | omega
    | (constructor <;> first | rfl | omega)

end AvlVerif

end IndexedSet
namespace IndexedSet

namespace AvlState

variable {α : Type} [Inhabited α]

theorem root_Rotate_LL (st : AvlState α) (Z Y X : Int) :
    (st._Rotate_LL Z Y X)._Root = st._Root := by
  unfold _Rotate_LL
  cases h : st.NSafeParent Z <;> simp only [h] <;> split_ifs <;> simp

theorem cnt_Rotate_LL (st : AvlState α) (Z Y X : Int) :
    (st._Rotate_LL Z Y X)._Cnt = st._Cnt := by
  unfold _Rotate_LL
  cases h : st.NSafeParent Z <;> simp only [h] <;> split_ifs <;> simp

theorem cap_Rotate_LL (st : AvlState α) (Z Y X : Int) :
    (st._Rotate_LL Z Y X).capacity_ = st.capacity_ := by
  unfold _Rotate_LL
  cases h : st.NSafeParent Z <;> simp only [h] <;> split_ifs <;> simp

theorem root_Rotate_RR (st : AvlState α) (Z Y X : Int) :
    (st._Rotate_RR Z Y X)._Root = st._Root := by
  unfold _Rotate_RR
  cases h : st.NSafeParent Z <;> simp only [h] <;> split_ifs <;> simp

theorem cnt_Rotate_RR (st : AvlState α) (Z Y X : Int) :
    (st._Rotate_RR Z Y X)._Cnt = st._Cnt := by
  unfold _Rotate_RR
  cases h : st.NSafeParent Z <;> simp only [h] <;> split_ifs <;> simp

theorem cap_Rotate_RR (st : AvlState α) (Z Y X : Int) :
    (st._Rotate_RR Z Y X).capacity_ = st.capacity_ := by
  unfold _Rotate_RR
  cases h : st.NSafeParent Z <;> simp only [h] <;> split_ifs <;> simp

theorem root_Rotate_LR (st : AvlState α) (Z Y X : Int) :
    (st._Rotate_LR Z Y X)._Root = st._Root := by
  unfold _Rotate_LR
  cases h : st.NSafeParent Z <;> simp only [h] <;> split_ifs <;> simp

theorem cnt_Rotate_LR (st : AvlState α) (Z Y X : Int) :
    (st._Rotate_LR Z Y X)._Cnt = st._Cnt := by
  unfold _Rotate_LR
  cases h : st.NSafeParent Z <;> simp only [h] <;> split_ifs <;> simp

theorem cap_Rotate_LR (st : AvlState α) (Z Y X : Int) :
    (st._Rotate_LR Z Y X).capacity_ = st.capacity_ := by
  unfold _Rotate_LR
  cases h : st.NSafeParent Z <;> simp only [h] <;> split_ifs <;> simp

theorem root_Rotate_RL (st : AvlState α) (Z Y X : Int) :
    (st._Rotate_RL Z Y X)._Root = st._Root := by
  unfold _Rotate_RL
  cases h : st.NSafeParent Z <;> simp only [h] <;> split_ifs <;> simp

theorem cnt_Rotate_RL (st : AvlState α) (Z Y X : Int) :
    (st._Rotate_RL Z Y X)._Cnt = st._Cnt := by
  unfold _Rotate_RL
  cases h : st.NSafeParent Z <;> simp only [h] <;> split_ifs <;> simp

theorem cap_Rotate_RL (st : AvlState α) (Z Y X : Int) :
    (st._Rotate_RL Z Y X).capacity_ = st.capacity_ := by
  unfold _Rotate_RL
  cases h : st.NSafeParent Z <;> simp only [h] <;> split_ifs <;> simp

end AvlState

end IndexedSet
namespace IndexedSet

open AvlState

namespace AvlVerif

variable {α : Type} [Inhabited α]

/-- The relative link a parent at slot `i` stores for child subtree `t`
(0 when the child is absent). -/
def ST.linkFrom (t : ST α) (i : Int) : Int :=
  match t with
  | ST.leaf => 0
  | ST.node _ j _ _ _ => j - i

/-- Assembling the LL/RR-rotated tree: if after some state change the
nodes `Y`, `Z` and the root of `t2` carry exactly the rewired fields and
every other slot of the subtree is untouched, the rotated tree is
represented. -/
theorem Repr_post_LL {st st' : AvlState α} {t1 t2 t3 : ST α} {Y Z W : Int}
    {vy vz : α} {tly tlz : Dir} {q : Int}
    (hlen : st.arena.length ≤ st'.arena.length)
    (hpre : Repr st (ST.node (ST.node t1 Y vy tly t2) Z vz tlz t3))
    (hnd : (ST.node (ST.node t1 Y vy tly t2) Z vz tlz t3).slots.Nodup)
    (hW : ∀ k ∈ (ST.node (ST.node t1 Y vy tly t2) Z vz tlz t3).slots, W.toNat ≠ k.toNat)
    (hY : st'.getN Y = { st.getN Y with parent := q, right := Z - Y })
    (hZ2 : st'.getN Z = { st.getN Z with parent := Y - Z, left := ST.linkFrom t2 Z })
    (hr2 : t2 ≠ ST.leaf →
      st'.getN t2.rootSlot = { st.getN t2.rootSlot with parent := Z - t2.rootSlot })
    (hF5 : ∀ j : Int, j.toNat ≠ Y.toNat → j.toNat ≠ Z.toNat → j.toNat ≠ t2.rootSlot.toNat →
      j.toNat ≠ W.toNat → st'.getN j = st.getN j) :
    Repr st' (ST.node t1 Y vy tly (ST.node t2 Z vz tlz t3)) := by
  have hposAll := slots_pos st hpre
  obtain ⟨hZpos, hZlen, hZpay, hZtl, ⟨hZl, hYp⟩, hZr, hYrep, ht3⟩ := hpre
  obtain ⟨hYpos, hYlen, hYpay, hYtl, hYlc, hYrc, ht1, ht2⟩ := hYrep
  have hmem1 : ∀ j ∈ t1.slots, j ∈ (ST.node (ST.node t1 Y vy tly t2) Z vz tlz t3).slots := by
    intro j hj; simp [ST.slots, hj]
  have hmem2 : ∀ j ∈ t2.slots, j ∈ (ST.node (ST.node t1 Y vy tly t2) Z vz tlz t3).slots := by
    intro j hj; simp [ST.slots, hj]
  have hmem3 : ∀ j ∈ t3.slots, j ∈ (ST.node (ST.node t1 Y vy tly t2) Z vz tlz t3).slots := by
    intro j hj; simp [ST.slots, hj]
  have hnd' : ((t1.slots ++ Y :: t2.slots) ++ Z :: t3.slots).Nodup := by
    simpa [ST.slots] using hnd
  rw [List.nodup_append] at hnd'
  obtain ⟨hndL, hndR, hdisjLR⟩ := hnd'
  rw [List.nodup_append] at hndL
  obtain ⟨hndt1, hndYt2, hdisj1⟩ := hndL
  rw [List.nodup_cons] at hndYt2
  obtain ⟨hYnt2, hndt2⟩ := hndYt2
  rw [List.nodup_cons] at hndR
  obtain ⟨hZnt3, hndt3⟩ := hndR
  -- basic distinctness
  have hYZ : Y ≠ Z := by
    intro h
    exact hdisjLR (show Y ∈ t1.slots ++ Y :: t2.slots by simp) (by simp [h])
  have hYZn : Y.toNat ≠ Z.toNat := by
    have := hYZ; omega
  -- r2 facts (only meaningful when t2 is a node)
  have hr2mem : t2 ≠ ST.leaf → t2.rootSlot ∈ t2.slots := by
    intro h
    cases t2 with
    | leaf => exact absurd rfl h
    | node a b c d e => simp [ST.rootSlot, ST.slots]
  have hr2Y : t2 ≠ ST.leaf → t2.rootSlot ≠ Y := by
    intro h hc
    exact hYnt2 (hc ▸ hr2mem h)
  have hr2Z : t2 ≠ ST.leaf → t2.rootSlot ≠ Z := by
    intro h hc
    exact hdisjLR (show t2.rootSlot ∈ t1.slots ++ Y :: t2.slots by simp [hr2mem h])
      (by simp [hc])
  -- untouched helper for a slot of t1
  have hu1 : ∀ j ∈ t1.slots, st'.getN j = st.getN j := by
    intro j hj
    have hjpos := hposAll j (hmem1 j hj)
    have hjY : j ≠ Y := by
      intro h
      exact hdisj1 hj (by simp [h])
    have hjZ : j ≠ Z := by
      intro h
      exact hdisjLR (show j ∈ t1.slots ++ Y :: t2.slots by simp [hj]) (by simp [h])
    have hjr2 : j.toNat ≠ t2.rootSlot.toNat := by
      cases t2 with
      | leaf =>
        simp only [ST.rootSlot]
        omega
      | node a b c d e =>
        have hjb : j ≠ b := by
          intro h
          exact hdisj1 hj (show j ∈ Y :: (ST.node a b c d e).slots by rw [h]; simp [ST.slots])
        have hbpos := hposAll b (hmem2 b (by simp [ST.slots]))
        simp only [ST.rootSlot]
        omega
    have hYpos' := hposAll Y (by simp [ST.slots])
    have hZpos' := hposAll Z (by simp [ST.slots])
    exact hF5 j (by omega) (by omega) hjr2 (fun h => hW j (hmem1 j hj) h.symm)
  have hu3 : ∀ j ∈ t3.slots, st'.getN j = st.getN j := by
    intro j hj
    have hjpos := hposAll j (hmem3 j hj)
    have hjY : j ≠ Y := by
      intro h
      exact hdisjLR (show j ∈ t1.slots ++ Y :: t2.slots by simp [h]) (by simp [hj])
    have hjZ : j ≠ Z := by
      intro h
      exact hZnt3 (h ▸ hj)
    have hjr2 : j.toNat ≠ t2.rootSlot.toNat := by
      cases t2 with
      | leaf =>
        simp only [ST.rootSlot]
        omega
      | node a b c d e =>
        have hjb : j ≠ b := by
          intro h
          exact hdisjLR
            (show j ∈ t1.slots ++ Y :: (ST.node a b c d e).slots by rw [h]; simp [ST.slots])
            (by simp [hj])
        have hbpos := hposAll b (hmem2 b (by simp [ST.slots]))
        simp only [ST.rootSlot]
        omega
    have hYpos' := hposAll Y (by simp [ST.slots])
    have hZpos' := hposAll Z (by simp [ST.slots])
    exact hF5 j (by omega) (by omega) hjr2 (fun h => hW j (hmem3 j hj) h.symm)
  have hYpos' := hposAll Y (by simp [ST.slots])
  have hZpos' := hposAll Z (by simp [ST.slots])
  refine ⟨hYpos, lt_of_lt_of_le hYlen hlen, ?_, ?_, ?_, ?_, ?_, ?_⟩
  · rw [hY]; exact hYpay
  · rw [hY]; exact hYtl
  · -- left clause of Y: t1
    cases t1 with
    | leaf =>
      show (st'.getN Y).left = 0
      rw [hY]; exact hYlc
    | node a b c d e =>
      refine ⟨?_, ?_⟩
      · show (st'.getN Y).left = b - Y
        rw [hY]; exact hYlc.1
      · show (st'.getN b).parent = Y - b
        rw [hu1 b (by simp [ST.slots])]
        exact hYlc.2
  · -- right clause of Y: the new Z node
    exact ⟨by rw [hY], by rw [hZ2]⟩
  · -- Repr t1
    exact Repr_mono hlen hu1 ht1
  · -- the Z node
    refine ⟨hZpos, lt_of_lt_of_le hZlen hlen, ?_, ?_, ?_, ?_, ?_, ?_⟩
    · rw [hZ2]; exact hZpay
    · rw [hZ2]; exact hZtl
    · -- left clause of Z: t2
      cases t2 with
      | leaf =>
        show (st'.getN Z).left = 0
        rw [hZ2]; rfl
      | node a b c d e =>
        refine ⟨?_, ?_⟩
        · show (st'.getN Z).left = b - Z
          rw [hZ2]; rfl
        · show (st'.getN b).parent = Z - b
          have := hr2 (by intro h; cases h)
          simp only [ST.rootSlot] at this
          rw [this]
    · -- right clause of Z: t3
      cases t3 with
      | leaf =>
        show (st'.getN Z).right = 0
        rw [hZ2]; exact hZr
      | node a b c d e =>
        refine ⟨?_, ?_⟩
        · show (st'.getN Z).right = b - Z
          rw [hZ2]; exact hZr.1
        · show (st'.getN b).parent = Z - b
          rw [hu3 b (by simp [ST.slots])]
          exact hZr.2
    · -- Repr t2
      cases t2 with
      | leaf => trivial
      | node a b c d e =>
        refine Repr_mono' hlen hndt2 ?_ ?_ ht2
        · intro j hj hjb
          have hjpos := hposAll j (hmem2 j hj)
          have hbpos := hposAll b (hmem2 b (by simp [ST.slots]))
          have hjY : j ≠ Y := by
            intro h
            exact hYnt2 (h ▸ hj)
          have hjZ : j ≠ Z := by
            intro h
            exact hdisjLR
              (show j ∈ t1.slots ++ Y :: (ST.node a b c d e).slots by simp [hj])
              (by simp [h])
          simp only [ST.rootSlot] at hjb ⊢
          exact hF5 j (by omega) (by omega) (by simp only [ST.rootSlot]; omega)
            (fun h => hW j (hmem2 j hj) h.symm)
        · intro _
          have := hr2 (by intro h; cases h)
          simp only [ST.rootSlot] at this ⊢
          rw [this]
          exact ⟨rfl, rfl, rfl, rfl⟩
    · -- Repr t3
      exact Repr_mono hlen hu3 ht3

end AvlVerif

end IndexedSet
namespace IndexedSet

open AvlState

namespace AvlVerif

variable {α : Type} [Inhabited α]

set_option maxHeartbeats 1000000 in
/-- The LL rotation at the hole of a zipper: hypotheses are the
represented pre-rotation subtree (left-left shape) and slot uniqueness;
the conclusion re-represents the rotated subtree in the same context,
leaves every slot outside the zipper untouched, and zeroes the new
subtree root's parent when the hole is the tree root. -/
theorem rotate_LL_plug {st : AvlState α} {ps : List (Frame α)} {t1 t2 t3 : ST α}
    {Y Z : Int} {vy vz : α} {tly tlz : Dir} (X : Int)
    (hrep : Repr st (plug (ST.node (ST.node t1 Y vy tly t2) Z vz tlz t3) ps))
    (hnd : (plug (ST.node (ST.node t1 Y vy tly t2) Z vz tlz t3) ps).slots.Nodup)
    (hroot0 : ps = [] → (st.getN Z).parent = 0) :
    Repr (st._Rotate_LL Z Y X) (plug (ST.node t1 Y vy tly (ST.node t2 Z vz tlz t3)) ps) ∧
    (∀ j : Int, (∀ k ∈ (plug (ST.node (ST.node t1 Y vy tly t2) Z vz tlz t3) ps).slots,
        j.toNat ≠ k.toNat) → (st._Rotate_LL Z Y X).getN j = st.getN j) ∧
    (ps = [] → ((st._Rotate_LL Z Y X).getN Y).parent = 0) := by
  have hlenLL : (st._Rotate_LL Z Y X).arena.length = st.arena.length := len_Rotate_LL st Z Y X
  have hlenle : st.arena.length ≤ (st._Rotate_LL Z Y X).arena.length := le_of_eq hlenLL.symm
  have hpre : Repr st (ST.node (ST.node t1 Y vy tly t2) Z vz tlz t3) := Repr_plug_extract hrep
  have hposPlug := slots_pos st hrep
  have hmemPlug : ∀ k, k ∈ (ST.node (ST.node t1 Y vy tly t2) Z vz tlz t3).slots ++ ctxSlots ps →
      k ∈ (plug (ST.node (ST.node t1 Y vy tly t2) Z vz tlz t3) ps).slots := by
    intro k hk
    exact (plug_slots_perm _ _).mem_iff.mpr hk
  have hpos' : ∀ j ∈ (ST.node (ST.node t1 Y vy tly t2) Z vz tlz t3).slots ++ ctxSlots ps,
      0 < j ∧ j.toNat < st.arena.length := fun j hj => hposPlug j (hmemPlug j hj)
  have hndall : ((ST.node (ST.node t1 Y vy tly t2) Z vz tlz t3).slots ++ ctxSlots ps).Nodup :=
    ((plug_slots_perm _ _).nodup_iff).mp hnd
  rw [List.nodup_append] at hndall
  obtain ⟨hndpre, hndctx, hdisjpc⟩ := hndall
  have hposY : 0 < Y ∧ Y.toNat < st.arena.length := hpos' Y (by simp [ST.slots])
  have hposZ : 0 < Z ∧ Z.toNat < st.arena.length := hpos' Z (by simp [ST.slots])
  have hnd2 : ((t1.slots ++ Y :: t2.slots) ++ Z :: t3.slots).Nodup := by
    simpa [ST.slots] using hndpre
  rw [List.nodup_append] at hnd2
  obtain ⟨hndL, hndR, hdisjLR⟩ := hnd2
  rw [List.nodup_append] at hndL
  obtain ⟨hndt1, hndYt2, hdisj1⟩ := hndL
  rw [List.nodup_cons] at hndYt2
  obtain ⟨hYnt2, hndt2⟩ := hndYt2
  have hYZi : Y ≠ Z := by
    intro hc
    exact hdisjLR (show Y ∈ t1.slots ++ Y :: t2.slots by simp) (by simp [hc])
  obtain ⟨hZpos, hZlen, hZpay, hZtl, ⟨hZl, hYp⟩, hZr, hYrep, ht3⟩ := hpre
  obtain ⟨hYpos, hYlen, hYpay, hYtl, hYlc, hYrc, ht1, ht2⟩ := hYrep
  have hpre' : Repr st (ST.node (ST.node t1 Y vy tly t2) Z vz tlz t3) :=
    ⟨hZpos, hZlen, hZpay, hZtl, ⟨hZl, hYp⟩, hZr,
      ⟨hYpos, hYlen, hYpay, hYtl, hYlc, hYrc, ht1, ht2⟩, ht3⟩
  cases ps with
  | nil =>
    have hZp0 : (st.getN Z).parent = 0 := hroot0 rfl
    have hW0 : ∀ k ∈ (ST.node (ST.node t1 Y vy tly t2) Z vz tlz t3).slots,
        (0 : Int).toNat ≠ k.toNat := by
      intro k hk
      have := hpos' k (by simp [hk])
      omega
    cases h2 : t2 with
    | leaf =>
      subst h2
      have hYr0 : (st.getN Y).right = 0 := hYrc
      obtain ⟨F1, F2, F5⟩ := rotLL_root_leaf st Z Y X hposZ.2 hposY.2
        (by omega) hZp0 hZl hYp hYr0
      refine ⟨?_, ?_, ?_⟩
      · show Repr (st._Rotate_LL Z Y X) (ST.node t1 Y vy tly (ST.node ST.leaf Z vz tlz t3))
        refine Repr_post_LL (W := 0) hlenle hpre' hnd hW0 F1 ?_ (fun h => absurd rfl h) ?_
        · simpa [ST.linkFrom] using F2
        · intro j h1 h2 _ _
          exact F5 j h1 h2
      · intro j hj
        exact F5 j (hj Y (by simp [plug, ST.slots])) (hj Z (by simp [plug, ST.slots]))
      · intro _
        rw [F1]
    | node a r2 c d e =>
      have hmr2 : r2 ∈ (ST.node (ST.node t1 Y vy tly t2) Z vz tlz t3).slots := by
        subst h2; simp [ST.slots]
      have hposr2 := hpos' r2 (by simp [hmr2])
      have hr2Y : r2 ≠ Y := by
        subst h2
        intro hc
        exact hYnt2 (by simp [ST.slots, hc])
      have hr2Z : r2 ≠ Z := by
        subst h2
        intro hc
        exact hdisjLR (show r2 ∈ t1.slots ++ Y :: (ST.node a r2 c d e).slots
          by simp [ST.slots]) (by simp [hc])
      subst h2
      have hYr : (st.getN Y).right = r2 - Y := hYrc.1
      obtain ⟨F1, F2, F3, F5⟩ := rotLL_root_node st Z Y X r2 hposZ.2 hposY.2 hposr2.2
        (by omega) (by omega) (by omega) hr2Y hZp0 hZl hYp hYr
      refine ⟨?_, ?_, ?_⟩
      · refine Repr_post_LL (W := 0) hlenle hpre' hnd hW0 F1 ?_ (fun _ => ?_) ?_
        · simpa [ST.linkFrom, ST.rootSlot] using F2
        · simpa [ST.rootSlot] using F3
        · intro j h1 h2 h3 _
          exact F5 j h1 h2 (by simpa [ST.rootSlot] using h3)
      · intro j hj
        exact F5 j (hj Y (by simp [plug, ST.slots])) (hj Z (by simp [plug, ST.slots]))
          (hj r2 (by simp [plug]; exact hmr2))
      · intro _
        rw [F1]
  | cons f rest =>
    have hYZn : Y.toNat ≠ Z.toNat := by
      have h1 := hposY.1
      have h2 := hposZ.1
      omega
    cases f with
    | L P v tl sib =>
      have hnodef : Repr st
          (ST.node (ST.node (ST.node t1 Y vy tly t2) Z vz tlz t3) P v tl sib) :=
        Repr_plug_extract (show Repr st
          (plug (ST.node (ST.node (ST.node t1 Y vy tly t2) Z vz tlz t3) P v tl sib) rest)
          from hrep)
      obtain ⟨hPpos, hPlen, hPpay2, hPtl2, hlk, hrk, _, hsibrep⟩ := hnodef
      obtain ⟨hPleft, hZp⟩ := hlk
      have hPmemctx : P ∈ ctxSlots (Frame.L P v tl sib :: rest) := by simp [ctxSlots]
      have hPne : ∀ k ∈ (ST.node (ST.node t1 Y vy tly t2) Z vz tlz t3).slots, P ≠ k := by
        intro k hk hc
        exact hdisjpc hk (hc ▸ hPmemctx)
      have hW : ∀ k ∈ (ST.node (ST.node t1 Y vy tly t2) Z vz tlz t3).slots,
          P.toNat ≠ k.toNat := by
        intro k hk
        have h1 := hpos' k (by simp [hk])
        have h2 := hPne k hk
        omega
      have hPZi : P ≠ Z := hPne Z (by simp [ST.slots])
      have hPYn : P.toNat ≠ Y.toNat := hW Y (by simp [ST.slots])
      have hPZn : P.toNat ≠ Z.toNat := hW Z (by simp [ST.slots])
      have hctxgen : ∀ j ∈ sib.slots ++ ctxSlots rest,
          0 < j ∧ j.toNat < st.arena.length ∧ j ≠ P ∧
          (∀ k ∈ (ST.node (ST.node t1 Y vy tly t2) Z vz tlz t3).slots, j.toNat ≠ k.toNat) := by
        intro j hj
        have hjctx : j ∈ ctxSlots (Frame.L P v tl sib :: rest) := by
          simp only [ctxSlots, List.cons_append, List.mem_cons]
          exact Or.inr hj
        have hjpos := hpos' j (by simp [hjctx])
        have hjP : j ≠ P := by
          intro hc
          rw [show ctxSlots (Frame.L P v tl sib :: rest) =
              P :: (sib.slots ++ ctxSlots rest) by simp [ctxSlots],
            List.nodup_cons] at hndctx
          exact hndctx.1 (hc ▸ hj)
        refine ⟨hjpos.1, hjpos.2, hjP, ?_⟩
        intro k hk
        have hkpos := hpos' k (by simp [hk])
        have : j ≠ k := by
          intro hc
          exact hdisjpc (hc ▸ hk) hjctx
        omega
      cases h2 : t2 with
      | leaf =>
        subst h2
        obtain ⟨F1, F2, F4, F5⟩ := rotLL_P_left_leaf st Z Y X P hposZ.2 hposY.2 hPlen
          hYZn hPYn hPZn hPZi hZp hPleft hZl hYp hYrc
        have hs' : Repr (st._Rotate_LL Z Y X)
            (ST.node t1 Y vy tly (ST.node ST.leaf Z vz tlz t3)) := by
          refine Repr_post_LL (W := P) hlenle hpre' hndpre hW F1 ?_ (fun h => absurd rfl h) ?_
          · simpa [ST.linkFrom] using F2
          · intro j h1 h2 _ h4
            exact F5 j h1 h2 h4
        refine ⟨?_, ?_, fun h => absurd h (List.cons_ne_nil _ _)⟩
        · refine Repr_plug_graft_L hlenle (fun h => ST.noConfusion h)
            (by rw [F4]) (by rw [F4]) (by rw [F4]) (by rw [F4])
            (by rw [F4]; simp [ST.rootSlot]) ?_ ?_ hrep hs'
          · show ((st._Rotate_LL Z Y X).getN Y).parent = P - Y
            rw [F1]
          · intro j hj
            obtain ⟨hjpos, hjlen, hjP, hjpre⟩ := hctxgen j hj
            exact F5 j (hjpre Y (by simp [ST.slots])) (hjpre Z (by simp [ST.slots]))
              (by have := hPpos; omega)
        · intro j hj
          refine F5 j (hj Y (hmemPlug Y (by simp [ST.slots]))) (hj Z (hmemPlug Z (by simp [ST.slots])))
            (hj P (hmemPlug P (by simp [hPmemctx])))
      | node a r2 c d e =>
        have hr2Y : r2 ≠ Y := by
          subst h2
          intro hc
          exact hYnt2 (by simp [ST.slots, hc])
        have hr2Z : r2 ≠ Z := by
          subst h2
          intro hc
          exact hdisjLR (show r2 ∈ t1.slots ++ Y :: (ST.node a r2 c d e).slots
            by simp [ST.slots]) (by simp [hc])
        subst h2
        have hmr2 : r2 ∈ (ST.node (ST.node t1 Y vy tly (ST.node a r2 c d e)) Z vz tlz t3).slots := by
          simp [ST.slots]
        have hposr2 := hpos' r2 (by simp [hmr2])
        have hYr : (st.getN Y).right = r2 - Y := hYrc.1
        obtain ⟨F1, F2, F3, F4, F5⟩ := rotLL_P_left_node st Z Y X P r2 hposZ.2 hposY.2 hPlen
          hposr2.2 hYZn hPYn hPZn (hW r2 hmr2) (by have := hposY.1; have := hposr2.1; omega)
          (by have := hposZ.1; have := hposr2.1; omega) hPZi hr2Y hZp hPleft hZl hYp hYr
        have hs' : Repr (st._Rotate_LL Z Y X)
            (ST.node t1 Y vy tly (ST.node (ST.node a r2 c d e) Z vz tlz t3)) := by
          refine Repr_post_LL (W := P) hlenle hpre' hndpre hW F1 ?_ (fun _ => ?_) ?_
          · simpa [ST.linkFrom, ST.rootSlot] using F2
          · simpa [ST.rootSlot] using F3
          · intro j h1 h2 h3 h4
            exact F5 j h1 h2 (by simpa [ST.rootSlot] using h3) h4
        refine ⟨?_, ?_, fun h => absurd h (List.cons_ne_nil _ _)⟩
        · refine Repr_plug_graft_L hlenle (fun h => ST.noConfusion h)
            (by rw [F4]) (by rw [F4]) (by rw [F4]) (by rw [F4])
            (by rw [F4]; simp [ST.rootSlot]) ?_ ?_ hrep hs'
          · show ((st._Rotate_LL Z Y X).getN Y).parent = P - Y
            rw [F1]
          · intro j hj
            obtain ⟨hjpos, hjlen, hjP, hjpre⟩ := hctxgen j hj
            exact F5 j (hjpre Y (by simp [ST.slots])) (hjpre Z (by simp [ST.slots]))
              (hjpre r2 hmr2) (by have := hPpos; omega)
        · intro j hj
          refine F5 j (hj Y (hmemPlug Y (by simp [ST.slots]))) (hj Z (hmemPlug Z (by simp [ST.slots])))
            (hj r2 (hmemPlug r2 (by simp [hmr2]))) (hj P (hmemPlug P (by simp [hPmemctx])))
    | R P v tl sib =>
      have hnodef : Repr st
          (ST.node sib P v tl (ST.node (ST.node t1 Y vy tly t2) Z vz tlz t3)) :=
        Repr_plug_extract (show Repr st
          (plug (ST.node sib P v tl (ST.node (ST.node t1 Y vy tly t2) Z vz tlz t3)) rest)
          from hrep)
      obtain ⟨hPpos, hPlen, hPpay2, hPtl2, hsl, hrk, hsibrep, _⟩ := hnodef
      obtain ⟨hPright, hZp⟩ := hrk
      have hPmemctx : P ∈ ctxSlots (Frame.R P v tl sib :: rest) := by simp [ctxSlots]
      have hPne : ∀ k ∈ (ST.node (ST.node t1 Y vy tly t2) Z vz tlz t3).slots, P ≠ k := by
        intro k hk hc
        exact hdisjpc hk (hc ▸ hPmemctx)
      have hW : ∀ k ∈ (ST.node (ST.node t1 Y vy tly t2) Z vz tlz t3).slots,
          P.toNat ≠ k.toNat := by
        intro k hk
        have h1 := hpos' k (by simp [hk])
        have h2 := hPne k hk
        omega
      have hPZi : P ≠ Z := hPne Z (by simp [ST.slots])
      have hPYn : P.toNat ≠ Y.toNat := hW Y (by simp [ST.slots])
      have hPZn : P.toNat ≠ Z.toNat := hW Z (by simp [ST.slots])
      have hPlne : (st.getN P).left ≠ Z - P := by
        cases hsc : sib with
        | leaf =>
          subst hsc
          rw [hsl]
          intro hc
          exact hPZi (by omega)
        | node sa sb sc2 sd se =>
          subst hsc
          rw [hsl.1]
          intro hc
          have hsbZ : sb = Z := by omega
          have hsbctx : sb ∈ ctxSlots (Frame.R P v tl (ST.node sa sb sc2 sd se) :: rest) := by
            simp [ctxSlots, ST.slots]
          exact hdisjpc (show Z ∈ _ by simp [ST.slots]) (hsbZ ▸ hsbctx)
      have hctxgen : ∀ j ∈ sib.slots ++ ctxSlots rest,
          0 < j ∧ j.toNat < st.arena.length ∧ j ≠ P ∧
          (∀ k ∈ (ST.node (ST.node t1 Y vy tly t2) Z vz tlz t3).slots, j.toNat ≠ k.toNat) := by
        intro j hj
        have hjctx : j ∈ ctxSlots (Frame.R P v tl sib :: rest) := by
          simp only [ctxSlots, List.cons_append, List.mem_cons]
          exact Or.inr hj
        have hjpos := hpos' j (by simp [hjctx])
        have hjP : j ≠ P := by
          intro hc
          rw [show ctxSlots (Frame.R P v tl sib :: rest) =
              P :: (sib.slots ++ ctxSlots rest) by simp [ctxSlots],
            List.nodup_cons] at hndctx
          exact hndctx.1 (hc ▸ hj)
        refine ⟨hjpos.1, hjpos.2, hjP, ?_⟩
        intro k hk
        have hkpos := hpos' k (by simp [hk])
        have : j ≠ k := by
          intro hc
          exact hdisjpc (hc ▸ hk) hjctx
        omega
      cases h2 : t2 with
      | leaf =>
        subst h2
        obtain ⟨F1, F2, F4, F5⟩ := rotLL_P_right_leaf st Z Y X P hposZ.2 hposY.2 hPlen
          hYZn hPYn hPZn hPZi hZp hPright hPlne hZl hYp hYrc
        have hs' : Repr (st._Rotate_LL Z Y X)
            (ST.node t1 Y vy tly (ST.node ST.leaf Z vz tlz t3)) := by
          refine Repr_post_LL (W := P) hlenle hpre' hndpre hW F1 ?_ (fun h => absurd rfl h) ?_
          · simpa [ST.linkFrom] using F2
          · intro j h1 h2 _ h4
            exact F5 j h1 h2 h4
        refine ⟨?_, ?_, fun h => absurd h (List.cons_ne_nil _ _)⟩
        · refine Repr_plug_graft_R hlenle (fun h => ST.noConfusion h)
            (by rw [F4]) (by rw [F4]) (by rw [F4]) (by rw [F4])
            (by rw [F4]; simp [ST.rootSlot]) ?_ ?_ hrep hs'
          · show ((st._Rotate_LL Z Y X).getN Y).parent = P - Y
            rw [F1]
          · intro j hj
            obtain ⟨hjpos, hjlen, hjP, hjpre⟩ := hctxgen j hj
            exact F5 j (hjpre Y (by simp [ST.slots])) (hjpre Z (by simp [ST.slots]))
              (by have := hPpos; omega)
        · intro j hj
          refine F5 j (hj Y (hmemPlug Y (by simp [ST.slots]))) (hj Z (hmemPlug Z (by simp [ST.slots])))
            (hj P (hmemPlug P (by simp [hPmemctx])))
      | node a r2 c d e =>
        have hr2Y : r2 ≠ Y := by
          subst h2
          intro hc
          exact hYnt2 (by simp [ST.slots, hc])
        have hr2Z : r2 ≠ Z := by
          subst h2
          intro hc
          exact hdisjLR (show r2 ∈ t1.slots ++ Y :: (ST.node a r2 c d e).slots
            by simp [ST.slots]) (by simp [hc])
        subst h2
        have hmr2 : r2 ∈ (ST.node (ST.node t1 Y vy tly (ST.node a r2 c d e)) Z vz tlz t3).slots := by
          simp [ST.slots]
        have hposr2 := hpos' r2 (by simp [hmr2])
        have hYr : (st.getN Y).right = r2 - Y := hYrc.1
        obtain ⟨F1, F2, F3, F4, F5⟩ := rotLL_P_right_node st Z Y X P r2 hposZ.2 hposY.2 hPlen
          hposr2.2 hYZn hPYn hPZn (hW r2 hmr2) (by have := hposY.1; have := hposr2.1; omega)
          (by have := hposZ.1; have := hposr2.1; omega) hPZi hr2Y hZp hPright hPlne hZl hYp hYr
        have hs' : Repr (st._Rotate_LL Z Y X)
            (ST.node t1 Y vy tly (ST.node (ST.node a r2 c d e) Z vz tlz t3)) := by
          refine Repr_post_LL (W := P) hlenle hpre' hndpre hW F1 ?_ (fun _ => ?_) ?_
          · simpa [ST.linkFrom, ST.rootSlot] using F2
          · simpa [ST.rootSlot] using F3
          · intro j h1 h2 h3 h4
            exact F5 j h1 h2 (by simpa [ST.rootSlot] using h3) h4
        refine ⟨?_, ?_, fun h => absurd h (List.cons_ne_nil _ _)⟩
        · refine Repr_plug_graft_R hlenle (fun h => ST.noConfusion h)
            (by rw [F4]) (by rw [F4]) (by rw [F4]) (by rw [F4])
            (by rw [F4]; simp [ST.rootSlot]) ?_ ?_ hrep hs'
          · show ((st._Rotate_LL Z Y X).getN Y).parent = P - Y
            rw [F1]
          · intro j hj
            obtain ⟨hjpos, hjlen, hjP, hjpre⟩ := hctxgen j hj
            exact F5 j (hjpre Y (by simp [ST.slots])) (hjpre Z (by simp [ST.slots]))
              (hjpre r2 hmr2) (by have := hPpos; omega)
        · intro j hj
          refine F5 j (hj Y (hmemPlug Y (by simp [ST.slots]))) (hj Z (hmemPlug Z (by simp [ST.slots])))
            (hj r2 (hmemPlug r2 (by simp [hmr2]))) (hj P (hmemPlug P (by simp [hPmemctx])))

end AvlVerif

end IndexedSet
namespace IndexedSet

open AvlState

namespace AvlVerif

variable {α : Type} [Inhabited α]

/-- Exact node contents after `_Rotate_RR` when `Z` is the left child of
`P` and `Y` has a left subtree rooted at `r2`. -/
theorem rotRR_P_left_node (st : AvlState α) (Z Y X P r2 : Int)
    (hZlen : Z.toNat < st.arena.length) (hYlen : Y.toNat < st.arena.length)
    (hPlen : P.toNat < st.arena.length) (hr2len : r2.toNat < st.arena.length)
    (hYZ : Y.toNat ≠ Z.toNat) (hPY : P.toNat ≠ Y.toNat) (hPZ : P.toNat ≠ Z.toNat)
    (hPr2 : P.toNat ≠ r2.toNat) (hYr2 : Y.toNat ≠ r2.toNat) (hZr2 : Z.toNat ≠ r2.toNat)
    (hPZi : P ≠ Z) (hr2Yi : r2 ≠ Y)
    (hZp : (st.getN Z).parent = P - Z)
    (hPl : (st.getN P).left = Z - P)
    (hZr : (st.getN Z).right = Y - Z)
    (hYp : (st.getN Y).parent = Z - Y)
    (hYl : (st.getN Y).left = r2 - Y) :
    (st._Rotate_RR Z Y X).getN Y = { st.getN Y with parent := P - Y, left := Z - Y } ∧
    (st._Rotate_RR Z Y X).getN Z = { st.getN Z with parent := Y - Z, right := r2 - Z } ∧
    (st._Rotate_RR Z Y X).getN r2 = { st.getN r2 with parent := Z - r2 } ∧
    (st._Rotate_RR Z Y X).getN P = { st.getN P with left := Y - P } ∧
    (∀ j : Int, j.toNat ≠ Y.toNat → j.toNat ≠ Z.toNat → j.toNat ≠ r2.toNat →
      j.toNat ≠ P.toNat → (st._Rotate_RR Z Y X).getN j = st.getN j) := by
  have hNSP : st.NSafeParent Z = some P := by
    have h1 : P - Z ≠ 0 := sub_ne_zero_of_ne hPZi
    have h2 : Z + (P - Z) = P := by ring
    simp [NSafeParent, hZp, h1, _Ptr, h2]
  have hsub : r2 - Y ≠ 0 := sub_ne_zero_of_ne hr2Yi
  have hslot : Z + ((Y - Z) + (r2 - Y)) = r2 := by ring
  refine ⟨?_, ?_, ?_, ?_, ?_⟩ <;>
    [skip; skip; skip; skip; intro j hjY hjZ hjr2 hjP] <;>
  · simp only [_Rotate_RR, hNSP, Nright, _Ptr, getN_setP, getN_setL, getN_setR,
      arena_setP, arena_setL, arena_setR, arena_ite, hZp, hPl, hZr, hYp, hYl, neg_sub,
      hsub, hslot,
      hZlen, hYlen, hPlen, hr2len, hYZ, hPY, hPZ, hPr2, hYr2, hZr2,
      Ne.symm hYZ, Ne.symm hPY, Ne.symm hPZ, Ne.symm hPr2, Ne.symm hYr2, Ne.symm hZr2,
      if_true, if_false, and_true, true_and, and_false, false_and, ite_true, ite_false,
      not_false_iff, ne_eq, not_true, INode.mk.injEq]
    try simp only [hjY, hjZ, hjr2, hjP, if_false, and_false, false_and, ite_false]
    try first
    | rfl
    | omega
    | (constructor <;> first | rfl | omega)

/-- Exact node contents after `_Rotate_RR` when `Z` is the left child of
`P` and `Y` has no left subtree. -/
theorem rotRR_P_left_leaf (st : AvlState α) (Z Y X P : Int)
    (hZlen : Z.toNat < st.arena.length) (hYlen : Y.toNat < st.arena.length)
    (hPlen : P.toNat < st.arena.length)
    (hYZ : Y.toNat ≠ Z.toNat) (hPY : P.toNat ≠ Y.toNat) (hPZ : P.toNat ≠ Z.toNat)
    (hPZi : P ≠ Z)
    (hZp : (st.getN Z).parent = P - Z)
    (hPl : (st.getN P).left = Z - P)
    (hZr : (st.getN Z).right = Y - Z)
    (hYp : (st.getN Y).parent = Z - Y)
    (hYl : (st.getN Y).left = 0) :
    (st._Rotate_RR Z Y X).getN Y = { st.getN Y with parent := P - Y, left := Z - Y } ∧
    (st._Rotate_RR Z Y X).getN Z = { st.getN Z with parent := Y - Z, right := 0 } ∧
    (st._Rotate_RR Z Y X).getN P = { st.getN P with left := Y - P } ∧
    (∀ j : Int, j.toNat ≠ Y.toNat → j.toNat ≠ Z.toNat →
      j.toNat ≠ P.toNat → (st._Rotate_RR Z Y X).getN j = st.getN j) := by
  have hNSP : st.NSafeParent Z = some P := by
    have h1 : P - Z ≠ 0 := sub_ne_zero_of_ne hPZi
    have h2 : Z + (P - Z) = P := by ring
    simp [NSafeParent, hZp, h1, _Ptr, h2]
  refine ⟨?_, ?_, ?_, ?_⟩ <;>
    [skip; skip; skip; intro j hjY hjZ hjP] <;>
  · simp only [_Rotate_RR, hNSP, Nright, _Ptr, getN_setP, getN_setL, getN_setR,
      arena_setP, arena_setL, arena_setR, arena_ite, hZp, hPl, hZr, hYp, hYl, neg_sub,
      hZlen, hYlen, hPlen, hYZ, hPY, hPZ,
      Ne.symm hYZ, Ne.symm hPY, Ne.symm hPZ,
      if_true, if_false, and_true, true_and, and_false, false_and, ite_true, ite_false,
      not_false_iff, ne_eq, not_true, INode.mk.injEq]
    try simp only [hjY, hjZ, hjP, if_false, and_false, false_and, ite_false]
    try first
    | rfl
    | omega
    | (constructor <;> first | rfl | omega)

/-- Exact node contents after `_Rotate_RR` when `Z` is the right child of
`P` and `Y` has a left subtree rooted at `r2`. -/
theorem rotRR_P_right_node (st : AvlState α) (Z Y X P r2 : Int)
    (hZlen : Z.toNat < st.arena.length) (hYlen : Y.toNat < st.arena.length)
    (hPlen : P.toNat < st.arena.length) (hr2len : r2.toNat < st.arena.length)
    (hYZ : Y.toNat ≠ Z.toNat) (hPY : P.toNat ≠ Y.toNat) (hPZ : P.toNat ≠ Z.toNat)
    (hPr2 : P.toNat ≠ r2.toNat) (hYr2 : Y.toNat ≠ r2.toNat) (hZr2 : Z.toNat ≠ r2.toNat)
    (hPZi : P ≠ Z) (hr2Yi : r2 ≠ Y)
    (hZp : (st.getN Z).parent = P - Z)
    (hPr : (st.getN P).right = Z - P)
    (hPlne : (st.getN P).left ≠ Z - P)
    (hZr : (st.getN Z).right = Y - Z)
    (hYp : (st.getN Y).parent = Z - Y)
    (hYl : (st.getN Y).left = r2 - Y) :
    (st._Rotate_RR Z Y X).getN Y = { st.getN Y with parent := P - Y, left := Z - Y } ∧
    (st._Rotate_RR Z Y X).getN Z = { st.getN Z with parent := Y - Z, right := r2 - Z } ∧
    (st._Rotate_RR Z Y X).getN r2 = { st.getN r2 with parent := Z - r2 } ∧
    (st._Rotate_RR Z Y X).getN P = { st.getN P with right := Y - P } ∧
    (∀ j : Int, j.toNat ≠ Y.toNat → j.toNat ≠ Z.toNat → j.toNat ≠ r2.toNat →
      j.toNat ≠ P.toNat → (st._Rotate_RR Z Y X).getN j = st.getN j) := by
  have hNSP : st.NSafeParent Z = some P := by
    have h1 : P - Z ≠ 0 := sub_ne_zero_of_ne hPZi
    have h2 : Z + (P - Z) = P := by ring
    simp [NSafeParent, hZp, h1, _Ptr, h2]
  have hsub : r2 - Y ≠ 0 := sub_ne_zero_of_ne hr2Yi
  have hslot : Z + ((Y - Z) + (r2 - Y)) = r2 := by ring
  refine ⟨?_, ?_, ?_, ?_, ?_⟩ <;>
    [skip; skip; skip; skip; intro j hjY hjZ hjr2 hjP] <;>
  · simp only [_Rotate_RR, hNSP, Nright, _Ptr, getN_setP, getN_setL, getN_setR,
      arena_setP, arena_setL, arena_setR, arena_ite, hZp, hPr, hPlne, hZr, hYp, hYl,
      neg_sub, hsub, hslot,
      hZlen, hYlen, hPlen, hr2len, hYZ, hPY, hPZ, hPr2, hYr2, hZr2,
      Ne.symm hYZ, Ne.symm hPY, Ne.symm hPZ, Ne.symm hPr2, Ne.symm hYr2, Ne.symm hZr2,
      if_true, if_false, and_true, true_and, and_false, false_and, ite_true, ite_false,
      not_false_iff, ne_eq, not_true, INode.mk.injEq]
    try simp only [hjY, hjZ, hjr2, hjP, if_false, and_false, false_and, ite_false]
    try first
    | rfl
    | omega
    | (constructor <;> first | rfl | omega)

/-- Exact node contents after `_Rotate_RR` when `Z` is the right child of
`P` and `Y` has no left subtree. -/
theorem rotRR_P_right_leaf (st : AvlState α) (Z Y X P : Int)
    (hZlen : Z.toNat < st.arena.length) (hYlen : Y.toNat < st.arena.length)
    (hPlen : P.toNat < st.arena.length)
    (hYZ : Y.toNat ≠ Z.toNat) (hPY : P.toNat ≠ Y.toNat) (hPZ : P.toNat ≠ Z.toNat)
    (hPZi : P ≠ Z)
    (hZp : (st.getN Z).parent = P - Z)
    (hPr : (st.getN P).right = Z - P)
    (hPlne : (st.getN P).left ≠ Z - P)
    (hZr : (st.getN Z).right = Y - Z)
    (hYp : (st.getN Y).parent = Z - Y)
    (hYl : (st.getN Y).left = 0) :
    (st._Rotate_RR Z Y X).getN Y = { st.getN Y with parent := P - Y, left := Z - Y } ∧
    (st._Rotate_RR Z Y X).getN Z = { st.getN Z with parent := Y - Z, right := 0 } ∧
    (st._Rotate_RR Z Y X).getN P = { st.getN P with right := Y - P } ∧
    (∀ j : Int, j.toNat ≠ Y.toNat → j.toNat ≠ Z.toNat →
      j.toNat ≠ P.toNat → (st._Rotate_RR Z Y X).getN j = st.getN j) := by
  have hNSP : st.NSafeParent Z = some P := by
    have h1 : P - Z ≠ 0 := sub_ne_zero_of_ne hPZi
    have h2 : Z + (P - Z) = P := by ring
    simp [NSafeParent, hZp, h1, _Ptr, h2]
  refine ⟨?_, ?_, ?_, ?_⟩ <;>
    [skip; skip; skip; intro j hjY hjZ hjP] <;>
  · simp only [_Rotate_RR, hNSP, Nright, _Ptr, getN_setP, getN_setL, getN_setR,
      arena_setP, arena_setL, arena_setR, arena_ite, hZp, hPr, hPlne, hZr, hYp, hYl,
      neg_sub,
      hZlen, hYlen, hPlen, hYZ, hPY, hPZ,
      Ne.symm hYZ, Ne.symm hPY, Ne.symm hPZ,
      if_true, if_false, and_true, true_and, and_false, false_and, ite_true, ite_false,
      not_false_iff, ne_eq, not_true, INode.mk.injEq]
    try simp only [hjY, hjZ, hjP, if_false, and_false, false_and, ite_false]
    try first
    | rfl
    | omega
    | (constructor <;> first | rfl | omega)

/-- Exact node contents after `_Rotate_RR` when `Z` is the tree root and
`Y` has a left subtree rooted at `r2`. -/
theorem rotRR_root_node (st : AvlState α) (Z Y X r2 : Int)
    (hZlen : Z.toNat < st.arena.length) (hYlen : Y.toNat < st.arena.length)
    (hr2len : r2.toNat < st.arena.length)
    (hYZ : Y.toNat ≠ Z.toNat)
    (hYr2 : Y.toNat ≠ r2.toNat) (hZr2 : Z.toNat ≠ r2.toNat)
    (hr2Yi : r2 ≠ Y)
    (hZp : (st.getN Z).parent = 0)
    (hZr : (st.getN Z).right = Y - Z)
    (hYp : (st.getN Y).parent = Z - Y)
    (hYl : (st.getN Y).left = r2 - Y) :
    (st._Rotate_RR Z Y X).getN Y = { st.getN Y with parent := 0, left := Z - Y } ∧
    (st._Rotate_RR Z Y X).getN Z = { st.getN Z with parent := Y - Z, right := r2 - Z } ∧
    (st._Rotate_RR Z Y X).getN r2 = { st.getN r2 with parent := Z - r2 } ∧
    (∀ j : Int, j.toNat ≠ Y.toNat → j.toNat ≠ Z.toNat → j.toNat ≠ r2.toNat →
      (st._Rotate_RR Z Y X).getN j = st.getN j) := by
  have hNSP : st.NSafeParent Z = Option.none := by
    simp [NSafeParent, hZp]
  have hsub : r2 - Y ≠ 0 := sub_ne_zero_of_ne hr2Yi
  have hslot : Z + ((Y - Z) + (r2 - Y)) = r2 := by ring
  refine ⟨?_, ?_, ?_, ?_⟩ <;>
    [skip; skip; skip; intro j hjY hjZ hjr2] <;>
  · simp only [_Rotate_RR, hNSP, Nright, _Ptr, getN_setP, getN_setL, getN_setR,
      arena_setP, arena_setL, arena_setR, arena_ite, hZp, hZr, hYp, hYl, neg_sub,
      hsub, hslot,
      hZlen, hYlen, hr2len, hYZ, hYr2, hZr2,
      Ne.symm hYZ, Ne.symm hYr2, Ne.symm hZr2,
      if_true, if_false, and_true, true_and, and_false, false_and, ite_true, ite_false,
      not_false_iff, ne_eq, not_true, INode.mk.injEq]
    try simp only [hjY, hjZ, hjr2, if_false, and_false, false_and, ite_false]
    try first
    | rfl
    | omega
    | (constructor <;> first | rfl | omega)

/-- Exact node contents after `_Rotate_RR` when `Z` is the tree root and
`Y` has no left subtree. -/
theorem rotRR_root_leaf (st : AvlState α) (Z Y X : Int)
    (hZlen : Z.toNat < st.arena.length) (hYlen : Y.toNat < st.arena.length)
    (hYZ : Y.toNat ≠ Z.toNat)
    (hZp : (st.getN Z).parent = 0)
    (hZr : (st.getN Z).right = Y - Z)
    (hYp : (st.getN Y).parent = Z - Y)
    (hYl : (st.getN Y).left = 0) :
    (st._Rotate_RR Z Y X).getN Y = { st.getN Y with parent := 0, left := Z - Y } ∧
    (st._Rotate_RR Z Y X).getN Z = { st.getN Z with parent := Y - Z, right := 0 } ∧
    (∀ j : Int, j.toNat ≠ Y.toNat → j.toNat ≠ Z.toNat →
      (st._Rotate_RR Z Y X).getN j = st.getN j) := by
  have hNSP : st.NSafeParent Z = Option.none := by
    simp [NSafeParent, hZp]
  refine ⟨?_, ?_, ?_⟩ <;>
    [skip; skip; intro j hjY hjZ] <;>
  · simp only [_Rotate_RR, hNSP, Nright, _Ptr, getN_setP, getN_setL, getN_setR,
      arena_setP, arena_setL, arena_setR, arena_ite, hZp, hZr, hYp, hYl, neg_sub,
      hZlen, hYlen, hYZ,
      Ne.symm hYZ,
      if_true, if_false, and_true, true_and, and_false, false_and, ite_true, ite_false,
      not_false_iff, ne_eq, not_true, INode.mk.injEq]
    try simp only [hjY, hjZ, if_false, and_false, false_and, ite_false]
    try first
    | rfl
    | omega
    | (constructor <;> first | rfl | omega)

end AvlVerif

end IndexedSet
namespace IndexedSet

open AvlState

namespace AvlVerif

variable {α : Type} [Inhabited α]

/-- Mirror of `Repr_post_LL` for the RR rotation. -/
theorem Repr_post_RR {st st' : AvlState α} {t1 t2 t3 : ST α} {Y Z W : Int}
    {vy vz : α} {tly tlz : Dir} {q : Int}
    (hlen : st.arena.length ≤ st'.arena.length)
    (hpre : Repr st (ST.node t1 Z vz tlz (ST.node t2 Y vy tly t3)))
    (hnd : (ST.node t1 Z vz tlz (ST.node t2 Y vy tly t3)).slots.Nodup)
    (hW : ∀ k ∈ (ST.node t1 Z vz tlz (ST.node t2 Y vy tly t3)).slots, W.toNat ≠ k.toNat)
    (hY : st'.getN Y = { st.getN Y with parent := q, left := Z - Y })
    (hZ2 : st'.getN Z = { st.getN Z with parent := Y - Z, right := ST.linkFrom t2 Z })
    (hr2 : t2 ≠ ST.leaf →
      st'.getN t2.rootSlot = { st.getN t2.rootSlot with parent := Z - t2.rootSlot })
    (hF5 : ∀ j : Int, j.toNat ≠ Y.toNat → j.toNat ≠ Z.toNat → j.toNat ≠ t2.rootSlot.toNat →
      j.toNat ≠ W.toNat → st'.getN j = st.getN j) :
    Repr st' (ST.node (ST.node t1 Z vz tlz t2) Y vy tly t3) := by
  have hposAll := slots_pos st hpre
  obtain ⟨hZpos, hZlen, hZpay, hZtl, hZlc, ⟨hZr, hYp⟩, ht1, hYrep⟩ := hpre
  obtain ⟨hYpos, hYlen, hYpay, hYtl, hYlc, hYrc, ht2, ht3⟩ := hYrep
  have hmem1 : ∀ j ∈ t1.slots, j ∈ (ST.node t1 Z vz tlz (ST.node t2 Y vy tly t3)).slots := by
    intro j hj; simp [ST.slots, hj]
  have hmem2 : ∀ j ∈ t2.slots, j ∈ (ST.node t1 Z vz tlz (ST.node t2 Y vy tly t3)).slots := by
    intro j hj; simp [ST.slots, hj]
  have hmem3 : ∀ j ∈ t3.slots, j ∈ (ST.node t1 Z vz tlz (ST.node t2 Y vy tly t3)).slots := by
    intro j hj; simp [ST.slots, hj]
  have hnd' : (t1.slots ++ Z :: (t2.slots ++ Y :: t3.slots)).Nodup := by
    simpa [ST.slots] using hnd
  rw [List.nodup_append] at hnd'
  obtain ⟨hndt1, hndZrest, hdisjLR⟩ := hnd'
  rw [List.nodup_cons] at hndZrest
  obtain ⟨hZnrest, hndrest⟩ := hndZrest
  rw [List.nodup_append] at hndrest
  obtain ⟨hndt2, hndYt3, hdisj2⟩ := hndrest
  rw [List.nodup_cons] at hndYt3
  obtain ⟨hYnt3, hndt3⟩ := hndYt3
  have hYZ : Y ≠ Z := by
    intro h
    exact hZnrest (by simp [← h])
  have hYZn : Y.toNat ≠ Z.toNat := by
    have := hYZ; omega
  have hr2mem : t2 ≠ ST.leaf → t2.rootSlot ∈ t2.slots := by
    intro h
    cases t2 with
    | leaf => exact absurd rfl h
    | node a b c d e => simp [ST.rootSlot, ST.slots]
  have hr2Y : t2 ≠ ST.leaf → t2.rootSlot ≠ Y := by
    intro h hc
    exact hdisj2 (hr2mem h) (by simp [hc])
  have hr2Z : t2 ≠ ST.leaf → t2.rootSlot ≠ Z := by
    intro h hc
    exact hZnrest (by simp [← hc, hr2mem h])
  have hu1 : ∀ j ∈ t1.slots, st'.getN j = st.getN j := by
    intro j hj
    have hjpos := hposAll j (hmem1 j hj)
    have hjZ : j ≠ Z := by
      intro h
      exact hdisjLR hj (by simp [h])
    have hjY : j ≠ Y := by
      intro h
      exact hdisjLR hj (by simp [h])
    have hjr2 : j.toNat ≠ t2.rootSlot.toNat := by
      cases t2 with
      | leaf =>
        simp only [ST.rootSlot]
        omega
      | node a b c d e =>
        have hjb : j ≠ b := by
          intro h
          exact hdisjLR hj (by simp [ST.slots, h])
        have hbpos := hposAll b (hmem2 b (by simp [ST.slots]))
        simp only [ST.rootSlot]
        omega
    have hYpos' := hposAll Y (by simp [ST.slots])
    have hZpos' := hposAll Z (by simp [ST.slots])
    exact hF5 j (by omega) (by omega) hjr2 (fun h => hW j (hmem1 j hj) h.symm)
  have hu3 : ∀ j ∈ t3.slots, st'.getN j = st.getN j := by
    intro j hj
    have hjpos := hposAll j (hmem3 j hj)
    have hjY : j ≠ Y := by
      intro h
      exact hYnt3 (h ▸ hj)
    have hjZ : j ≠ Z := by
      intro h
      exact hZnrest (by simp [← h, hj])
    have hjr2 : j.toNat ≠ t2.rootSlot.toNat := by
      cases t2 with
      | leaf =>
        simp only [ST.rootSlot]
        omega
      | node a b c d e =>
        have hjb : j ≠ b := by
          intro h
          exact hdisj2 (show b ∈ (ST.node a b c d e).slots by simp [ST.slots])
            (show b ∈ Y :: t3.slots by simp [← h, hj])
        have hbpos := hposAll b (hmem2 b (by simp [ST.slots]))
        simp only [ST.rootSlot]
        omega
    have hYpos' := hposAll Y (by simp [ST.slots])
    have hZpos' := hposAll Z (by simp [ST.slots])
    exact hF5 j (by omega) (by omega) hjr2 (fun h => hW j (hmem3 j hj) h.symm)
  have hYpos' := hposAll Y (by simp [ST.slots])
  have hZpos' := hposAll Z (by simp [ST.slots])
  refine ⟨hYpos, lt_of_lt_of_le hYlen hlen, ?_, ?_, ?_, ?_, ?_, ?_⟩
  · rw [hY]; exact hYpay
  · rw [hY]; exact hYtl
  · -- left clause of Y: the new Z node
    exact ⟨by rw [hY], by rw [hZ2]⟩
  · -- right clause of Y: t3
    cases t3 with
    | leaf =>
      show (st'.getN Y).right = 0
      rw [hY]; exact hYrc
    | node a b c d e =>
      refine ⟨?_, ?_⟩
      · show (st'.getN Y).right = b - Y
        rw [hY]; exact hYrc.1
      · show (st'.getN b).parent = Y - b
        rw [hu3 b (by simp [ST.slots])]
        exact hYrc.2
  · -- the Z node
    refine ⟨hZpos, lt_of_lt_of_le hZlen hlen, ?_, ?_, ?_, ?_, ?_, ?_⟩
    · rw [hZ2]; exact hZpay
    · rw [hZ2]; exact hZtl
    · -- left clause of Z: t1
      cases t1 with
      | leaf =>
        show (st'.getN Z).left = 0
        rw [hZ2]; exact hZlc
      | node a b c d e =>
        refine ⟨?_, ?_⟩
        · show (st'.getN Z).left = b - Z
          rw [hZ2]; exact hZlc.1
        · show (st'.getN b).parent = Z - b
          rw [hu1 b (by simp [ST.slots])]
          exact hZlc.2
    · -- right clause of Z: t2
      cases t2 with
      | leaf =>
        show (st'.getN Z).right = 0
        rw [hZ2]; rfl
      | node a b c d e =>
        refine ⟨?_, ?_⟩
        · show (st'.getN Z).right = b - Z
          rw [hZ2]; rfl
        · show (st'.getN b).parent = Z - b
          have := hr2 (by intro h; cases h)
          simp only [ST.rootSlot] at this
          rw [this]
    · -- Repr t1
      exact Repr_mono hlen hu1 ht1
    · -- Repr t2
      cases t2 with
      | leaf => trivial
      | node a b c d e =>
        refine Repr_mono' hlen hndt2 ?_ ?_ ht2
        · intro j hj hjb
          have hjpos := hposAll j (hmem2 j hj)
          have hbpos := hposAll b (hmem2 b (by simp [ST.slots]))
          have hjY : j ≠ Y := by
            intro h
            exact hdisj2 hj (by simp [h])
          have hjZ : j ≠ Z := by
            intro h
            exact hZnrest (by simp [← h, hj])
          simp only [ST.rootSlot] at hjb ⊢
          exact hF5 j (by omega) (by omega) (by simp only [ST.rootSlot]; omega)
            (fun h => hW j (hmem2 j hj) h.symm)
        · intro _
          have := hr2 (by intro h; cases h)
          simp only [ST.rootSlot] at this ⊢
          rw [this]
          exact ⟨rfl, rfl, rfl, rfl⟩
  · -- Repr t3
    exact Repr_mono hlen hu3 ht3

end AvlVerif

end IndexedSet
namespace IndexedSet

open AvlState

namespace AvlVerif

variable {α : Type} [Inhabited α]

set_option maxHeartbeats 1000000 in
/-- The RR rotation at the hole of a zipper; mirror of `rotate_LL_plug`. -/
theorem rotate_RR_plug {st : AvlState α} {ps : List (Frame α)} {t1 t2 t3 : ST α}
    {Y Z : Int} {vy vz : α} {tly tlz : Dir} (X : Int)
    (hrep : Repr st (plug (ST.node t1 Z vz tlz (ST.node t2 Y vy tly t3)) ps))
    (hnd : (plug (ST.node t1 Z vz tlz (ST.node t2 Y vy tly t3)) ps).slots.Nodup)
    (hroot0 : ps = [] → (st.getN Z).parent = 0) :
    Repr (st._Rotate_RR Z Y X) (plug (ST.node (ST.node t1 Z vz tlz t2) Y vy tly t3) ps) ∧
    (∀ j : Int, (∀ k ∈ (plug (ST.node t1 Z vz tlz (ST.node t2 Y vy tly t3)) ps).slots,
        j.toNat ≠ k.toNat) → (st._Rotate_RR Z Y X).getN j = st.getN j) ∧
    (ps = [] → ((st._Rotate_RR Z Y X).getN Y).parent = 0) := by
  have hlenRR : (st._Rotate_RR Z Y X).arena.length = st.arena.length := len_Rotate_RR st Z Y X
  have hlenle : st.arena.length ≤ (st._Rotate_RR Z Y X).arena.length := le_of_eq hlenRR.symm
  have hpre : Repr st (ST.node t1 Z vz tlz (ST.node t2 Y vy tly t3)) := Repr_plug_extract hrep
  have hposPlug := slots_pos st hrep
  have hmemPlug : ∀ k, k ∈ (ST.node t1 Z vz tlz (ST.node t2 Y vy tly t3)).slots ++ ctxSlots ps →
      k ∈ (plug (ST.node t1 Z vz tlz (ST.node t2 Y vy tly t3)) ps).slots := by
    intro k hk
    exact (plug_slots_perm _ _).mem_iff.mpr hk
  have hpos' : ∀ j ∈ (ST.node t1 Z vz tlz (ST.node t2 Y vy tly t3)).slots ++ ctxSlots ps,
      0 < j ∧ j.toNat < st.arena.length := fun j hj => hposPlug j (hmemPlug j hj)
  have hndall : ((ST.node t1 Z vz tlz (ST.node t2 Y vy tly t3)).slots ++ ctxSlots ps).Nodup :=
    ((plug_slots_perm _ _).nodup_iff).mp hnd
  rw [List.nodup_append] at hndall
  obtain ⟨hndpre, hndctx, hdisjpc⟩ := hndall
  have hposY : 0 < Y ∧ Y.toNat < st.arena.length := hpos' Y (by simp [ST.slots])
  have hposZ : 0 < Z ∧ Z.toNat < st.arena.length := hpos' Z (by simp [ST.slots])
  have hnd2 : (t1.slots ++ Z :: (t2.slots ++ Y :: t3.slots)).Nodup := by
    simpa [ST.slots] using hndpre
  rw [List.nodup_append] at hnd2
  obtain ⟨hndt1, hndZrest, hdisjLR⟩ := hnd2
  rw [List.nodup_cons] at hndZrest
  obtain ⟨hZnrest, hndrest⟩ := hndZrest
  rw [List.nodup_append] at hndrest
  obtain ⟨hndt2, hndYt3, hdisj2⟩ := hndrest
  rw [List.nodup_cons] at hndYt3
  obtain ⟨hYnt3, hndt3⟩ := hndYt3
  have hYZi : Y ≠ Z := by
    intro hc
    exact hZnrest (by simp [← hc])
  obtain ⟨hZpos, hZlen, hZpay, hZtl, hZlc, ⟨hZr, hYp⟩, ht1, hYrep⟩ := hpre
  obtain ⟨hYpos, hYlen, hYpay, hYtl, hYlc, hYrc, ht2, ht3⟩ := hYrep
  have hpre' : Repr st (ST.node t1 Z vz tlz (ST.node t2 Y vy tly t3)) :=
    ⟨hZpos, hZlen, hZpay, hZtl, hZlc, ⟨hZr, hYp⟩, ht1,
      ⟨hYpos, hYlen, hYpay, hYtl, hYlc, hYrc, ht2, ht3⟩⟩
  cases ps with
  | nil =>
    have hZp0 : (st.getN Z).parent = 0 := hroot0 rfl
    have hW0 : ∀ k ∈ (ST.node t1 Z vz tlz (ST.node t2 Y vy tly t3)).slots,
        (0 : Int).toNat ≠ k.toNat := by
      intro k hk
      have := hpos' k (by simp [hk])
      omega
    cases h2 : t2 with
    | leaf =>
      subst h2
      have hYl0 : (st.getN Y).left = 0 := hYlc
      obtain ⟨F1, F2, F5⟩ := rotRR_root_leaf st Z Y X hposZ.2 hposY.2
        (by have h1 := hposY.1; have h2 := hposZ.1; omega) hZp0 hZr hYp hYl0
      refine ⟨?_, ?_, ?_⟩
      · show Repr (st._Rotate_RR Z Y X) (ST.node (ST.node t1 Z vz tlz ST.leaf) Y vy tly t3)
        refine Repr_post_RR (W := 0) hlenle hpre' hnd hW0 F1 ?_ (fun h => absurd rfl h) ?_
        · simpa [ST.linkFrom] using F2
        · intro j h1 h2 _ _
          exact F5 j h1 h2
      · intro j hj
        exact F5 j (hj Y (by simp [plug, ST.slots])) (hj Z (by simp [plug, ST.slots]))
      · intro _
        rw [F1]
    | node a r2 c d e =>
      have hr2Y : r2 ≠ Y := by
        subst h2
        intro hc
        exact hdisj2 (show r2 ∈ (ST.node a r2 c d e).slots by simp [ST.slots]) (by simp [hc])
      have hr2Z : r2 ≠ Z := by
        subst h2
        intro hc
        exact hZnrest (by simp [← hc, ST.slots])
      subst h2
      have hmr2 : r2 ∈ (ST.node t1 Z vz tlz (ST.node (ST.node a r2 c d e) Y vy tly t3)).slots := by
        simp [ST.slots]
      have hposr2 := hpos' r2 (by simp [hmr2])
      have hYl : (st.getN Y).left = r2 - Y := hYlc.1
      obtain ⟨F1, F2, F3, F5⟩ := rotRR_root_node st Z Y X r2 hposZ.2 hposY.2 hposr2.2
        (by have h1 := hposY.1; have h2 := hposZ.1; omega)
        (by have h1 := hposY.1; have h2 := hposr2.1; omega)
        (by have h1 := hposZ.1; have h2 := hposr2.1; omega) hr2Y hZp0 hZr hYp hYl
      refine ⟨?_, ?_, ?_⟩
      · refine Repr_post_RR (W := 0) hlenle hpre' hnd hW0 F1 ?_ (fun _ => ?_) ?_
        · simpa [ST.linkFrom, ST.rootSlot] using F2
        · simpa [ST.rootSlot] using F3
        · intro j h1 h2 h3 _
          exact F5 j h1 h2 (by simpa [ST.rootSlot] using h3)
      · intro j hj
        exact F5 j (hj Y (by simp [plug, ST.slots])) (hj Z (by simp [plug, ST.slots]))
          (hj r2 (by simp [plug]; exact hmr2))
      · intro _
        rw [F1]
  | cons f rest =>
    have hYZn : Y.toNat ≠ Z.toNat := by
      have h1 := hposY.1
      have h2 := hposZ.1
      omega
    cases f with
    | L P v tl sib =>
      have hnodef : Repr st
          (ST.node (ST.node t1 Z vz tlz (ST.node t2 Y vy tly t3)) P v tl sib) :=
        Repr_plug_extract (show Repr st
          (plug (ST.node (ST.node t1 Z vz tlz (ST.node t2 Y vy tly t3)) P v tl sib) rest)
          from hrep)
      obtain ⟨hPpos, hPlen, hPpay2, hPtl2, hlk, hrk, _, hsibrep⟩ := hnodef
      obtain ⟨hPleft, hZp⟩ := hlk
      have hPmemctx : P ∈ ctxSlots (Frame.L P v tl sib :: rest) := by simp [ctxSlots]
      have hPne : ∀ k ∈ (ST.node t1 Z vz tlz (ST.node t2 Y vy tly t3)).slots, P ≠ k := by
        intro k hk hc
        exact hdisjpc hk (hc ▸ hPmemctx)
      have hW : ∀ k ∈ (ST.node t1 Z vz tlz (ST.node t2 Y vy tly t3)).slots,
          P.toNat ≠ k.toNat := by
        intro k hk
        have h1 := hpos' k (by simp [hk])
        have h2 := hPne k hk
        omega
      have hPZi : P ≠ Z := hPne Z (by simp [ST.slots])
      have hPYn : P.toNat ≠ Y.toNat := hW Y (by simp [ST.slots])
      have hPZn : P.toNat ≠ Z.toNat := hW Z (by simp [ST.slots])
      have hctxgen : ∀ j ∈ sib.slots ++ ctxSlots rest,
          0 < j ∧ j.toNat < st.arena.length ∧ j ≠ P ∧
          (∀ k ∈ (ST.node t1 Z vz tlz (ST.node t2 Y vy tly t3)).slots, j.toNat ≠ k.toNat) := by
        intro j hj
        have hjctx : j ∈ ctxSlots (Frame.L P v tl sib :: rest) := by
          simp only [ctxSlots, List.cons_append, List.mem_cons]
          exact Or.inr hj
        have hjpos := hpos' j (by simp [hjctx])
        have hjP : j ≠ P := by
          intro hc
          rw [show ctxSlots (Frame.L P v tl sib :: rest) =
              P :: (sib.slots ++ ctxSlots rest) by simp [ctxSlots],
            List.nodup_cons] at hndctx
          exact hndctx.1 (hc ▸ hj)
        refine ⟨hjpos.1, hjpos.2, hjP, ?_⟩
        intro k hk
        have hkpos := hpos' k (by simp [hk])
        have : j ≠ k := by
          intro hc
          exact hdisjpc (hc ▸ hk) hjctx
        omega
      cases h2 : t2 with
      | leaf =>
        subst h2
        obtain ⟨F1, F2, F4, F5⟩ := rotRR_P_left_leaf st Z Y X P hposZ.2 hposY.2 hPlen
          hYZn hPYn hPZn hPZi hZp hPleft hZr hYp hYlc
        have hs' : Repr (st._Rotate_RR Z Y X)
            (ST.node (ST.node t1 Z vz tlz ST.leaf) Y vy tly t3) := by
          refine Repr_post_RR (W := P) hlenle hpre' hndpre hW F1 ?_ (fun h => absurd rfl h) ?_
          · simpa [ST.linkFrom] using F2
          · intro j h1 h2 _ h4
            exact F5 j h1 h2 h4
        refine ⟨?_, ?_, fun h => absurd h (List.cons_ne_nil _ _)⟩
        · refine Repr_plug_graft_L hlenle (fun h => ST.noConfusion h)
            (by rw [F4]) (by rw [F4]) (by rw [F4]) (by rw [F4])
            (by rw [F4]; simp [ST.rootSlot]) ?_ ?_ hrep hs'
          · show ((st._Rotate_RR Z Y X).getN Y).parent = P - Y
            rw [F1]
          · intro j hj
            obtain ⟨hjpos, hjlen, hjP, hjpre⟩ := hctxgen j hj
            exact F5 j (hjpre Y (by simp [ST.slots])) (hjpre Z (by simp [ST.slots]))
              (by have := hPpos; omega)
        · intro j hj
          refine F5 j (hj Y (hmemPlug Y (by simp [ST.slots]))) (hj Z (hmemPlug Z (by simp [ST.slots])))
            (hj P (hmemPlug P (by simp [hPmemctx])))
      | node a r2 c d e =>
        have hr2Y : r2 ≠ Y := by
          subst h2
          intro hc
          exact hdisj2 (show r2 ∈ (ST.node a r2 c d e).slots by simp [ST.slots]) (by simp [hc])
        have hr2Z : r2 ≠ Z := by
          subst h2
          intro hc
          exact hZnrest (by simp [← hc, ST.slots])
        subst h2
        have hmr2 : r2 ∈ (ST.node t1 Z vz tlz (ST.node (ST.node a r2 c d e) Y vy tly t3)).slots := by
          simp [ST.slots]
        have hposr2 := hpos' r2 (by simp [hmr2])
        have hYl : (st.getN Y).left = r2 - Y := hYlc.1
        obtain ⟨F1, F2, F3, F4, F5⟩ := rotRR_P_left_node st Z Y X P r2 hposZ.2 hposY.2 hPlen
          hposr2.2 hYZn hPYn hPZn (hW r2 hmr2) (by have h1 := hposY.1; have h2 := hposr2.1; omega)
          (by have h1 := hposZ.1; have h2 := hposr2.1; omega) hPZi hr2Y hZp hPleft hZr hYp hYl
        have hs' : Repr (st._Rotate_RR Z Y X)
            (ST.node (ST.node t1 Z vz tlz (ST.node a r2 c d e)) Y vy tly t3) := by
          refine Repr_post_RR (W := P) hlenle hpre' hndpre hW F1 ?_ (fun _ => ?_) ?_
          · simpa [ST.linkFrom, ST.rootSlot] using F2
          · simpa [ST.rootSlot] using F3
          · intro j h1 h2 h3 h4
            exact F5 j h1 h2 (by simpa [ST.rootSlot] using h3) h4
        refine ⟨?_, ?_, fun h => absurd h (List.cons_ne_nil _ _)⟩
        · refine Repr_plug_graft_L hlenle (fun h => ST.noConfusion h)
            (by rw [F4]) (by rw [F4]) (by rw [F4]) (by rw [F4])
            (by rw [F4]; simp [ST.rootSlot]) ?_ ?_ hrep hs'
          · show ((st._Rotate_RR Z Y X).getN Y).parent = P - Y
            rw [F1]
          · intro j hj
            obtain ⟨hjpos, hjlen, hjP, hjpre⟩ := hctxgen j hj
            exact F5 j (hjpre Y (by simp [ST.slots])) (hjpre Z (by simp [ST.slots]))
              (hjpre r2 hmr2) (by have := hPpos; omega)
        · intro j hj
          refine F5 j (hj Y (hmemPlug Y (by simp [ST.slots]))) (hj Z (hmemPlug Z (by simp [ST.slots])))
            (hj r2 (hmemPlug r2 (by simp [hmr2]))) (hj P (hmemPlug P (by simp [hPmemctx])))
    | R P v tl sib =>
      have hnodef : Repr st
          (ST.node sib P v tl (ST.node t1 Z vz tlz (ST.node t2 Y vy tly t3))) :=
        Repr_plug_extract (show Repr st
          (plug (ST.node sib P v tl (ST.node t1 Z vz tlz (ST.node t2 Y vy tly t3))) rest)
          from hrep)
      obtain ⟨hPpos, hPlen, hPpay2, hPtl2, hsl, hrk, hsibrep, _⟩ := hnodef
      obtain ⟨hPright, hZp⟩ := hrk
      have hPmemctx : P ∈ ctxSlots (Frame.R P v tl sib :: rest) := by simp [ctxSlots]
      have hPne : ∀ k ∈ (ST.node t1 Z vz tlz (ST.node t2 Y vy tly t3)).slots, P ≠ k := by
        intro k hk hc
        exact hdisjpc hk (hc ▸ hPmemctx)
      have hW : ∀ k ∈ (ST.node t1 Z vz tlz (ST.node t2 Y vy tly t3)).slots,
          P.toNat ≠ k.toNat := by
        intro k hk
        have h1 := hpos' k (by simp [hk])
        have h2 := hPne k hk
        omega
      have hPZi : P ≠ Z := hPne Z (by simp [ST.slots])
      have hPYn : P.toNat ≠ Y.toNat := hW Y (by simp [ST.slots])
      have hPZn : P.toNat ≠ Z.toNat := hW Z (by simp [ST.slots])
      have hPlne : (st.getN P).left ≠ Z - P := by
        cases hsc : sib with
        | leaf =>
          subst hsc
          rw [hsl]
          intro hc
          exact hPZi (by omega)
        | node sa sb sc2 sd se =>
          subst hsc
          rw [hsl.1]
          intro hc
          have hsbZ : sb = Z := by omega
          have hsbctx : sb ∈ ctxSlots (Frame.R P v tl (ST.node sa sb sc2 sd se) :: rest) := by
            simp [ctxSlots, ST.slots]
          exact hdisjpc (show Z ∈ (ST.node t1 Z vz tlz (ST.node t2 Y vy tly t3)).slots
            by simp [ST.slots]) (hsbZ ▸ hsbctx)
      have hctxgen : ∀ j ∈ sib.slots ++ ctxSlots rest,
          0 < j ∧ j.toNat < st.arena.length ∧ j ≠ P ∧
          (∀ k ∈ (ST.node t1 Z vz tlz (ST.node t2 Y vy tly t3)).slots, j.toNat ≠ k.toNat) := by
        intro j hj
        have hjctx : j ∈ ctxSlots (Frame.R P v tl sib :: rest) := by
          simp only [ctxSlots, List.cons_append, List.mem_cons]
          exact Or.inr hj
        have hjpos := hpos' j (by simp [hjctx])
        have hjP : j ≠ P := by
          intro hc
          rw [show ctxSlots (Frame.R P v tl sib :: rest) =
              P :: (sib.slots ++ ctxSlots rest) by simp [ctxSlots],
            List.nodup_cons] at hndctx
          exact hndctx.1 (hc ▸ hj)
        refine ⟨hjpos.1, hjpos.2, hjP, ?_⟩
        intro k hk
        have hkpos := hpos' k (by simp [hk])
        have : j ≠ k := by
          intro hc
          exact hdisjpc (hc ▸ hk) hjctx
        omega
      cases h2 : t2 with
      | leaf =>
        subst h2
        obtain ⟨F1, F2, F4, F5⟩ := rotRR_P_right_leaf st Z Y X P hposZ.2 hposY.2 hPlen
          hYZn hPYn hPZn hPZi hZp hPright hPlne hZr hYp hYlc
        have hs' : Repr (st._Rotate_RR Z Y X)
            (ST.node (ST.node t1 Z vz tlz ST.leaf) Y vy tly t3) := by
          refine Repr_post_RR (W := P) hlenle hpre' hndpre hW F1 ?_ (fun h => absurd rfl h) ?_
          · simpa [ST.linkFrom] using F2
          · intro j h1 h2 _ h4
            exact F5 j h1 h2 h4
        refine ⟨?_, ?_, fun h => absurd h (List.cons_ne_nil _ _)⟩
        · refine Repr_plug_graft_R hlenle (fun h => ST.noConfusion h)
            (by rw [F4]) (by rw [F4]) (by rw [F4]) (by rw [F4])
            (by rw [F4]; simp [ST.rootSlot]) ?_ ?_ hrep hs'
          · show ((st._Rotate_RR Z Y X).getN Y).parent = P - Y
            rw [F1]
          · intro j hj
            obtain ⟨hjpos, hjlen, hjP, hjpre⟩ := hctxgen j hj
            exact F5 j (hjpre Y (by simp [ST.slots])) (hjpre Z (by simp [ST.slots]))
              (by have := hPpos; omega)
        · intro j hj
          refine F5 j (hj Y (hmemPlug Y (by simp [ST.slots]))) (hj Z (hmemPlug Z (by simp [ST.slots])))
            (hj P (hmemPlug P (by simp [hPmemctx])))
      | node a r2 c d e =>
        have hr2Y : r2 ≠ Y := by
          subst h2
          intro hc
          exact hdisj2 (show r2 ∈ (ST.node a r2 c d e).slots by simp [ST.slots]) (by simp [hc])
        have hr2Z : r2 ≠ Z := by
          subst h2
          intro hc
          exact hZnrest (by simp [← hc, ST.slots])
        subst h2
        have hmr2 : r2 ∈ (ST.node t1 Z vz tlz (ST.node (ST.node a r2 c d e) Y vy tly t3)).slots := by
          simp [ST.slots]
        have hposr2 := hpos' r2 (by simp [hmr2])
        have hYl : (st.getN Y).left = r2 - Y := hYlc.1
        obtain ⟨F1, F2, F3, F4, F5⟩ := rotRR_P_right_node st Z Y X P r2 hposZ.2 hposY.2 hPlen
          hposr2.2 hYZn hPYn hPZn (hW r2 hmr2) (by have h1 := hposY.1; have h2 := hposr2.1; omega)
          (by have h1 := hposZ.1; have h2 := hposr2.1; omega) hPZi hr2Y hZp hPright hPlne hZr hYp hYl
        have hs' : Repr (st._Rotate_RR Z Y X)
            (ST.node (ST.node t1 Z vz tlz (ST.node a r2 c d e)) Y vy tly t3) := by
          refine Repr_post_RR (W := P) hlenle hpre' hndpre hW F1 ?_ (fun _ => ?_) ?_
          · simpa [ST.linkFrom, ST.rootSlot] using F2
          · simpa [ST.rootSlot] using F3
          · intro j h1 h2 h3 h4
            exact F5 j h1 h2 (by simpa [ST.rootSlot] using h3) h4
        refine ⟨?_, ?_, fun h => absurd h (List.cons_ne_nil _ _)⟩
        · refine Repr_plug_graft_R hlenle (fun h => ST.noConfusion h)
            (by rw [F4]) (by rw [F4]) (by rw [F4]) (by rw [F4])
            (by rw [F4]; simp [ST.rootSlot]) ?_ ?_ hrep hs'
          · show ((st._Rotate_RR Z Y X).getN Y).parent = P - Y
            rw [F1]
          · intro j hj
            obtain ⟨hjpos, hjlen, hjP, hjpre⟩ := hctxgen j hj
            exact F5 j (hjpre Y (by simp [ST.slots])) (hjpre Z (by simp [ST.slots]))
              (hjpre r2 hmr2) (by have := hPpos; omega)
        · intro j hj
          refine F5 j (hj Y (hmemPlug Y (by simp [ST.slots]))) (hj Z (hmemPlug Z (by simp [ST.slots])))
            (hj r2 (hmemPlug r2 (by simp [hmr2]))) (hj P (hmemPlug P (by simp [hPmemctx])))

end AvlVerif

end IndexedSet
namespace IndexedSet

open AvlState

namespace AvlVerif

variable {α : Type} [Inhabited α]


/-- Exact node contents after `_Rotate_LR` (root case, `X` lacks a left subtree and lacks a right subtree). -/
theorem rotLR_root_ll (st : AvlState α) (Z Y X2 : Int)
    (hZlen : Z.toNat < st.arena.length)
    (hYlen : Y.toNat < st.arena.length)
    (hX2len : X2.toNat < st.arena.length)
    (hZY : Z.toNat ≠ Y.toNat)
    (hZX2 : Z.toNat ≠ X2.toNat)
    (hYX2 : Y.toNat ≠ X2.toNat)
    (hZp : (st.getN Z).parent = 0)
    (hZl : (st.getN Z).left = Y - Z)
    (hYp : (st.getN Y).parent = Z - Y)
    (hYr : (st.getN Y).right = X2 - Y)
    (hXp : (st.getN X2).parent = Y - X2)
    (hXl : (st.getN X2).left = 0)
    (hXr : (st.getN X2).right = 0) :
    (st._Rotate_LR Z Y X2).getN X2 = { st.getN X2 with parent := 0, left := Y - X2, right := Z - X2 } ∧
    (st._Rotate_LR Z Y X2).getN Y = { st.getN Y with parent := X2 - Y, right := 0 } ∧
    (st._Rotate_LR Z Y X2).getN Z = { st.getN Z with parent := X2 - Z, left := 0 } ∧
    (∀ j : Int, j.toNat ≠ Z.toNat → j.toNat ≠ Y.toNat → j.toNat ≠ X2.toNat →
      (st._Rotate_LR Z Y X2).getN j = st.getN j) := by
  have hNSP : st.NSafeParent Z = Option.none := by
    simp [NSafeParent, hZp]
  refine ⟨?_, ?_, ?_, ?_⟩ <;>
    [skip; skip; skip; intro j hjZ hjY hjX2] <;>
  · simp only [_Rotate_LR,
      hNSP,
      Nleft,
      Nright,
      _Ptr,
      getN_setP,
      getN_setL,
      getN_setR,
      arena_setP,
      arena_setL,
      arena_setR,
      arena_ite,
      hZp,
      hZl,
      hYp,
      hYr,
      hXp,
      hXl,
      hXr,
      neg_sub,
      hZlen,
      hYlen,
      hX2len,
      hZY,
      Ne.symm hZY,
      hZX2,
      Ne.symm hZX2,
      hYX2,
      Ne.symm hYX2,
      if_true,
      if_false,
      and_true,
      true_and,
      and_false,
      false_and,
      ite_true,
      ite_false,
      not_false_iff,
      ne_eq,
      not_true,
      INode.mk.injEq]
    try simp only [hjZ, hjY, hjX2, if_false, and_false, false_and, ite_false]
    try first
    | rfl
    | omega
    | (constructor <;> first | rfl | omega)

/-- Exact node contents after `_Rotate_LR` (root case, `X` lacks a left subtree and has a right subtree). -/
theorem rotLR_root_ln (st : AvlState α) (Z Y X2 r3 : Int)
    (hZlen : Z.toNat < st.arena.length)
    (hYlen : Y.toNat < st.arena.length)
    (hX2len : X2.toNat < st.arena.length)
    (hr3len : r3.toNat < st.arena.length)
    (hZY : Z.toNat ≠ Y.toNat)
    (hZX2 : Z.toNat ≠ X2.toNat)
    (hZr3 : Z.toNat ≠ r3.toNat)
    (hYX2 : Y.toNat ≠ X2.toNat)
    (hYr3 : Y.toNat ≠ r3.toNat)
    (hX2r3 : X2.toNat ≠ r3.toNat)
    (hr3Xi : r3 ≠ X2)
    (hZp : (st.getN Z).parent = 0)
    (hZl : (st.getN Z).left = Y - Z)
    (hYp : (st.getN Y).parent = Z - Y)
    (hYr : (st.getN Y).right = X2 - Y)
    (hXp : (st.getN X2).parent = Y - X2)
    (hXl : (st.getN X2).left = 0)
    (hXr : (st.getN X2).right = r3 - X2) :
    (st._Rotate_LR Z Y X2).getN X2 = { st.getN X2 with parent := 0, left := Y - X2, right := Z - X2 } ∧
    (st._Rotate_LR Z Y X2).getN Y = { st.getN Y with parent := X2 - Y, right := 0 } ∧
    (st._Rotate_LR Z Y X2).getN Z = { st.getN Z with parent := X2 - Z, left := r3 - Z } ∧
    (st._Rotate_LR Z Y X2).getN r3 = { st.getN r3 with parent := Z - r3 } ∧
    (∀ j : Int, j.toNat ≠ Z.toNat → j.toNat ≠ Y.toNat → j.toNat ≠ X2.toNat → j.toNat ≠ r3.toNat →
      (st._Rotate_LR Z Y X2).getN j = st.getN j) := by
  have hNSP : st.NSafeParent Z = Option.none := by
    simp [NSafeParent, hZp]
  have hsub3 : r3 - X2 ≠ 0 := sub_ne_zero_of_ne hr3Xi
  have hslot3 : Z + ((X2 - Z) + (r3 - X2)) = r3 := by ring
  refine ⟨?_, ?_, ?_, ?_, ?_⟩ <;>
    [skip; skip; skip; skip; intro j hjZ hjY hjX2 hjr3] <;>
  · simp only [_Rotate_LR,
      hNSP,
      Nleft,
      Nright,
      _Ptr,
      getN_setP,
      getN_setL,
      getN_setR,
      arena_setP,
      arena_setL,
      arena_setR,
      arena_ite,
      hZp,
      hZl,
      hYp,
      hYr,
      hXp,
      hXl,
      hXr,
      neg_sub,
      hsub3,
      hslot3,
      hZlen,
      hYlen,
      hX2len,
      hr3len,
      hZY,
      Ne.symm hZY,
      hZX2,
      Ne.symm hZX2,
      hZr3,
      Ne.symm hZr3,
      hYX2,
      Ne.symm hYX2,
      hYr3,
      Ne.symm hYr3,
      hX2r3,
      Ne.symm hX2r3,
      if_true,
      if_false,
      and_true,
      true_and,
      and_false,
      false_and,
      ite_true,
      ite_false,
      not_false_iff,
      ne_eq,
      not_true,
      INode.mk.injEq]
    try simp only [hjZ, hjY, hjX2, hjr3, if_false, and_false, false_and, ite_false]
    try first
    | rfl
    | omega
    | (constructor <;> first | rfl | omega)

/-- Exact node contents after `_Rotate_LR` (root case, `X` has a left subtree and lacks a right subtree). -/
theorem rotLR_root_nl (st : AvlState α) (Z Y X2 r2 : Int)
    (hZlen : Z.toNat < st.arena.length)
    (hYlen : Y.toNat < st.arena.length)
    (hX2len : X2.toNat < st.arena.length)
    (hr2len : r2.toNat < st.arena.length)
    (hZY : Z.toNat ≠ Y.toNat)
    (hZX2 : Z.toNat ≠ X2.toNat)
    (hZr2 : Z.toNat ≠ r2.toNat)
    (hYX2 : Y.toNat ≠ X2.toNat)
    (hYr2 : Y.toNat ≠ r2.toNat)
    (hX2r2 : X2.toNat ≠ r2.toNat)
    (hr2Xi : r2 ≠ X2)
    (hZp : (st.getN Z).parent = 0)
    (hZl : (st.getN Z).left = Y - Z)
    (hYp : (st.getN Y).parent = Z - Y)
    (hYr : (st.getN Y).right = X2 - Y)
    (hXp : (st.getN X2).parent = Y - X2)
    (hXl : (st.getN X2).left = r2 - X2)
    (hXr : (st.getN X2).right = 0) :
    (st._Rotate_LR Z Y X2).getN X2 = { st.getN X2 with parent := 0, left := Y - X2, right := Z - X2 } ∧
    (st._Rotate_LR Z Y X2).getN Y = { st.getN Y with parent := X2 - Y, right := r2 - Y } ∧
    (st._Rotate_LR Z Y X2).getN Z = { st.getN Z with parent := X2 - Z, left := 0 } ∧
    (st._Rotate_LR Z Y X2).getN r2 = { st.getN r2 with parent := Y - r2 } ∧
    (∀ j : Int, j.toNat ≠ Z.toNat → j.toNat ≠ Y.toNat → j.toNat ≠ X2.toNat → j.toNat ≠ r2.toNat →
      (st._Rotate_LR Z Y X2).getN j = st.getN j) := by
  have hNSP : st.NSafeParent Z = Option.none := by
    simp [NSafeParent, hZp]
  have hsub2 : r2 - X2 ≠ 0 := sub_ne_zero_of_ne hr2Xi
  have hslot2 : Y + ((X2 - Y) + (r2 - X2)) = r2 := by ring
  refine ⟨?_, ?_, ?_, ?_, ?_⟩ <;>
    [skip; skip; skip; skip; intro j hjZ hjY hjX2 hjr2] <;>
  · simp only [_Rotate_LR,
      hNSP,
      Nleft,
      Nright,
      _Ptr,
      getN_setP,
      getN_setL,
      getN_setR,
      arena_setP,
      arena_setL,
      arena_setR,
      arena_ite,
      hZp,
      hZl,
      hYp,
      hYr,
      hXp,
      hXl,
      hXr,
      neg_sub,
      hsub2,
      hslot2,
      hZlen,
      hYlen,
      hX2len,
      hr2len,
      hZY,
      Ne.symm hZY,
      hZX2,
      Ne.symm hZX2,
      hZr2,
      Ne.symm hZr2,
      hYX2,
      Ne.symm hYX2,
      hYr2,
      Ne.symm hYr2,
      hX2r2,
      Ne.symm hX2r2,
      if_true,
      if_false,
      and_true,
      true_and,
      and_false,
      false_and,
      ite_true,
      ite_false,
      not_false_iff,
      ne_eq,
      not_true,
      INode.mk.injEq]
    try simp only [hjZ, hjY, hjX2, hjr2, if_false, and_false, false_and, ite_false]
    try first
    | rfl
    | omega
    | (constructor <;> first | rfl | omega)

/-- Exact node contents after `_Rotate_LR` (root case, `X` has a left subtree and has a right subtree). -/
theorem rotLR_root_nn (st : AvlState α) (Z Y X2 r2 r3 : Int)
    (hZlen : Z.toNat < st.arena.length)
    (hYlen : Y.toNat < st.arena.length)
    (hX2len : X2.toNat < st.arena.length)
    (hr2len : r2.toNat < st.arena.length)
    (hr3len : r3.toNat < st.arena.length)
    (hZY : Z.toNat ≠ Y.toNat)
    (hZX2 : Z.toNat ≠ X2.toNat)
    (hZr2 : Z.toNat ≠ r2.toNat)
    (hZr3 : Z.toNat ≠ r3.toNat)
    (hYX2 : Y.toNat ≠ X2.toNat)
    (hYr2 : Y.toNat ≠ r2.toNat)
    (hYr3 : Y.toNat ≠ r3.toNat)
    (hX2r2 : X2.toNat ≠ r2.toNat)
    (hX2r3 : X2.toNat ≠ r3.toNat)
    (hr2r3 : r2.toNat ≠ r3.toNat)
    (hr2Xi : r2 ≠ X2)
    (hr3Xi : r3 ≠ X2)
    (hZp : (st.getN Z).parent = 0)
    (hZl : (st.getN Z).left = Y - Z)
    (hYp : (st.getN Y).parent = Z - Y)
    (hYr : (st.getN Y).right = X2 - Y)
    (hXp : (st.getN X2).parent = Y - X2)
    (hXl : (st.getN X2).left = r2 - X2)
    (hXr : (st.getN X2).right = r3 - X2) :
    (st._Rotate_LR Z Y X2).getN X2 = { st.getN X2 with parent := 0, left := Y - X2, right := Z - X2 } ∧
    (st._Rotate_LR Z Y X2).getN Y = { st.getN Y with parent := X2 - Y, right := r2 - Y } ∧
    (st._Rotate_LR Z Y X2).getN Z = { st.getN Z with parent := X2 - Z, left := r3 - Z } ∧
    (st._Rotate_LR Z Y X2).getN r2 = { st.getN r2 with parent := Y - r2 } ∧
    (st._Rotate_LR Z Y X2).getN r3 = { st.getN r3 with parent := Z - r3 } ∧
    (∀ j : Int, j.toNat ≠ Z.toNat → j.toNat ≠ Y.toNat → j.toNat ≠ X2.toNat → j.toNat ≠ r2.toNat → j.toNat ≠ r3.toNat →
      (st._Rotate_LR Z Y X2).getN j = st.getN j) := by
  have hNSP : st.NSafeParent Z = Option.none := by
    simp [NSafeParent, hZp]
  have hsub3 : r3 - X2 ≠ 0 := sub_ne_zero_of_ne hr3Xi
  have hslot3 : Z + ((X2 - Z) + (r3 - X2)) = r3 := by ring
  have hsub2 : r2 - X2 ≠ 0 := sub_ne_zero_of_ne hr2Xi
  have hslot2 : Y + ((X2 - Y) + (r2 - X2)) = r2 := by ring
  refine ⟨?_, ?_, ?_, ?_, ?_, ?_⟩ <;>
    [skip; skip; skip; skip; skip; intro j hjZ hjY hjX2 hjr2 hjr3] <;>
  · simp only [_Rotate_LR,
      hNSP,
      Nleft,
      Nright,
      _Ptr,
      getN_setP,
      getN_setL,
      getN_setR,
      arena_setP,
      arena_setL,
      arena_setR,
      arena_ite,
      hZp,
      hZl,
      hYp,
      hYr,
      hXp,
      hXl,
      hXr,
      neg_sub,
      hsub3,
      hslot3,
      hsub2,
      hslot2,
      hZlen,
      hYlen,
      hX2len,
      hr2len,
      hr3len,
      hZY,
      Ne.symm hZY,
      hZX2,
      Ne.symm hZX2,
      hZr2,
      Ne.symm hZr2,
      hZr3,
      Ne.symm hZr3,
      hYX2,
      Ne.symm hYX2,
      hYr2,
      Ne.symm hYr2,
      hYr3,
      Ne.symm hYr3,
      hX2r2,
      Ne.symm hX2r2,
      hX2r3,
      Ne.symm hX2r3,
      hr2r3,
      Ne.symm hr2r3,
      if_true,
      if_false,
      and_true,
      true_and,
      and_false,
      false_and,
      ite_true,
      ite_false,
      not_false_iff,
      ne_eq,
      not_true,
      INode.mk.injEq]
    try simp only [hjZ, hjY, hjX2, hjr2, hjr3, if_false, and_false, false_and, ite_false]
    try first
    | rfl
    | omega
    | (constructor <;> first | rfl | omega)

/-- Exact node contents after `_Rotate_LR` (P left case, `X` lacks a left subtree and lacks a right subtree). -/
theorem rotLR_P_left_ll (st : AvlState α) (Z Y X2 P : Int)
    (hZlen : Z.toNat < st.arena.length)
    (hYlen : Y.toNat < st.arena.length)
    (hX2len : X2.toNat < st.arena.length)
    (hPlen : P.toNat < st.arena.length)
    (hZY : Z.toNat ≠ Y.toNat)
    (hZX2 : Z.toNat ≠ X2.toNat)
    (hZP : Z.toNat ≠ P.toNat)
    (hYX2 : Y.toNat ≠ X2.toNat)
    (hYP : Y.toNat ≠ P.toNat)
    (hX2P : X2.toNat ≠ P.toNat)
    (hPZi : P ≠ Z)
    (hZp : (st.getN Z).parent = P - Z)
    (hPl : (st.getN P).left = Z - P)
    (hZl : (st.getN Z).left = Y - Z)
    (hYp : (st.getN Y).parent = Z - Y)
    (hYr : (st.getN Y).right = X2 - Y)
    (hXp : (st.getN X2).parent = Y - X2)
    (hXl : (st.getN X2).left = 0)
    (hXr : (st.getN X2).right = 0) :
    (st._Rotate_LR Z Y X2).getN X2 = { st.getN X2 with parent := P - X2, left := Y - X2, right := Z - X2 } ∧
    (st._Rotate_LR Z Y X2).getN Y = { st.getN Y with parent := X2 - Y, right := 0 } ∧
    (st._Rotate_LR Z Y X2).getN Z = { st.getN Z with parent := X2 - Z, left := 0 } ∧
    (st._Rotate_LR Z Y X2).getN P = { st.getN P with left := X2 - P } ∧
    (∀ j : Int, j.toNat ≠ Z.toNat → j.toNat ≠ Y.toNat → j.toNat ≠ X2.toNat → j.toNat ≠ P.toNat →
      (st._Rotate_LR Z Y X2).getN j = st.getN j) := by
  have hNSP : st.NSafeParent Z = some P := by
    have h1 : P - Z ≠ 0 := sub_ne_zero_of_ne hPZi
    have h2 : Z + (P - Z) = P := by ring
    simp [NSafeParent, hZp, h1, _Ptr, h2]
  refine ⟨?_, ?_, ?_, ?_, ?_⟩ <;>
    [skip; skip; skip; skip; intro j hjZ hjY hjX2 hjP] <;>
  · simp only [_Rotate_LR,
      hNSP,
      Nleft,
      Nright,
      _Ptr,
      getN_setP,
      getN_setL,
      getN_setR,
      arena_setP,
      arena_setL,
      arena_setR,
      arena_ite,
      hZp,
      hZl,
      hYp,
      hYr,
      hXp,
      hXl,
      hXr,
      hPl,
      neg_sub,
      hZlen,
      hYlen,
      hX2len,
      hPlen,
      hZY,
      Ne.symm hZY,
      hZX2,
      Ne.symm hZX2,
      hZP,
      Ne.symm hZP,
      hYX2,
      Ne.symm hYX2,
      hYP,
      Ne.symm hYP,
      hX2P,
      Ne.symm hX2P,
      if_true,
      if_false,
      and_true,
      true_and,
      and_false,
      false_and,
      ite_true,
      ite_false,
      not_false_iff,
      ne_eq,
      not_true,
      INode.mk.injEq]
    try simp only [hjZ, hjY, hjX2, hjP, if_false, and_false, false_and, ite_false]
    try first
    | rfl
    | omega
    | (constructor <;> first | rfl | omega)

/-- Exact node contents after `_Rotate_LR` (P left case, `X` lacks a left subtree and has a right subtree). -/
theorem rotLR_P_left_ln (st : AvlState α) (Z Y X2 P r3 : Int)
    (hZlen : Z.toNat < st.arena.length)
    (hYlen : Y.toNat < st.arena.length)
    (hX2len : X2.toNat < st.arena.length)
    (hPlen : P.toNat < st.arena.length)
    (hr3len : r3.toNat < st.arena.length)
    (hZY : Z.toNat ≠ Y.toNat)
    (hZX2 : Z.toNat ≠ X2.toNat)
    (hZP : Z.toNat ≠ P.toNat)
    (hZr3 : Z.toNat ≠ r3.toNat)
    (hYX2 : Y.toNat ≠ X2.toNat)
    (hYP : Y.toNat ≠ P.toNat)
    (hYr3 : Y.toNat ≠ r3.toNat)
    (hX2P : X2.toNat ≠ P.toNat)
    (hX2r3 : X2.toNat ≠ r3.toNat)
    (hPr3 : P.toNat ≠ r3.toNat)
    (hPZi : P ≠ Z)
    (hr3Xi : r3 ≠ X2)
    (hZp : (st.getN Z).parent = P - Z)
    (hPl : (st.getN P).left = Z - P)
    (hZl : (st.getN Z).left = Y - Z)
    (hYp : (st.getN Y).parent = Z - Y)
    (hYr : (st.getN Y).right = X2 - Y)
    (hXp : (st.getN X2).parent = Y - X2)
    (hXl : (st.getN X2).left = 0)
    (hXr : (st.getN X2).right = r3 - X2) :
    (st._Rotate_LR Z Y X2).getN X2 = { st.getN X2 with parent := P - X2, left := Y - X2, right := Z - X2 } ∧
    (st._Rotate_LR Z Y X2).getN Y = { st.getN Y with parent := X2 - Y, right := 0 } ∧
    (st._Rotate_LR Z Y X2).getN Z = { st.getN Z with parent := X2 - Z, left := r3 - Z } ∧
    (st._Rotate_LR Z Y X2).getN r3 = { st.getN r3 with parent := Z - r3 } ∧
    (st._Rotate_LR Z Y X2).getN P = { st.getN P with left := X2 - P } ∧
    (∀ j : Int, j.toNat ≠ Z.toNat → j.toNat ≠ Y.toNat → j.toNat ≠ X2.toNat → j.toNat ≠ P.toNat → j.toNat ≠ r3.toNat →
      (st._Rotate_LR Z Y X2).getN j = st.getN j) := by
  have hNSP : st.NSafeParent Z = some P := by
    have h1 : P - Z ≠ 0 := sub_ne_zero_of_ne hPZi
    have h2 : Z + (P - Z) = P := by ring
    simp [NSafeParent, hZp, h1, _Ptr, h2]
  have hsub3 : r3 - X2 ≠ 0 := sub_ne_zero_of_ne hr3Xi
  have hslot3 : Z + ((X2 - Z) + (r3 - X2)) = r3 := by ring
  refine ⟨?_, ?_, ?_, ?_, ?_, ?_⟩ <;>
    [skip; skip; skip; skip; skip; intro j hjZ hjY hjX2 hjP hjr3] <;>
  · simp only [_Rotate_LR,
      hNSP,
      Nleft,
      Nright,
      _Ptr,
      getN_setP,
      getN_setL,
      getN_setR,
      arena_setP,
      arena_setL,
      arena_setR,
      arena_ite,
      hZp,
      hZl,
      hYp,
      hYr,
      hXp,
      hXl,
      hXr,
      hPl,
      neg_sub,
      hsub3,
      hslot3,
      hZlen,
      hYlen,
      hX2len,
      hPlen,
      hr3len,
      hZY,
      Ne.symm hZY,
      hZX2,
      Ne.symm hZX2,
      hZP,
      Ne.symm hZP,
      hZr3,
      Ne.symm hZr3,
      hYX2,
      Ne.symm hYX2,
      hYP,
      Ne.symm hYP,
      hYr3,
      Ne.symm hYr3,
      hX2P,
      Ne.symm hX2P,
      hX2r3,
      Ne.symm hX2r3,
      hPr3,
      Ne.symm hPr3,
      if_true,
      if_false,
      and_true,
      true_and,
      and_false,
      false_and,
      ite_true,
      ite_false,
      not_false_iff,
      ne_eq,
      not_true,
      INode.mk.injEq]
    try simp only [hjZ, hjY, hjX2, hjP, hjr3, if_false, and_false, false_and, ite_false]
    try first
    | rfl
    | omega
    | (constructor <;> first | rfl | omega)

/-- Exact node contents after `_Rotate_LR` (P left case, `X` has a left subtree and lacks a right subtree). -/
theorem rotLR_P_left_nl (st : AvlState α) (Z Y X2 P r2 : Int)
    (hZlen : Z.toNat < st.arena.length)
    (hYlen : Y.toNat < st.arena.length)
    (hX2len : X2.toNat < st.arena.length)
    (hPlen : P.toNat < st.arena.length)
    (hr2len : r2.toNat < st.arena.length)
    (hZY : Z.toNat ≠ Y.toNat)
    (hZX2 : Z.toNat ≠ X2.toNat)
    (hZP : Z.toNat ≠ P.toNat)
    (hZr2 : Z.toNat ≠ r2.toNat)
    (hYX2 : Y.toNat ≠ X2.toNat)
    (hYP : Y.toNat ≠ P.toNat)
    (hYr2 : Y.toNat ≠ r2.toNat)
    (hX2P : X2.toNat ≠ P.toNat)
    (hX2r2 : X2.toNat ≠ r2.toNat)
    (hPr2 : P.toNat ≠ r2.toNat)
    (hPZi : P ≠ Z)
    (hr2Xi : r2 ≠ X2)
    (hZp : (st.getN Z).parent = P - Z)
    (hPl : (st.getN P).left = Z - P)
    (hZl : (st.getN Z).left = Y - Z)
    (hYp : (st.getN Y).parent = Z - Y)
    (hYr : (st.getN Y).right = X2 - Y)
    (hXp : (st.getN X2).parent = Y - X2)
    (hXl : (st.getN X2).left = r2 - X2)
    (hXr : (st.getN X2).right = 0) :
    (st._Rotate_LR Z Y X2).getN X2 = { st.getN X2 with parent := P - X2, left := Y - X2, right := Z - X2 } ∧
    (st._Rotate_LR Z Y X2).getN Y = { st.getN Y with parent := X2 - Y, right := r2 - Y } ∧
    (st._Rotate_LR Z Y X2).getN Z = { st.getN Z with parent := X2 - Z, left := 0 } ∧
    (st._Rotate_LR Z Y X2).getN r2 = { st.getN r2 with parent := Y - r2 } ∧
    (st._Rotate_LR Z Y X2).getN P = { st.getN P with left := X2 - P } ∧
    (∀ j : Int, j.toNat ≠ Z.toNat → j.toNat ≠ Y.toNat → j.toNat ≠ X2.toNat → j.toNat ≠ P.toNat → j.toNat ≠ r2.toNat →
      (st._Rotate_LR Z Y X2).getN j = st.getN j) := by
  have hNSP : st.NSafeParent Z = some P := by
    have h1 : P - Z ≠ 0 := sub_ne_zero_of_ne hPZi
    have h2 : Z + (P - Z) = P := by ring
    simp [NSafeParent, hZp, h1, _Ptr, h2]
  have hsub2 : r2 - X2 ≠ 0 := sub_ne_zero_of_ne hr2Xi
  have hslot2 : Y + ((X2 - Y) + (r2 - X2)) = r2 := by ring
  refine ⟨?_, ?_, ?_, ?_, ?_, ?_⟩ <;>
    [skip; skip; skip; skip; skip; intro j hjZ hjY hjX2 hjP hjr2] <;>
  · simp only [_Rotate_LR,
      hNSP,
      Nleft,
      Nright,
      _Ptr,
      getN_setP,
      getN_setL,
      getN_setR,
      arena_setP,
      arena_setL,
      arena_setR,
      arena_ite,
      hZp,
      hZl,
      hYp,
      hYr,
      hXp,
      hXl,
      hXr,
      hPl,
      neg_sub,
      hsub2,
      hslot2,
      hZlen,
      hYlen,
      hX2len,
      hPlen,
      hr2len,
      hZY,
      Ne.symm hZY,
      hZX2,
      Ne.symm hZX2,
      hZP,
      Ne.symm hZP,
      hZr2,
      Ne.symm hZr2,
      hYX2,
      Ne.symm hYX2,
      hYP,
      Ne.symm hYP,
      hYr2,
      Ne.symm hYr2,
      hX2P,
      Ne.symm hX2P,
      hX2r2,
      Ne.symm hX2r2,
      hPr2,
      Ne.symm hPr2,
      if_true,
      if_false,
      and_true,
      true_and,
      and_false,
      false_and,
      ite_true,
      ite_false,
      not_false_iff,
      ne_eq,
      not_true,
      INode.mk.injEq]
    try simp only [hjZ, hjY, hjX2, hjP, hjr2, if_false, and_false, false_and, ite_false]
    try first
    | rfl
    | omega
    | (constructor <;> first | rfl | omega)

/-- Exact node contents after `_Rotate_LR` (P left case, `X` has a left subtree and has a right subtree). -/
theorem rotLR_P_left_nn (st : AvlState α) (Z Y X2 P r2 r3 : Int)
    (hZlen : Z.toNat < st.arena.length)
    (hYlen : Y.toNat < st.arena.length)
    (hX2len : X2.toNat < st.arena.length)
    (hPlen : P.toNat < st.arena.length)
    (hr2len : r2.toNat < st.arena.length)
    (hr3len : r3.toNat < st.arena.length)
    (hZY : Z.toNat ≠ Y.toNat)
    (hZX2 : Z.toNat ≠ X2.toNat)
    (hZP : Z.toNat ≠ P.toNat)
    (hZr2 : Z.toNat ≠ r2.toNat)
    (hZr3 : Z.toNat ≠ r3.toNat)
    (hYX2 : Y.toNat ≠ X2.toNat)
    (hYP : Y.toNat ≠ P.toNat)
    (hYr2 : Y.toNat ≠ r2.toNat)
    (hYr3 : Y.toNat ≠ r3.toNat)
    (hX2P : X2.toNat ≠ P.toNat)
    (hX2r2 : X2.toNat ≠ r2.toNat)
    (hX2r3 : X2.toNat ≠ r3.toNat)
    (hPr2 : P.toNat ≠ r2.toNat)
    (hPr3 : P.toNat ≠ r3.toNat)
    (hr2r3 : r2.toNat ≠ r3.toNat)
    (hPZi : P ≠ Z)
    (hr2Xi : r2 ≠ X2)
    (hr3Xi : r3 ≠ X2)
    (hZp : (st.getN Z).parent = P - Z)
    (hPl : (st.getN P).left = Z - P)
    (hZl : (st.getN Z).left = Y - Z)
    (hYp : (st.getN Y).parent = Z - Y)
    (hYr : (st.getN Y).right = X2 - Y)
    (hXp : (st.getN X2).parent = Y - X2)
    (hXl : (st.getN X2).left = r2 - X2)
    (hXr : (st.getN X2).right = r3 - X2) :
    (st._Rotate_LR Z Y X2).getN X2 = { st.getN X2 with parent := P - X2, left := Y - X2, right := Z - X2 } ∧
    (st._Rotate_LR Z Y X2).getN Y = { st.getN Y with parent := X2 - Y, right := r2 - Y } ∧
    (st._Rotate_LR Z Y X2).getN Z = { st.getN Z with parent := X2 - Z, left := r3 - Z } ∧
    (st._Rotate_LR Z Y X2).getN r2 = { st.getN r2 with parent := Y - r2 } ∧
    (st._Rotate_LR Z Y X2).getN r3 = { st.getN r3 with parent := Z - r3 } ∧
    (st._Rotate_LR Z Y X2).getN P = { st.getN P with left := X2 - P } ∧
    (∀ j : Int, j.toNat ≠ Z.toNat → j.toNat ≠ Y.toNat → j.toNat ≠ X2.toNat → j.toNat ≠ P.toNat → j.toNat ≠ r2.toNat → j.toNat ≠ r3.toNat →
      (st._Rotate_LR Z Y X2).getN j = st.getN j) := by
  have hNSP : st.NSafeParent Z = some P := by
    have h1 : P - Z ≠ 0 := sub_ne_zero_of_ne hPZi
    have h2 : Z + (P - Z) = P := by ring
    simp [NSafeParent, hZp, h1, _Ptr, h2]
  have hsub3 : r3 - X2 ≠ 0 := sub_ne_zero_of_ne hr3Xi
  have hslot3 : Z + ((X2 - Z) + (r3 - X2)) = r3 := by ring
  have hsub2 : r2 - X2 ≠ 0 := sub_ne_zero_of_ne hr2Xi
  have hslot2 : Y + ((X2 - Y) + (r2 - X2)) = r2 := by ring
  refine ⟨?_, ?_, ?_, ?_, ?_, ?_, ?_⟩ <;>
    [skip; skip; skip; skip; skip; skip; intro j hjZ hjY hjX2 hjP hjr2 hjr3] <;>
  · simp only [_Rotate_LR,
      hNSP,
      Nleft,
      Nright,
      _Ptr,
      getN_setP,
      getN_setL,
      getN_setR,
      arena_setP,
      arena_setL,
      arena_setR,
      arena_ite,
      hZp,
      hZl,
      hYp,
      hYr,
      hXp,
      hXl,
      hXr,
      hPl,
      neg_sub,
      hsub3,
      hslot3,
      hsub2,
      hslot2,
      hZlen,
      hYlen,
      hX2len,
      hPlen,
      hr2len,
      hr3len,
      hZY,
      Ne.symm hZY,
      hZX2,
      Ne.symm hZX2,
      hZP,
      Ne.symm hZP,
      hZr2,
      Ne.symm hZr2,
      hZr3,
      Ne.symm hZr3,
      hYX2,
      Ne.symm hYX2,
      hYP,
      Ne.symm hYP,
      hYr2,
      Ne.symm hYr2,
      hYr3,
      Ne.symm hYr3,
      hX2P,
      Ne.symm hX2P,
      hX2r2,
      Ne.symm hX2r2,
      hX2r3,
      Ne.symm hX2r3,
      hPr2,
      Ne.symm hPr2,
      hPr3,
      Ne.symm hPr3,
      hr2r3,
      Ne.symm hr2r3,
      if_true,
      if_false,
      and_true,
      true_and,
      and_false,
      false_and,
      ite_true,
      ite_false,
      not_false_iff,
      ne_eq,
      not_true,
      INode.mk.injEq]
    try simp only [hjZ, hjY, hjX2, hjP, hjr2, hjr3, if_false, and_false, false_and, ite_false]
    try first
    | rfl
    | omega
    | (constructor <;> first | rfl | omega)

/-- Exact node contents after `_Rotate_LR` (P right case, `X` lacks a left subtree and lacks a right subtree). -/
theorem rotLR_P_right_ll (st : AvlState α) (Z Y X2 P : Int)
    (hZlen : Z.toNat < st.arena.length)
    (hYlen : Y.toNat < st.arena.length)
    (hX2len : X2.toNat < st.arena.length)
    (hPlen : P.toNat < st.arena.length)
    (hZY : Z.toNat ≠ Y.toNat)
    (hZX2 : Z.toNat ≠ X2.toNat)
    (hZP : Z.toNat ≠ P.toNat)
    (hYX2 : Y.toNat ≠ X2.toNat)
    (hYP : Y.toNat ≠ P.toNat)
    (hX2P : X2.toNat ≠ P.toNat)
    (hPZi : P ≠ Z)
    (hZp : (st.getN Z).parent = P - Z)
    (hPr : (st.getN P).right = Z - P)
    (hPlne : (st.getN P).left ≠ Z - P)
    (hZl : (st.getN Z).left = Y - Z)
    (hYp : (st.getN Y).parent = Z - Y)
    (hYr : (st.getN Y).right = X2 - Y)
    (hXp : (st.getN X2).parent = Y - X2)
    (hXl : (st.getN X2).left = 0)
    (hXr : (st.getN X2).right = 0) :
    (st._Rotate_LR Z Y X2).getN X2 = { st.getN X2 with parent := P - X2, left := Y - X2, right := Z - X2 } ∧
    (st._Rotate_LR Z Y X2).getN Y = { st.getN Y with parent := X2 - Y, right := 0 } ∧
    (st._Rotate_LR Z Y X2).getN Z = { st.getN Z with parent := X2 - Z, left := 0 } ∧
    (st._Rotate_LR Z Y X2).getN P = { st.getN P with right := X2 - P } ∧
    (∀ j : Int, j.toNat ≠ Z.toNat → j.toNat ≠ Y.toNat → j.toNat ≠ X2.toNat → j.toNat ≠ P.toNat →
      (st._Rotate_LR Z Y X2).getN j = st.getN j) := by
  have hNSP : st.NSafeParent Z = some P := by
    have h1 : P - Z ≠ 0 := sub_ne_zero_of_ne hPZi
    have h2 : Z + (P - Z) = P := by ring
    simp [NSafeParent, hZp, h1, _Ptr, h2]
  refine ⟨?_, ?_, ?_, ?_, ?_⟩ <;>
    [skip; skip; skip; skip; intro j hjZ hjY hjX2 hjP] <;>
  · simp only [_Rotate_LR,
      hNSP,
      Nleft,
      Nright,
      _Ptr,
      getN_setP,
      getN_setL,
      getN_setR,
      arena_setP,
      arena_setL,
      arena_setR,
      arena_ite,
      hZp,
      hZl,
      hYp,
      hYr,
      hXp,
      hXl,
      hXr,
      hPr,
      hPlne,
      neg_sub,
      hZlen,
      hYlen,
      hX2len,
      hPlen,
      hZY,
      Ne.symm hZY,
      hZX2,
      Ne.symm hZX2,
      hZP,
      Ne.symm hZP,
      hYX2,
      Ne.symm hYX2,
      hYP,
      Ne.symm hYP,
      hX2P,
      Ne.symm hX2P,
      if_true,
      if_false,
      and_true,
      true_and,
      and_false,
      false_and,
      ite_true,
      ite_false,
      not_false_iff,
      ne_eq,
      not_true,
      INode.mk.injEq]
    try simp only [hjZ, hjY, hjX2, hjP, if_false, and_false, false_and, ite_false]
    try first
    | rfl
    | omega
    | (constructor <;> first | rfl | omega)

/-- Exact node contents after `_Rotate_LR` (P right case, `X` lacks a left subtree and has a right subtree). -/
theorem rotLR_P_right_ln (st : AvlState α) (Z Y X2 P r3 : Int)
    (hZlen : Z.toNat < st.arena.length)
    (hYlen : Y.toNat < st.arena.length)
    (hX2len : X2.toNat < st.arena.length)
    (hPlen : P.toNat < st.arena.length)
    (hr3len : r3.toNat < st.arena.length)
    (hZY : Z.toNat ≠ Y.toNat)
    (hZX2 : Z.toNat ≠ X2.toNat)
    (hZP : Z.toNat ≠ P.toNat)
    (hZr3 : Z.toNat ≠ r3.toNat)
    (hYX2 : Y.toNat ≠ X2.toNat)
    (hYP : Y.toNat ≠ P.toNat)
    (hYr3 : Y.toNat ≠ r3.toNat)
    (hX2P : X2.toNat ≠ P.toNat)
    (hX2r3 : X2.toNat ≠ r3.toNat)
    (hPr3 : P.toNat ≠ r3.toNat)
    (hPZi : P ≠ Z)
    (hr3Xi : r3 ≠ X2)
    (hZp : (st.getN Z).parent = P - Z)
    (hPr : (st.getN P).right = Z - P)
    (hPlne : (st.getN P).left ≠ Z - P)
    (hZl : (st.getN Z).left = Y - Z)
    (hYp : (st.getN Y).parent = Z - Y)
    (hYr : (st.getN Y).right = X2 - Y)
    (hXp : (st.getN X2).parent = Y - X2)
    (hXl : (st.getN X2).left = 0)
    (hXr : (st.getN X2).right = r3 - X2) :
    (st._Rotate_LR Z Y X2).getN X2 = { st.getN X2 with parent := P - X2, left := Y - X2, right := Z - X2 } ∧
    (st._Rotate_LR Z Y X2).getN Y = { st.getN Y with parent := X2 - Y, right := 0 } ∧
    (st._Rotate_LR Z Y X2).getN Z = { st.getN Z with parent := X2 - Z, left := r3 - Z } ∧
    (st._Rotate_LR Z Y X2).getN r3 = { st.getN r3 with parent := Z - r3 } ∧
    (st._Rotate_LR Z Y X2).getN P = { st.getN P with right := X2 - P } ∧
    (∀ j : Int, j.toNat ≠ Z.toNat → j.toNat ≠ Y.toNat → j.toNat ≠ X2.toNat → j.toNat ≠ P.toNat → j.toNat ≠ r3.toNat →
      (st._Rotate_LR Z Y X2).getN j = st.getN j) := by
  have hNSP : st.NSafeParent Z = some P := by
    have h1 : P - Z ≠ 0 := sub_ne_zero_of_ne hPZi
    have h2 : Z + (P - Z) = P := by ring
    simp [NSafeParent, hZp, h1, _Ptr, h2]
  have hsub3 : r3 - X2 ≠ 0 := sub_ne_zero_of_ne hr3Xi
  have hslot3 : Z + ((X2 - Z) + (r3 - X2)) = r3 := by ring
  refine ⟨?_, ?_, ?_, ?_, ?_, ?_⟩ <;>
    [skip; skip; skip; skip; skip; intro j hjZ hjY hjX2 hjP hjr3] <;>
  · simp only [_Rotate_LR,
      hNSP,
      Nleft,
      Nright,
      _Ptr,
      getN_setP,
      getN_setL,
      getN_setR,
      arena_setP,
      arena_setL,
      arena_setR,
      arena_ite,
      hZp,
      hZl,
      hYp,
      hYr,
      hXp,
      hXl,
      hXr,
      hPr,
      hPlne,
      neg_sub,
      hsub3,
      hslot3,
      hZlen,
      hYlen,
      hX2len,
      hPlen,
      hr3len,
      hZY,
      Ne.symm hZY,
      hZX2,
      Ne.symm hZX2,
      hZP,
      Ne.symm hZP,
      hZr3,
      Ne.symm hZr3,
      hYX2,
      Ne.symm hYX2,
      hYP,
      Ne.symm hYP,
      hYr3,
      Ne.symm hYr3,
      hX2P,
      Ne.symm hX2P,
      hX2r3,
      Ne.symm hX2r3,
      hPr3,
      Ne.symm hPr3,
      if_true,
      if_false,
      and_true,
      true_and,
      and_false,
      false_and,
      ite_true,
      ite_false,
      not_false_iff,
      ne_eq,
      not_true,
      INode.mk.injEq]
    try simp only [hjZ, hjY, hjX2, hjP, hjr3, if_false, and_false, false_and, ite_false]
    try first
    | rfl
    | omega
    | (constructor <;> first | rfl | omega)

/-- Exact node contents after `_Rotate_LR` (P right case, `X` has a left subtree and lacks a right subtree). -/
theorem rotLR_P_right_nl (st : AvlState α) (Z Y X2 P r2 : Int)
    (hZlen : Z.toNat < st.arena.length)
    (hYlen : Y.toNat < st.arena.length)
    (hX2len : X2.toNat < st.arena.length)
    (hPlen : P.toNat < st.arena.length)
    (hr2len : r2.toNat < st.arena.length)
    (hZY : Z.toNat ≠ Y.toNat)
    (hZX2 : Z.toNat ≠ X2.toNat)
    (hZP : Z.toNat ≠ P.toNat)
    (hZr2 : Z.toNat ≠ r2.toNat)
    (hYX2 : Y.toNat ≠ X2.toNat)
    (hYP : Y.toNat ≠ P.toNat)
    (hYr2 : Y.toNat ≠ r2.toNat)
    (hX2P : X2.toNat ≠ P.toNat)
    (hX2r2 : X2.toNat ≠ r2.toNat)
    (hPr2 : P.toNat ≠ r2.toNat)
    (hPZi : P ≠ Z)
    (hr2Xi : r2 ≠ X2)
    (hZp : (st.getN Z).parent = P - Z)
    (hPr : (st.getN P).right = Z - P)
    (hPlne : (st.getN P).left ≠ Z - P)
    (hZl : (st.getN Z).left = Y - Z)
    (hYp : (st.getN Y).parent = Z - Y)
    (hYr : (st.getN Y).right = X2 - Y)
    (hXp : (st.getN X2).parent = Y - X2)
    (hXl : (st.getN X2).left = r2 - X2)
    (hXr : (st.getN X2).right = 0) :
    (st._Rotate_LR Z Y X2).getN X2 = { st.getN X2 with parent := P - X2, left := Y - X2, right := Z - X2 } ∧
    (st._Rotate_LR Z Y X2).getN Y = { st.getN Y with parent := X2 - Y, right := r2 - Y } ∧
    (st._Rotate_LR Z Y X2).getN Z = { st.getN Z with parent := X2 - Z, left := 0 } ∧
    (st._Rotate_LR Z Y X2).getN r2 = { st.getN r2 with parent := Y - r2 } ∧
    (st._Rotate_LR Z Y X2).getN P = { st.getN P with right := X2 - P } ∧
    (∀ j : Int, j.toNat ≠ Z.toNat → j.toNat ≠ Y.toNat → j.toNat ≠ X2.toNat → j.toNat ≠ P.toNat → j.toNat ≠ r2.toNat →
      (st._Rotate_LR Z Y X2).getN j = st.getN j) := by
  have hNSP : st.NSafeParent Z = some P := by
    have h1 : P - Z ≠ 0 := sub_ne_zero_of_ne hPZi
    have h2 : Z + (P - Z) = P := by ring
    simp [NSafeParent, hZp, h1, _Ptr, h2]
  have hsub2 : r2 - X2 ≠ 0 := sub_ne_zero_of_ne hr2Xi
  have hslot2 : Y + ((X2 - Y) + (r2 - X2)) = r2 := by ring
  refine ⟨?_, ?_, ?_, ?_, ?_, ?_⟩ <;>
    [skip; skip; skip; skip; skip; intro j hjZ hjY hjX2 hjP hjr2] <;>
  · simp only [_Rotate_LR,
      hNSP,
      Nleft,
      Nright,
      _Ptr,
      getN_setP,
      getN_setL,
      getN_setR,
      arena_setP,
      arena_setL,
      arena_setR,
      arena_ite,
      hZp,
      hZl,
      hYp,
      hYr,
      hXp,
      hXl,
      hXr,
      hPr,
      hPlne,
      neg_sub,
      hsub2,
      hslot2,
      hZlen,
      hYlen,
      hX2len,
      hPlen,
      hr2len,
      hZY,
      Ne.symm hZY,
      hZX2,
      Ne.symm hZX2,
      hZP,
      Ne.symm hZP,
      hZr2,
      Ne.symm hZr2,
      hYX2,
      Ne.symm hYX2,
      hYP,
      Ne.symm hYP,
      hYr2,
      Ne.symm hYr2,
      hX2P,
      Ne.symm hX2P,
      hX2r2,
      Ne.symm hX2r2,
      hPr2,
      Ne.symm hPr2,
      if_true,
      if_false,
      and_true,
      true_and,
      and_false,
      false_and,
      ite_true,
      ite_false,
      not_false_iff,
      ne_eq,
      not_true,
      INode.mk.injEq]
    try simp only [hjZ, hjY, hjX2, hjP, hjr2, if_false, and_false, false_and, ite_false]
    try first
    | rfl
    | omega
    | (constructor <;> first | rfl | omega)

/-- Exact node contents after `_Rotate_LR` (P right case, `X` has a left subtree and has a right subtree). -/
theorem rotLR_P_right_nn (st : AvlState α) (Z Y X2 P r2 r3 : Int)
    (hZlen : Z.toNat < st.arena.length)
    (hYlen : Y.toNat < st.arena.length)
    (hX2len : X2.toNat < st.arena.length)
    (hPlen : P.toNat < st.arena.length)
    (hr2len : r2.toNat < st.arena.length)
    (hr3len : r3.toNat < st.arena.length)
    (hZY : Z.toNat ≠ Y.toNat)
    (hZX2 : Z.toNat ≠ X2.toNat)
    (hZP : Z.toNat ≠ P.toNat)
    (hZr2 : Z.toNat ≠ r2.toNat)
    (hZr3 : Z.toNat ≠ r3.toNat)
    (hYX2 : Y.toNat ≠ X2.toNat)
    (hYP : Y.toNat ≠ P.toNat)
    (hYr2 : Y.toNat ≠ r2.toNat)
    (hYr3 : Y.toNat ≠ r3.toNat)
    (hX2P : X2.toNat ≠ P.toNat)
    (hX2r2 : X2.toNat ≠ r2.toNat)
    (hX2r3 : X2.toNat ≠ r3.toNat)
    (hPr2 : P.toNat ≠ r2.toNat)
    (hPr3 : P.toNat ≠ r3.toNat)
    (hr2r3 : r2.toNat ≠ r3.toNat)
    (hPZi : P ≠ Z)
    (hr2Xi : r2 ≠ X2)
    (hr3Xi : r3 ≠ X2)
    (hZp : (st.getN Z).parent = P - Z)
    (hPr : (st.getN P).right = Z - P)
    (hPlne : (st.getN P).left ≠ Z - P)
    (hZl : (st.getN Z).left = Y - Z)
    (hYp : (st.getN Y).parent = Z - Y)
    (hYr : (st.getN Y).right = X2 - Y)
    (hXp : (st.getN X2).parent = Y - X2)
    (hXl : (st.getN X2).left = r2 - X2)
    (hXr : (st.getN X2).right = r3 - X2) :
    (st._Rotate_LR Z Y X2).getN X2 = { st.getN X2 with parent := P - X2, left := Y - X2, right := Z - X2 } ∧
    (st._Rotate_LR Z Y X2).getN Y = { st.getN Y with parent := X2 - Y, right := r2 - Y } ∧
    (st._Rotate_LR Z Y X2).getN Z = { st.getN Z with parent := X2 - Z, left := r3 - Z } ∧
    (st._Rotate_LR Z Y X2).getN r2 = { st.getN r2 with parent := Y - r2 } ∧
    (st._Rotate_LR Z Y X2).getN r3 = { st.getN r3 with parent := Z - r3 } ∧
    (st._Rotate_LR Z Y X2).getN P = { st.getN P with right := X2 - P } ∧
    (∀ j : Int, j.toNat ≠ Z.toNat → j.toNat ≠ Y.toNat → j.toNat ≠ X2.toNat → j.toNat ≠ P.toNat → j.toNat ≠ r2.toNat → j.toNat ≠ r3.toNat →
      (st._Rotate_LR Z Y X2).getN j = st.getN j) := by
  have hNSP : st.NSafeParent Z = some P := by
    have h1 : P - Z ≠ 0 := sub_ne_zero_of_ne hPZi
    have h2 : Z + (P - Z) = P := by ring
    simp [NSafeParent, hZp, h1, _Ptr, h2]
  have hsub3 : r3 - X2 ≠ 0 := sub_ne_zero_of_ne hr3Xi
  have hslot3 : Z + ((X2 - Z) + (r3 - X2)) = r3 := by ring
  have hsub2 : r2 - X2 ≠ 0 := sub_ne_zero_of_ne hr2Xi
  have hslot2 : Y + ((X2 - Y) + (r2 - X2)) = r2 := by ring
  refine ⟨?_, ?_, ?_, ?_, ?_, ?_, ?_⟩ <;>
    [skip; skip; skip; skip; skip; skip; intro j hjZ hjY hjX2 hjP hjr2 hjr3] <;>
  · simp only [_Rotate_LR,
      hNSP,
      Nleft,
      Nright,
      _Ptr,
      getN_setP,
      getN_setL,
      getN_setR,
      arena_setP,
      arena_setL,
      arena_setR,
      arena_ite,
      hZp,
      hZl,
      hYp,
      hYr,
      hXp,
      hXl,
      hXr,
      hPr,
      hPlne,
      neg_sub,
      hsub3,
      hslot3,
      hsub2,
      hslot2,
      hZlen,
      hYlen,
      hX2len,
      hPlen,
      hr2len,
      hr3len,
      hZY,
      Ne.symm hZY,
      hZX2,
      Ne.symm hZX2,
      hZP,
      Ne.symm hZP,
      hZr2,
      Ne.symm hZr2,
      hZr3,
      Ne.symm hZr3,
      hYX2,
      Ne.symm hYX2,
      hYP,
      Ne.symm hYP,
      hYr2,
      Ne.symm hYr2,
      hYr3,
      Ne.symm hYr3,
      hX2P,
      Ne.symm hX2P,
      hX2r2,
      Ne.symm hX2r2,
      hX2r3,
      Ne.symm hX2r3,
      hPr2,
      Ne.symm hPr2,
      hPr3,
      Ne.symm hPr3,
      hr2r3,
      Ne.symm hr2r3,
      if_true,
      if_false,
      and_true,
      true_and,
      and_false,
      false_and,
      ite_true,
      ite_false,
      not_false_iff,
      ne_eq,
      not_true,
      INode.mk.injEq]
    try simp only [hjZ, hjY, hjX2, hjP, hjr2, hjr3, if_false, and_false, false_and, ite_false]
    try first
    | rfl
    | omega
    | (constructor <;> first | rfl | omega)

end AvlVerif

end IndexedSet
namespace IndexedSet

open AvlState

namespace AvlVerif

variable {α : Type} [Inhabited α]


/-- Exact node contents after `_Rotate_RL` (root case, `X` lacks a left subtree and lacks a right subtree). -/
theorem rotRL_root_ll (st : AvlState α) (Z Y X2 : Int)
    (hZlen : Z.toNat < st.arena.length)
    (hYlen : Y.toNat < st.arena.length)
    (hX2len : X2.toNat < st.arena.length)
    (hZY : Z.toNat ≠ Y.toNat)
    (hZX2 : Z.toNat ≠ X2.toNat)
    (hYX2 : Y.toNat ≠ X2.toNat)
    (hZp : (st.getN Z).parent = 0)
    (hZr : (st.getN Z).right = Y - Z)
    (hYp : (st.getN Y).parent = Z - Y)
    (hYl : (st.getN Y).left = X2 - Y)
    (hXp : (st.getN X2).parent = Y - X2)
    (hXl : (st.getN X2).left = 0)
    (hXr : (st.getN X2).right = 0) :
    (st._Rotate_RL Z Y X2).getN X2 = { st.getN X2 with parent := 0, left := Z - X2, right := Y - X2 } ∧
    (st._Rotate_RL Z Y X2).getN Z = { st.getN Z with parent := X2 - Z, right := 0 } ∧
    (st._Rotate_RL Z Y X2).getN Y = { st.getN Y with parent := X2 - Y, left := 0 } ∧
    (∀ j : Int, j.toNat ≠ Z.toNat → j.toNat ≠ Y.toNat → j.toNat ≠ X2.toNat →
      (st._Rotate_RL Z Y X2).getN j = st.getN j) := by
  have hNSP : st.NSafeParent Z = Option.none := by
    simp [NSafeParent, hZp]
  refine ⟨?_, ?_, ?_, ?_⟩ <;>
    [skip; skip; skip; intro j hjZ hjY hjX2] <;>
  · simp only [_Rotate_RL,
      hNSP,
      Nleft,
      Nright,
      _Ptr,
      getN_setP,
      getN_setL,
      getN_setR,
      arena_setP,
      arena_setL,
      arena_setR,
      arena_ite,
      hZp,
      hZr,
      hYp,
      hYl,
      hXp,
      hXl,
      hXr,
      neg_sub,
      hZlen,
      hYlen,
      hX2len,
      hZY,
      Ne.symm hZY,
      hZX2,
      Ne.symm hZX2,
      hYX2,
      Ne.symm hYX2,
      if_true,
      if_false,
      and_true,
      true_and,
      and_false,
      false_and,
      ite_true,
      ite_false,
      not_false_iff,
      ne_eq,
      not_true,
      INode.mk.injEq]
    try simp only [hjZ, hjY, hjX2, if_false, and_false, false_and, ite_false]
    try first
    | rfl
    | omega
    | (constructor <;> first | rfl | omega)

/-- Exact node contents after `_Rotate_RL` (root case, `X` lacks a left subtree and has a right subtree). -/
theorem rotRL_root_ln (st : AvlState α) (Z Y X2 r3 : Int)
    (hZlen : Z.toNat < st.arena.length)
    (hYlen : Y.toNat < st.arena.length)
    (hX2len : X2.toNat < st.arena.length)
    (hr3len : r3.toNat < st.arena.length)
    (hZY : Z.toNat ≠ Y.toNat)
    (hZX2 : Z.toNat ≠ X2.toNat)
    (hZr3 : Z.toNat ≠ r3.toNat)
    (hYX2 : Y.toNat ≠ X2.toNat)
    (hYr3 : Y.toNat ≠ r3.toNat)
    (hX2r3 : X2.toNat ≠ r3.toNat)
    (hr3Xi : r3 ≠ X2)
    (hZp : (st.getN Z).parent = 0)
    (hZr : (st.getN Z).right = Y - Z)
    (hYp : (st.getN Y).parent = Z - Y)
    (hYl : (st.getN Y).left = X2 - Y)
    (hXp : (st.getN X2).parent = Y - X2)
    (hXl : (st.getN X2).left = 0)
    (hXr : (st.getN X2).right = r3 - X2) :
    (st._Rotate_RL Z Y X2).getN X2 = { st.getN X2 with parent := 0, left := Z - X2, right := Y - X2 } ∧
    (st._Rotate_RL Z Y X2).getN Z = { st.getN Z with parent := X2 - Z, right := 0 } ∧
    (st._Rotate_RL Z Y X2).getN Y = { st.getN Y with parent := X2 - Y, left := r3 - Y } ∧
    (st._Rotate_RL Z Y X2).getN r3 = { st.getN r3 with parent := Y - r3 } ∧
    (∀ j : Int, j.toNat ≠ Z.toNat → j.toNat ≠ Y.toNat → j.toNat ≠ X2.toNat → j.toNat ≠ r3.toNat →
      (st._Rotate_RL Z Y X2).getN j = st.getN j) := by
  have hNSP : st.NSafeParent Z = Option.none := by
    simp [NSafeParent, hZp]
  have hsub3 : r3 - X2 ≠ 0 := sub_ne_zero_of_ne hr3Xi
  have hslot3 : Y + ((X2 - Y) + (r3 - X2)) = r3 := by ring
  refine ⟨?_, ?_, ?_, ?_, ?_⟩ <;>
    [skip; skip; skip; skip; intro j hjZ hjY hjX2 hjr3] <;>
  · simp only [_Rotate_RL,
      hNSP,
      Nleft,
      Nright,
      _Ptr,
      getN_setP,
      getN_setL,
      getN_setR,
      arena_setP,
      arena_setL,
      arena_setR,
      arena_ite,
      hZp,
      hZr,
      hYp,
      hYl,
      hXp,
      hXl,
      hXr,
      neg_sub,
      hsub3,
      hslot3,
      hZlen,
      hYlen,
      hX2len,
      hr3len,
      hZY,
      Ne.symm hZY,
      hZX2,
      Ne.symm hZX2,
      hZr3,
      Ne.symm hZr3,
      hYX2,
      Ne.symm hYX2,
      hYr3,
      Ne.symm hYr3,
      hX2r3,
      Ne.symm hX2r3,
      if_true,
      if_false,
      and_true,
      true_and,
      and_false,
      false_and,
      ite_true,
      ite_false,
      not_false_iff,
      ne_eq,
      not_true,
      INode.mk.injEq]
    try simp only [hjZ, hjY, hjX2, hjr3, if_false, and_false, false_and, ite_false]
    try first
    | rfl
    | omega
    | (constructor <;> first | rfl | omega)

/-- Exact node contents after `_Rotate_RL` (root case, `X` has a left subtree and lacks a right subtree). -/
theorem rotRL_root_nl (st : AvlState α) (Z Y X2 r2 : Int)
    (hZlen : Z.toNat < st.arena.length)
    (hYlen : Y.toNat < st.arena.length)
    (hX2len : X2.toNat < st.arena.length)
    (hr2len : r2.toNat < st.arena.length)
    (hZY : Z.toNat ≠ Y.toNat)
    (hZX2 : Z.toNat ≠ X2.toNat)
    (hZr2 : Z.toNat ≠ r2.toNat)
    (hYX2 : Y.toNat ≠ X2.toNat)
    (hYr2 : Y.toNat ≠ r2.toNat)
    (hX2r2 : X2.toNat ≠ r2.toNat)
    (hr2Xi : r2 ≠ X2)
    (hZp : (st.getN Z).parent = 0)
    (hZr : (st.getN Z).right = Y - Z)
    (hYp : (st.getN Y).parent = Z - Y)
    (hYl : (st.getN Y).left = X2 - Y)
    (hXp : (st.getN X2).parent = Y - X2)
    (hXl : (st.getN X2).left = r2 - X2)
    (hXr : (st.getN X2).right = 0) :
    (st._Rotate_RL Z Y X2).getN X2 = { st.getN X2 with parent := 0, left := Z - X2, right := Y - X2 } ∧
    (st._Rotate_RL Z Y X2).getN Z = { st.getN Z with parent := X2 - Z, right := r2 - Z } ∧
    (st._Rotate_RL Z Y X2).getN Y = { st.getN Y with parent := X2 - Y, left := 0 } ∧
    (st._Rotate_RL Z Y X2).getN r2 = { st.getN r2 with parent := Z - r2 } ∧
    (∀ j : Int, j.toNat ≠ Z.toNat → j.toNat ≠ Y.toNat → j.toNat ≠ X2.toNat → j.toNat ≠ r2.toNat →
      (st._Rotate_RL Z Y X2).getN j = st.getN j) := by
  have hNSP : st.NSafeParent Z = Option.none := by
    simp [NSafeParent, hZp]
  have hsub2 : r2 - X2 ≠ 0 := sub_ne_zero_of_ne hr2Xi
  have hslot2 : Z + ((X2 - Z) + (r2 - X2)) = r2 := by ring
  refine ⟨?_, ?_, ?_, ?_, ?_⟩ <;>
    [skip; skip; skip; skip; intro j hjZ hjY hjX2 hjr2] <;>
  · simp only [_Rotate_RL,
      hNSP,
      Nleft,
      Nright,
      _Ptr,
      getN_setP,
      getN_setL,
      getN_setR,
      arena_setP,
      arena_setL,
      arena_setR,
      arena_ite,
      hZp,
      hZr,
      hYp,
      hYl,
      hXp,
      hXl,
      hXr,
      neg_sub,
      hsub2,
      hslot2,
      hZlen,
      hYlen,
      hX2len,
      hr2len,
      hZY,
      Ne.symm hZY,
      hZX2,
      Ne.symm hZX2,
      hZr2,
      Ne.symm hZr2,
      hYX2,
      Ne.symm hYX2,
      hYr2,
      Ne.symm hYr2,
      hX2r2,
      Ne.symm hX2r2,
      if_true,
      if_false,
      and_true,
      true_and,
      and_false,
      false_and,
      ite_true,
      ite_false,
      not_false_iff,
      ne_eq,
      not_true,
      INode.mk.injEq]
    try simp only [hjZ, hjY, hjX2, hjr2, if_false, and_false, false_and, ite_false]
    try first
    | rfl
    | omega
    | (constructor <;> first | rfl | omega)

/-- Exact node contents after `_Rotate_RL` (root case, `X` has a left subtree and has a right subtree). -/
theorem rotRL_root_nn (st : AvlState α) (Z Y X2 r2 r3 : Int)
    (hZlen : Z.toNat < st.arena.length)
    (hYlen : Y.toNat < st.arena.length)
    (hX2len : X2.toNat < st.arena.length)
    (hr2len : r2.toNat < st.arena.length)
    (hr3len : r3.toNat < st.arena.length)
    (hZY : Z.toNat ≠ Y.toNat)
    (hZX2 : Z.toNat ≠ X2.toNat)
    (hZr2 : Z.toNat ≠ r2.toNat)
    (hZr3 : Z.toNat ≠ r3.toNat)
    (hYX2 : Y.toNat ≠ X2.toNat)
    (hYr2 : Y.toNat ≠ r2.toNat)
    (hYr3 : Y.toNat ≠ r3.toNat)
    (hX2r2 : X2.toNat ≠ r2.toNat)
    (hX2r3 : X2.toNat ≠ r3.toNat)
    (hr2r3 : r2.toNat ≠ r3.toNat)
    (hr2Xi : r2 ≠ X2)
    (hr3Xi : r3 ≠ X2)
    (hZp : (st.getN Z).parent = 0)
    (hZr : (st.getN Z).right = Y - Z)
    (hYp : (st.getN Y).parent = Z - Y)
    (hYl : (st.getN Y).left = X2 - Y)
    (hXp : (st.getN X2).parent = Y - X2)
    (hXl : (st.getN X2).left = r2 - X2)
    (hXr : (st.getN X2).right = r3 - X2) :
    (st._Rotate_RL Z Y X2).getN X2 = { st.getN X2 with parent := 0, left := Z - X2, right := Y - X2 } ∧
    (st._Rotate_RL Z Y X2).getN Z = { st.getN Z with parent := X2 - Z, right := r2 - Z } ∧
    (st._Rotate_RL Z Y X2).getN Y = { st.getN Y with parent := X2 - Y, left := r3 - Y } ∧
    (st._Rotate_RL Z Y X2).getN r2 = { st.getN r2 with parent := Z - r2 } ∧
    (st._Rotate_RL Z Y X2).getN r3 = { st.getN r3 with parent := Y - r3 } ∧
    (∀ j : Int, j.toNat ≠ Z.toNat → j.toNat ≠ Y.toNat → j.toNat ≠ X2.toNat → j.toNat ≠ r2.toNat → j.toNat ≠ r3.toNat →
      (st._Rotate_RL Z Y X2).getN j = st.getN j) := by
  have hNSP : st.NSafeParent Z = Option.none := by
    simp [NSafeParent, hZp]
  have hsub2 : r2 - X2 ≠ 0 := sub_ne_zero_of_ne hr2Xi
  have hslot2 : Z + ((X2 - Z) + (r2 - X2)) = r2 := by ring
  have hsub3 : r3 - X2 ≠ 0 := sub_ne_zero_of_ne hr3Xi
  have hslot3 : Y + ((X2 - Y) + (r3 - X2)) = r3 := by ring
  refine ⟨?_, ?_, ?_, ?_, ?_, ?_⟩ <;>
    [skip; skip; skip; skip; skip; intro j hjZ hjY hjX2 hjr2 hjr3] <;>
  · simp only [_Rotate_RL,
      hNSP,
      Nleft,
      Nright,
      _Ptr,
      getN_setP,
      getN_setL,
      getN_setR,
      arena_setP,
      arena_setL,
      arena_setR,
      arena_ite,
      hZp,
      hZr,
      hYp,
      hYl,
      hXp,
      hXl,
      hXr,
      neg_sub,
      hsub2,
      hslot2,
      hsub3,
      hslot3,
      hZlen,
      hYlen,
      hX2len,
      hr2len,
      hr3len,
      hZY,
      Ne.symm hZY,
      hZX2,
      Ne.symm hZX2,
      hZr2,
      Ne.symm hZr2,
      hZr3,
      Ne.symm hZr3,
      hYX2,
      Ne.symm hYX2,
      hYr2,
      Ne.symm hYr2,
      hYr3,
      Ne.symm hYr3,
      hX2r2,
      Ne.symm hX2r2,
      hX2r3,
      Ne.symm hX2r3,
      hr2r3,
      Ne.symm hr2r3,
      if_true,
      if_false,
      and_true,
      true_and,
      and_false,
      false_and,
      ite_true,
      ite_false,
      not_false_iff,
      ne_eq,
      not_true,
      INode.mk.injEq]
    try simp only [hjZ, hjY, hjX2, hjr2, hjr3, if_false, and_false, false_and, ite_false]
    try first
    | rfl
    | omega
    | (constructor <;> first | rfl | omega)

/-- Exact node contents after `_Rotate_RL` (P left case, `X` lacks a left subtree and lacks a right subtree). -/
theorem rotRL_P_left_ll (st : AvlState α) (Z Y X2 P : Int)
    (hZlen : Z.toNat < st.arena.length)
    (hYlen : Y.toNat < st.arena.length)
    (hX2len : X2.toNat < st.arena.length)
    (hPlen : P.toNat < st.arena.length)
    (hZY : Z.toNat ≠ Y.toNat)
    (hZX2 : Z.toNat ≠ X2.toNat)
    (hZP : Z.toNat ≠ P.toNat)
    (hYX2 : Y.toNat ≠ X2.toNat)
    (hYP : Y.toNat ≠ P.toNat)
    (hX2P : X2.toNat ≠ P.toNat)
    (hPZi : P ≠ Z)
    (hZp : (st.getN Z).parent = P - Z)
    (hPl : (st.getN P).left = Z - P)
    (hZr : (st.getN Z).right = Y - Z)
    (hYp : (st.getN Y).parent = Z - Y)
    (hYl : (st.getN Y).left = X2 - Y)
    (hXp : (st.getN X2).parent = Y - X2)
    (hXl : (st.getN X2).left = 0)
    (hXr : (st.getN X2).right = 0) :
    (st._Rotate_RL Z Y X2).getN X2 = { st.getN X2 with parent := P - X2, left := Z - X2, right := Y - X2 } ∧
    (st._Rotate_RL Z Y X2).getN Z = { st.getN Z with parent := X2 - Z, right := 0 } ∧
    (st._Rotate_RL Z Y X2).getN Y = { st.getN Y with parent := X2 - Y, left := 0 } ∧
    (st._Rotate_RL Z Y X2).getN P = { st.getN P with left := X2 - P } ∧
    (∀ j : Int, j.toNat ≠ Z.toNat → j.toNat ≠ Y.toNat → j.toNat ≠ X2.toNat → j.toNat ≠ P.toNat →
      (st._Rotate_RL Z Y X2).getN j = st.getN j) := by
  have hNSP : st.NSafeParent Z = some P := by
    have h1 : P - Z ≠ 0 := sub_ne_zero_of_ne hPZi
    have h2 : Z + (P - Z) = P := by ring
    simp [NSafeParent, hZp, h1, _Ptr, h2]
  refine ⟨?_, ?_, ?_, ?_, ?_⟩ <;>
    [skip; skip; skip; skip; intro j hjZ hjY hjX2 hjP] <;>
  · simp only [_Rotate_RL,
      hNSP,
      Nleft,
      Nright,
      _Ptr,
      getN_setP,
      getN_setL,
      getN_setR,
      arena_setP,
      arena_setL,
      arena_setR,
      arena_ite,
      hZp,
      hZr,
      hYp,
      hYl,
      hXp,
      hXl,
      hXr,
      hPl,
      neg_sub,
      hZlen,
      hYlen,
      hX2len,
      hPlen,
      hZY,
      Ne.symm hZY,
      hZX2,
      Ne.symm hZX2,
      hZP,
      Ne.symm hZP,
      hYX2,
      Ne.symm hYX2,
      hYP,
      Ne.symm hYP,
      hX2P,
      Ne.symm hX2P,
      if_true,
      if_false,
      and_true,
      true_and,
      and_false,
      false_and,
      ite_true,
      ite_false,
      not_false_iff,
      ne_eq,
      not_true,
      INode.mk.injEq]
    try simp only [hjZ, hjY, hjX2, hjP, if_false, and_false, false_and, ite_false]
    try first
    | rfl
    | omega
    | (constructor <;> first | rfl | omega)

/-- Exact node contents after `_Rotate_RL` (P left case, `X` lacks a left subtree and has a right subtree). -/
theorem rotRL_P_left_ln (st : AvlState α) (Z Y X2 P r3 : Int)
    (hZlen : Z.toNat < st.arena.length)
    (hYlen : Y.toNat < st.arena.length)
    (hX2len : X2.toNat < st.arena.length)
    (hPlen : P.toNat < st.arena.length)
    (hr3len : r3.toNat < st.arena.length)
    (hZY : Z.toNat ≠ Y.toNat)
    (hZX2 : Z.toNat ≠ X2.toNat)
    (hZP : Z.toNat ≠ P.toNat)
    (hZr3 : Z.toNat ≠ r3.toNat)
    (hYX2 : Y.toNat ≠ X2.toNat)
    (hYP : Y.toNat ≠ P.toNat)
    (hYr3 : Y.toNat ≠ r3.toNat)
    (hX2P : X2.toNat ≠ P.toNat)
    (hX2r3 : X2.toNat ≠ r3.toNat)
    (hPr3 : P.toNat ≠ r3.toNat)
    (hPZi : P ≠ Z)
    (hr3Xi : r3 ≠ X2)
    (hZp : (st.getN Z).parent = P - Z)
    (hPl : (st.getN P).left = Z - P)
    (hZr : (st.getN Z).right = Y - Z)
    (hYp : (st.getN Y).parent = Z - Y)
    (hYl : (st.getN Y).left = X2 - Y)
    (hXp : (st.getN X2).parent = Y - X2)
    (hXl : (st.getN X2).left = 0)
    (hXr : (st.getN X2).right = r3 - X2) :
    (st._Rotate_RL Z Y X2).getN X2 = { st.getN X2 with parent := P - X2, left := Z - X2, right := Y - X2 } ∧
    (st._Rotate_RL Z Y X2).getN Z = { st.getN Z with parent := X2 - Z, right := 0 } ∧
    (st._Rotate_RL Z Y X2).getN Y = { st.getN Y with parent := X2 - Y, left := r3 - Y } ∧
    (st._Rotate_RL Z Y X2).getN r3 = { st.getN r3 with parent := Y - r3 } ∧
    (st._Rotate_RL Z Y X2).getN P = { st.getN P with left := X2 - P } ∧
    (∀ j : Int, j.toNat ≠ Z.toNat → j.toNat ≠ Y.toNat → j.toNat ≠ X2.toNat → j.toNat ≠ P.toNat → j.toNat ≠ r3.toNat →
      (st._Rotate_RL Z Y X2).getN j = st.getN j) := by
  have hNSP : st.NSafeParent Z = some P := by
    have h1 : P - Z ≠ 0 := sub_ne_zero_of_ne hPZi
    have h2 : Z + (P - Z) = P := by ring
    simp [NSafeParent, hZp, h1, _Ptr, h2]
  have hsub3 : r3 - X2 ≠ 0 := sub_ne_zero_of_ne hr3Xi
  have hslot3 : Y + ((X2 - Y) + (r3 - X2)) = r3 := by ring
  refine ⟨?_, ?_, ?_, ?_, ?_, ?_⟩ <;>
    [skip; skip; skip; skip; skip; intro j hjZ hjY hjX2 hjP hjr3] <;>
  · simp only [_Rotate_RL,
      hNSP,
      Nleft,
      Nright,
      _Ptr,
      getN_setP,
      getN_setL,
      getN_setR,
      arena_setP,
      arena_setL,
      arena_setR,
      arena_ite,
      hZp,
      hZr,
      hYp,
      hYl,
      hXp,
      hXl,
      hXr,
      hPl,
      neg_sub,
      hsub3,
      hslot3,
      hZlen,
      hYlen,
      hX2len,
      hPlen,
      hr3len,
      hZY,
      Ne.symm hZY,
      hZX2,
      Ne.symm hZX2,
      hZP,
      Ne.symm hZP,
      hZr3,
      Ne.symm hZr3,
      hYX2,
      Ne.symm hYX2,
      hYP,
      Ne.symm hYP,
      hYr3,
      Ne.symm hYr3,
      hX2P,
      Ne.symm hX2P,
      hX2r3,
      Ne.symm hX2r3,
      hPr3,
      Ne.symm hPr3,
      if_true,
      if_false,
      and_true,
      true_and,
      and_false,
      false_and,
      ite_true,
      ite_false,
      not_false_iff,
      ne_eq,
      not_true,
      INode.mk.injEq]
    try simp only [hjZ, hjY, hjX2, hjP, hjr3, if_false, and_false, false_and, ite_false]
    try first
    | rfl
    | omega
    | (constructor <;> first | rfl | omega)

/-- Exact node contents after `_Rotate_RL` (P left case, `X` has a left subtree and lacks a right subtree). -/
theorem rotRL_P_left_nl (st : AvlState α) (Z Y X2 P r2 : Int)
    (hZlen : Z.toNat < st.arena.length)
    (hYlen : Y.toNat < st.arena.length)
    (hX2len : X2.toNat < st.arena.length)
    (hPlen : P.toNat < st.arena.length)
    (hr2len : r2.toNat < st.arena.length)
    (hZY : Z.toNat ≠ Y.toNat)
    (hZX2 : Z.toNat ≠ X2.toNat)
    (hZP : Z.toNat ≠ P.toNat)
    (hZr2 : Z.toNat ≠ r2.toNat)
    (hYX2 : Y.toNat ≠ X2.toNat)
    (hYP : Y.toNat ≠ P.toNat)
    (hYr2 : Y.toNat ≠ r2.toNat)
    (hX2P : X2.toNat ≠ P.toNat)
    (hX2r2 : X2.toNat ≠ r2.toNat)
    (hPr2 : P.toNat ≠ r2.toNat)
    (hPZi : P ≠ Z)
    (hr2Xi : r2 ≠ X2)
    (hZp : (st.getN Z).parent = P - Z)
    (hPl : (st.getN P).left = Z - P)
    (hZr : (st.getN Z).right = Y - Z)
    (hYp : (st.getN Y).parent = Z - Y)
    (hYl : (st.getN Y).left = X2 - Y)
    (hXp : (st.getN X2).parent = Y - X2)
    (hXl : (st.getN X2).left = r2 - X2)
    (hXr : (st.getN X2).right = 0) :
    (st._Rotate_RL Z Y X2).getN X2 = { st.getN X2 with parent := P - X2, left := Z - X2, right := Y - X2 } ∧
    (st._Rotate_RL Z Y X2).getN Z = { st.getN Z with parent := X2 - Z, right := r2 - Z } ∧
    (st._Rotate_RL Z Y X2).getN Y = { st.getN Y with parent := X2 - Y, left := 0 } ∧
    (st._Rotate_RL Z Y X2).getN r2 = { st.getN r2 with parent := Z - r2 } ∧
    (st._Rotate_RL Z Y X2).getN P = { st.getN P with left := X2 - P } ∧
    (∀ j : Int, j.toNat ≠ Z.toNat → j.toNat ≠ Y.toNat → j.toNat ≠ X2.toNat → j.toNat ≠ P.toNat → j.toNat ≠ r2.toNat →
      (st._Rotate_RL Z Y X2).getN j = st.getN j) := by
  have hNSP : st.NSafeParent Z = some P := by
    have h1 : P - Z ≠ 0 := sub_ne_zero_of_ne hPZi
    have h2 : Z + (P - Z) = P := by ring
    simp [NSafeParent, hZp, h1, _Ptr, h2]
  have hsub2 : r2 - X2 ≠ 0 := sub_ne_zero_of_ne hr2Xi
  have hslot2 : Z + ((X2 - Z) + (r2 - X2)) = r2 := by ring
  refine ⟨?_, ?_, ?_, ?_, ?_, ?_⟩ <;>
    [skip; skip; skip; skip; skip; intro j hjZ hjY hjX2 hjP hjr2] <;>
  · simp only [_Rotate_RL,
      hNSP,
      Nleft,
      Nright,
      _Ptr,
      getN_setP,
      getN_setL,
      getN_setR,
      arena_setP,
      arena_setL,
      arena_setR,
      arena_ite,
      hZp,
      hZr,
      hYp,
      hYl,
      hXp,
      hXl,
      hXr,
      hPl,
      neg_sub,
      hsub2,
      hslot2,
      hZlen,
      hYlen,
      hX2len,
      hPlen,
      hr2len,
      hZY,
      Ne.symm hZY,
      hZX2,
      Ne.symm hZX2,
      hZP,
      Ne.symm hZP,
      hZr2,
      Ne.symm hZr2,
      hYX2,
      Ne.symm hYX2,
      hYP,
      Ne.symm hYP,
      hYr2,
      Ne.symm hYr2,
      hX2P,
      Ne.symm hX2P,
      hX2r2,
      Ne.symm hX2r2,
      hPr2,
      Ne.symm hPr2,
      if_true,
      if_false,
      and_true,
      true_and,
      and_false,
      false_and,
      ite_true,
      ite_false,
      not_false_iff,
      ne_eq,
      not_true,
      INode.mk.injEq]
    try simp only [hjZ, hjY, hjX2, hjP, hjr2, if_false, and_false, false_and, ite_false]
    try first
    | rfl
    | omega
    | (constructor <;> first | rfl | omega)

/-- Exact node contents after `_Rotate_RL` (P left case, `X` has a left subtree and has a right subtree). -/
theorem rotRL_P_left_nn (st : AvlState α) (Z Y X2 P r2 r3 : Int)
    (hZlen : Z.toNat < st.arena.length)
    (hYlen : Y.toNat < st.arena.length)
    (hX2len : X2.toNat < st.arena.length)
    (hPlen : P.toNat < st.arena.length)
    (hr2len : r2.toNat < st.arena.length)
    (hr3len : r3.toNat < st.arena.length)
    (hZY : Z.toNat ≠ Y.toNat)
    (hZX2 : Z.toNat ≠ X2.toNat)
    (hZP : Z.toNat ≠ P.toNat)
    (hZr2 : Z.toNat ≠ r2.toNat)
    (hZr3 : Z.toNat ≠ r3.toNat)
    (hYX2 : Y.toNat ≠ X2.toNat)
    (hYP : Y.toNat ≠ P.toNat)
    (hYr2 : Y.toNat ≠ r2.toNat)
    (hYr3 : Y.toNat ≠ r3.toNat)
    (hX2P : X2.toNat ≠ P.toNat)
    (hX2r2 : X2.toNat ≠ r2.toNat)
    (hX2r3 : X2.toNat ≠ r3.toNat)
    (hPr2 : P.toNat ≠ r2.toNat)
    (hPr3 : P.toNat ≠ r3.toNat)
    (hr2r3 : r2.toNat ≠ r3.toNat)
    (hPZi : P ≠ Z)
    (hr2Xi : r2 ≠ X2)
    (hr3Xi : r3 ≠ X2)
    (hZp : (st.getN Z).parent = P - Z)
    (hPl : (st.getN P).left = Z - P)
    (hZr : (st.getN Z).right = Y - Z)
    (hYp : (st.getN Y).parent = Z - Y)
    (hYl : (st.getN Y).left = X2 - Y)
    (hXp : (st.getN X2).parent = Y - X2)
    (hXl : (st.getN X2).left = r2 - X2)
    (hXr : (st.getN X2).right = r3 - X2) :
    (st._Rotate_RL Z Y X2).getN X2 = { st.getN X2 with parent := P - X2, left := Z - X2, right := Y - X2 } ∧
    (st._Rotate_RL Z Y X2).getN Z = { st.getN Z with parent := X2 - Z, right := r2 - Z } ∧
    (st._Rotate_RL Z Y X2).getN Y = { st.getN Y with parent := X2 - Y, left := r3 - Y } ∧
    (st._Rotate_RL Z Y X2).getN r2 = { st.getN r2 with parent := Z - r2 } ∧
    (st._Rotate_RL Z Y X2).getN r3 = { st.getN r3 with parent := Y - r3 } ∧
    (st._Rotate_RL Z Y X2).getN P = { st.getN P with left := X2 - P } ∧
    (∀ j : Int, j.toNat ≠ Z.toNat → j.toNat ≠ Y.toNat → j.toNat ≠ X2.toNat → j.toNat ≠ P.toNat → j.toNat ≠ r2.toNat → j.toNat ≠ r3.toNat →
      (st._Rotate_RL Z Y X2).getN j = st.getN j) := by
  have hNSP : st.NSafeParent Z = some P := by
    have h1 : P - Z ≠ 0 := sub_ne_zero_of_ne hPZi
    have h2 : Z + (P - Z) = P := by ring
    simp [NSafeParent, hZp, h1, _Ptr, h2]
  have hsub2 : r2 - X2 ≠ 0 := sub_ne_zero_of_ne hr2Xi
  have hslot2 : Z + ((X2 - Z) + (r2 - X2)) = r2 := by ring
  have hsub3 : r3 - X2 ≠ 0 := sub_ne_zero_of_ne hr3Xi
  have hslot3 : Y + ((X2 - Y) + (r3 - X2)) = r3 := by ring
  refine ⟨?_, ?_, ?_, ?_, ?_, ?_, ?_⟩ <;>
    [skip; skip; skip; skip; skip; skip; intro j hjZ hjY hjX2 hjP hjr2 hjr3] <;>
  · simp only [_Rotate_RL,
      hNSP,
      Nleft,
      Nright,
      _Ptr,
      getN_setP,
      getN_setL,
      getN_setR,
      arena_setP,
      arena_setL,
      arena_setR,
      arena_ite,
      hZp,
      hZr,
      hYp,
      hYl,
      hXp,
      hXl,
      hXr,
      hPl,
      neg_sub,
      hsub2,
      hslot2,
      hsub3,
      hslot3,
      hZlen,
      hYlen,
      hX2len,
      hPlen,
      hr2len,
      hr3len,
      hZY,
      Ne.symm hZY,
      hZX2,
      Ne.symm hZX2,
      hZP,
      Ne.symm hZP,
      hZr2,
      Ne.symm hZr2,
      hZr3,
      Ne.symm hZr3,
      hYX2,
      Ne.symm hYX2,
      hYP,
      Ne.symm hYP,
      hYr2,
      Ne.symm hYr2,
      hYr3,
      Ne.symm hYr3,
      hX2P,
      Ne.symm hX2P,
      hX2r2,
      Ne.symm hX2r2,
      hX2r3,
      Ne.symm hX2r3,
      hPr2,
      Ne.symm hPr2,
      hPr3,
      Ne.symm hPr3,
      hr2r3,
      Ne.symm hr2r3,
      if_true,
      if_false,
      and_true,
      true_and,
      and_false,
      false_and,
      ite_true,
      ite_false,
      not_false_iff,
      ne_eq,
      not_true,
      INode.mk.injEq]
    try simp only [hjZ, hjY, hjX2, hjP, hjr2, hjr3, if_false, and_false, false_and, ite_false]
    try first
    | rfl
    | omega
    | (constructor <;> first | rfl | omega)

/-- Exact node contents after `_Rotate_RL` (P right case, `X` lacks a left subtree and lacks a right subtree). -/
theorem rotRL_P_right_ll (st : AvlState α) (Z Y X2 P : Int)
    (hZlen : Z.toNat < st.arena.length)
    (hYlen : Y.toNat < st.arena.length)
    (hX2len : X2.toNat < st.arena.length)
    (hPlen : P.toNat < st.arena.length)
    (hZY : Z.toNat ≠ Y.toNat)
    (hZX2 : Z.toNat ≠ X2.toNat)
    (hZP : Z.toNat ≠ P.toNat)
    (hYX2 : Y.toNat ≠ X2.toNat)
    (hYP : Y.toNat ≠ P.toNat)
    (hX2P : X2.toNat ≠ P.toNat)
    (hPZi : P ≠ Z)
    (hZp : (st.getN Z).parent = P - Z)
    (hPr : (st.getN P).right = Z - P)
    (hPlne : (st.getN P).left ≠ Z - P)
    (hZr : (st.getN Z).right = Y - Z)
    (hYp : (st.getN Y).parent = Z - Y)
    (hYl : (st.getN Y).left = X2 - Y)
    (hXp : (st.getN X2).parent = Y - X2)
    (hXl : (st.getN X2).left = 0)
    (hXr : (st.getN X2).right = 0) :
    (st._Rotate_RL Z Y X2).getN X2 = { st.getN X2 with parent := P - X2, left := Z - X2, right := Y - X2 } ∧
    (st._Rotate_RL Z Y X2).getN Z = { st.getN Z with parent := X2 - Z, right := 0 } ∧
    (st._Rotate_RL Z Y X2).getN Y = { st.getN Y with parent := X2 - Y, left := 0 } ∧
    (st._Rotate_RL Z Y X2).getN P = { st.getN P with right := X2 - P } ∧
    (∀ j : Int, j.toNat ≠ Z.toNat → j.toNat ≠ Y.toNat → j.toNat ≠ X2.toNat → j.toNat ≠ P.toNat →
      (st._Rotate_RL Z Y X2).getN j = st.getN j) := by
  have hNSP : st.NSafeParent Z = some P := by
    have h1 : P - Z ≠ 0 := sub_ne_zero_of_ne hPZi
    have h2 : Z + (P - Z) = P := by ring
    simp [NSafeParent, hZp, h1, _Ptr, h2]
  refine ⟨?_, ?_, ?_, ?_, ?_⟩ <;>
    [skip; skip; skip; skip; intro j hjZ hjY hjX2 hjP] <;>
  · simp only [_Rotate_RL,
      hNSP,
      Nleft,
      Nright,
      _Ptr,
      getN_setP,
      getN_setL,
      getN_setR,
      arena_setP,
      arena_setL,
      arena_setR,
      arena_ite,
      hZp,
      hZr,
      hYp,
      hYl,
      hXp,
      hXl,
      hXr,
      hPr,
      hPlne,
      neg_sub,
      hZlen,
      hYlen,
      hX2len,
      hPlen,
      hZY,
      Ne.symm hZY,
      hZX2,
      Ne.symm hZX2,
      hZP,
      Ne.symm hZP,
      hYX2,
      Ne.symm hYX2,
      hYP,
      Ne.symm hYP,
      hX2P,
      Ne.symm hX2P,
      if_true,
      if_false,
      and_true,
      true_and,
      and_false,
      false_and,
      ite_true,
      ite_false,
      not_false_iff,
      ne_eq,
      not_true,
      INode.mk.injEq]
    try simp only [hjZ, hjY, hjX2, hjP, if_false, and_false, false_and, ite_false]
    try first
    | rfl
    | omega
    | (constructor <;> first | rfl | omega)

/-- Exact node contents after `_Rotate_RL` (P right case, `X` lacks a left subtree and has a right subtree). -/
theorem rotRL_P_right_ln (st : AvlState α) (Z Y X2 P r3 : Int)
    (hZlen : Z.toNat < st.arena.length)
    (hYlen : Y.toNat < st.arena.length)
    (hX2len : X2.toNat < st.arena.length)
    (hPlen : P.toNat < st.arena.length)
    (hr3len : r3.toNat < st.arena.length)
    (hZY : Z.toNat ≠ Y.toNat)
    (hZX2 : Z.toNat ≠ X2.toNat)
    (hZP : Z.toNat ≠ P.toNat)
    (hZr3 : Z.toNat ≠ r3.toNat)
    (hYX2 : Y.toNat ≠ X2.toNat)
    (hYP : Y.toNat ≠ P.toNat)
    (hYr3 : Y.toNat ≠ r3.toNat)
    (hX2P : X2.toNat ≠ P.toNat)
    (hX2r3 : X2.toNat ≠ r3.toNat)
    (hPr3 : P.toNat ≠ r3.toNat)
    (hPZi : P ≠ Z)
    (hr3Xi : r3 ≠ X2)
    (hZp : (st.getN Z).parent = P - Z)
    (hPr : (st.getN P).right = Z - P)
    (hPlne : (st.getN P).left ≠ Z - P)
    (hZr : (st.getN Z).right = Y - Z)
    (hYp : (st.getN Y).parent = Z - Y)
    (hYl : (st.getN Y).left = X2 - Y)
    (hXp : (st.getN X2).parent = Y - X2)
    (hXl : (st.getN X2).left = 0)
    (hXr : (st.getN X2).right = r3 - X2) :
    (st._Rotate_RL Z Y X2).getN X2 = { st.getN X2 with parent := P - X2, left := Z - X2, right := Y - X2 } ∧
    (st._Rotate_RL Z Y X2).getN Z = { st.getN Z with parent := X2 - Z, right := 0 } ∧
    (st._Rotate_RL Z Y X2).getN Y = { st.getN Y with parent := X2 - Y, left := r3 - Y } ∧
    (st._Rotate_RL Z Y X2).getN r3 = { st.getN r3 with parent := Y - r3 } ∧
    (st._Rotate_RL Z Y X2).getN P = { st.getN P with right := X2 - P } ∧
    (∀ j : Int, j.toNat ≠ Z.toNat → j.toNat ≠ Y.toNat → j.toNat ≠ X2.toNat → j.toNat ≠ P.toNat → j.toNat ≠ r3.toNat →
      (st._Rotate_RL Z Y X2).getN j = st.getN j) := by
  have hNSP : st.NSafeParent Z = some P := by
    have h1 : P - Z ≠ 0 := sub_ne_zero_of_ne hPZi
    have h2 : Z + (P - Z) = P := by ring
    simp [NSafeParent, hZp, h1, _Ptr, h2]
  have hsub3 : r3 - X2 ≠ 0 := sub_ne_zero_of_ne hr3Xi
  have hslot3 : Y + ((X2 - Y) + (r3 - X2)) = r3 := by ring
  refine ⟨?_, ?_, ?_, ?_, ?_, ?_⟩ <;>
    [skip; skip; skip; skip; skip; intro j hjZ hjY hjX2 hjP hjr3] <;>
  · simp only [_Rotate_RL,
      hNSP,
      Nleft,
      Nright,
      _Ptr,
      getN_setP,
      getN_setL,
      getN_setR,
      arena_setP,
      arena_setL,
      arena_setR,
      arena_ite,
      hZp,
      hZr,
      hYp,
      hYl,
      hXp,
      hXl,
      hXr,
      hPr,
      hPlne,
      neg_sub,
      hsub3,
      hslot3,
      hZlen,
      hYlen,
      hX2len,
      hPlen,
      hr3len,
      hZY,
      Ne.symm hZY,
      hZX2,
      Ne.symm hZX2,
      hZP,
      Ne.symm hZP,
      hZr3,
      Ne.symm hZr3,
      hYX2,
      Ne.symm hYX2,
      hYP,
      Ne.symm hYP,
      hYr3,
      Ne.symm hYr3,
      hX2P,
      Ne.symm hX2P,
      hX2r3,
      Ne.symm hX2r3,
      hPr3,
      Ne.symm hPr3,
      if_true,
      if_false,
      and_true,
      true_and,
      and_false,
      false_and,
      ite_true,
      ite_false,
      not_false_iff,
      ne_eq,
      not_true,
      INode.mk.injEq]
    try simp only [hjZ, hjY, hjX2, hjP, hjr3, if_false, and_false, false_and, ite_false]
    try first
    | rfl
    | omega
    | (constructor <;> first | rfl | omega)

/-- Exact node contents after `_Rotate_RL` (P right case, `X` has a left subtree and lacks a right subtree). -/
theorem rotRL_P_right_nl (st : AvlState α) (Z Y X2 P r2 : Int)
    (hZlen : Z.toNat < st.arena.length)
    (hYlen : Y.toNat < st.arena.length)
    (hX2len : X2.toNat < st.arena.length)
    (hPlen : P.toNat < st.arena.length)
    (hr2len : r2.toNat < st.arena.length)
    (hZY : Z.toNat ≠ Y.toNat)
    (hZX2 : Z.toNat ≠ X2.toNat)
    (hZP : Z.toNat ≠ P.toNat)
    (hZr2 : Z.toNat ≠ r2.toNat)
    (hYX2 : Y.toNat ≠ X2.toNat)
    (hYP : Y.toNat ≠ P.toNat)
    (hYr2 : Y.toNat ≠ r2.toNat)
    (hX2P : X2.toNat ≠ P.toNat)
    (hX2r2 : X2.toNat ≠ r2.toNat)
    (hPr2 : P.toNat ≠ r2.toNat)
    (hPZi : P ≠ Z)
    (hr2Xi : r2 ≠ X2)
    (hZp : (st.getN Z).parent = P - Z)
    (hPr : (st.getN P).right = Z - P)
    (hPlne : (st.getN P).left ≠ Z - P)
    (hZr : (st.getN Z).right = Y - Z)
    (hYp : (st.getN Y).parent = Z - Y)
    (hYl : (st.getN Y).left = X2 - Y)
    (hXp : (st.getN X2).parent = Y - X2)
    (hXl : (st.getN X2).left = r2 - X2)
    (hXr : (st.getN X2).right = 0) :
    (st._Rotate_RL Z Y X2).getN X2 = { st.getN X2 with parent := P - X2, left := Z - X2, right := Y - X2 } ∧
    (st._Rotate_RL Z Y X2).getN Z = { st.getN Z with parent := X2 - Z, right := r2 - Z } ∧
    (st._Rotate_RL Z Y X2).getN Y = { st.getN Y with parent := X2 - Y, left := 0 } ∧
    (st._Rotate_RL Z Y X2).getN r2 = { st.getN r2 with parent := Z - r2 } ∧
    (st._Rotate_RL Z Y X2).getN P = { st.getN P with right := X2 - P } ∧
    (∀ j : Int, j.toNat ≠ Z.toNat → j.toNat ≠ Y.toNat → j.toNat ≠ X2.toNat → j.toNat ≠ P.toNat → j.toNat ≠ r2.toNat →
      (st._Rotate_RL Z Y X2).getN j = st.getN j) := by
  have hNSP : st.NSafeParent Z = some P := by
    have h1 : P - Z ≠ 0 := sub_ne_zero_of_ne hPZi
    have h2 : Z + (P - Z) = P := by ring
    simp [NSafeParent, hZp, h1, _Ptr, h2]
  have hsub2 : r2 - X2 ≠ 0 := sub_ne_zero_of_ne hr2Xi
  have hslot2 : Z + ((X2 - Z) + (r2 - X2)) = r2 := by ring
  refine ⟨?_, ?_, ?_, ?_, ?_, ?_⟩ <;>
    [skip; skip; skip; skip; skip; intro j hjZ hjY hjX2 hjP hjr2] <;>
  · simp only [_Rotate_RL,
      hNSP,
      Nleft,
      Nright,
      _Ptr,
      getN_setP,
      getN_setL,
      getN_setR,
      arena_setP,
      arena_setL,
      arena_setR,
      arena_ite,
      hZp,
      hZr,
      hYp,
      hYl,
      hXp,
      hXl,
      hXr,
      hPr,
      hPlne,
      neg_sub,
      hsub2,
      hslot2,
      hZlen,
      hYlen,
      hX2len,
      hPlen,
      hr2len,
      hZY,
      Ne.symm hZY,
      hZX2,
      Ne.symm hZX2,
      hZP,
      Ne.symm hZP,
      hZr2,
      Ne.symm hZr2,
      hYX2,
      Ne.symm hYX2,
      hYP,
      Ne.symm hYP,
      hYr2,
      Ne.symm hYr2,
      hX2P,
      Ne.symm hX2P,
      hX2r2,
      Ne.symm hX2r2,
      hPr2,
      Ne.symm hPr2,
      if_true,
      if_false,
      and_true,
      true_and,
      and_false,
      false_and,
      ite_true,
      ite_false,
      not_false_iff,
      ne_eq,
      not_true,
      INode.mk.injEq]
    try simp only [hjZ, hjY, hjX2, hjP, hjr2, if_false, and_false, false_and, ite_false]
    try first
    | rfl
    | omega
    | (constructor <;> first | rfl | omega)

/-- Exact node contents after `_Rotate_RL` (P right case, `X` has a left subtree and has a right subtree). -/
theorem rotRL_P_right_nn (st : AvlState α) (Z Y X2 P r2 r3 : Int)
    (hZlen : Z.toNat < st.arena.length)
    (hYlen : Y.toNat < st.arena.length)
    (hX2len : X2.toNat < st.arena.length)
    (hPlen : P.toNat < st.arena.length)
    (hr2len : r2.toNat < st.arena.length)
    (hr3len : r3.toNat < st.arena.length)
    (hZY : Z.toNat ≠ Y.toNat)
    (hZX2 : Z.toNat ≠ X2.toNat)
    (hZP : Z.toNat ≠ P.toNat)
    (hZr2 : Z.toNat ≠ r2.toNat)
    (hZr3 : Z.toNat ≠ r3.toNat)
    (hYX2 : Y.toNat ≠ X2.toNat)
    (hYP : Y.toNat ≠ P.toNat)
    (hYr2 : Y.toNat ≠ r2.toNat)
    (hYr3 : Y.toNat ≠ r3.toNat)
    (hX2P : X2.toNat ≠ P.toNat)
    (hX2r2 : X2.toNat ≠ r2.toNat)
    (hX2r3 : X2.toNat ≠ r3.toNat)
    (hPr2 : P.toNat ≠ r2.toNat)
    (hPr3 : P.toNat ≠ r3.toNat)
    (hr2r3 : r2.toNat ≠ r3.toNat)
    (hPZi : P ≠ Z)
    (hr2Xi : r2 ≠ X2)
    (hr3Xi : r3 ≠ X2)
    (hZp : (st.getN Z).parent = P - Z)
    (hPr : (st.getN P).right = Z - P)
    (hPlne : (st.getN P).left ≠ Z - P)
    (hZr : (st.getN Z).right = Y - Z)
    (hYp : (st.getN Y).parent = Z - Y)
    (hYl : (st.getN Y).left = X2 - Y)
    (hXp : (st.getN X2).parent = Y - X2)
    (hXl : (st.getN X2).left = r2 - X2)
    (hXr : (st.getN X2).right = r3 - X2) :
    (st._Rotate_RL Z Y X2).getN X2 = { st.getN X2 with parent := P - X2, left := Z - X2, right := Y - X2 } ∧
    (st._Rotate_RL Z Y X2).getN Z = { st.getN Z with parent := X2 - Z, right := r2 - Z } ∧
    (st._Rotate_RL Z Y X2).getN Y = { st.getN Y with parent := X2 - Y, left := r3 - Y } ∧
    (st._Rotate_RL Z Y X2).getN r2 = { st.getN r2 with parent := Z - r2 } ∧
    (st._Rotate_RL Z Y X2).getN r3 = { st.getN r3 with parent := Y - r3 } ∧
    (st._Rotate_RL Z Y X2).getN P = { st.getN P with right := X2 - P } ∧
    (∀ j : Int, j.toNat ≠ Z.toNat → j.toNat ≠ Y.toNat → j.toNat ≠ X2.toNat → j.toNat ≠ P.toNat → j.toNat ≠ r2.toNat → j.toNat ≠ r3.toNat →
      (st._Rotate_RL Z Y X2).getN j = st.getN j) := by
  have hNSP : st.NSafeParent Z = some P := by
    have h1 : P - Z ≠ 0 := sub_ne_zero_of_ne hPZi
    have h2 : Z + (P - Z) = P := by ring
    simp [NSafeParent, hZp, h1, _Ptr, h2]
  have hsub2 : r2 - X2 ≠ 0 := sub_ne_zero_of_ne hr2Xi
  have hslot2 : Z + ((X2 - Z) + (r2 - X2)) = r2 := by ring
  have hsub3 : r3 - X2 ≠ 0 := sub_ne_zero_of_ne hr3Xi
  have hslot3 : Y + ((X2 - Y) + (r3 - X2)) = r3 := by ring
  refine ⟨?_, ?_, ?_, ?_, ?_, ?_, ?_⟩ <;>
    [skip; skip; skip; skip; skip; skip; intro j hjZ hjY hjX2 hjP hjr2 hjr3] <;>
  · simp only [_Rotate_RL,
      hNSP,
      Nleft,
      Nright,
      _Ptr,
      getN_setP,
      getN_setL,
      getN_setR,
      arena_setP,
      arena_setL,
      arena_setR,
      arena_ite,
      hZp,
      hZr,
      hYp,
      hYl,
      hXp,
      hXl,
      hXr,
      hPr,
      hPlne,
      neg_sub,
      hsub2,
      hslot2,
      hsub3,
      hslot3,
      hZlen,
      hYlen,
      hX2len,
      hPlen,
      hr2len,
      hr3len,
      hZY,
      Ne.symm hZY,
      hZX2,
      Ne.symm hZX2,
      hZP,
      Ne.symm hZP,
      hZr2,
      Ne.symm hZr2,
      hZr3,
      Ne.symm hZr3,
      hYX2,
      Ne.symm hYX2,
      hYP,
      Ne.symm hYP,
      hYr2,
      Ne.symm hYr2,
      hYr3,
      Ne.symm hYr3,
      hX2P,
      Ne.symm hX2P,
      hX2r2,
      Ne.symm hX2r2,
      hX2r3,
      Ne.symm hX2r3,
      hPr2,
      Ne.symm hPr2,
      hPr3,
      Ne.symm hPr3,
      hr2r3,
      Ne.symm hr2r3,
      if_true,
      if_false,
      and_true,
      true_and,
      and_false,
      false_and,
      ite_true,
      ite_false,
      not_false_iff,
      ne_eq,
      not_true,
      INode.mk.injEq]
    try simp only [hjZ, hjY, hjX2, hjP, hjr2, hjr3, if_false, and_false, false_and, ite_false]
    try first
    | rfl
    | omega
    | (constructor <;> first | rfl | omega)

end AvlVerif

end IndexedSet
